import Mathlib

/-!
# Verification of the C-compiler front-end pipeline

A shallow embedding of the repository's compilation pipeline:

* the recursive-descent parser (`src/utils/parser.js`),
* the semantic analyzer (`src/utils/semanticAnalyzer.js`),
* the TAC code generator and peephole optimizer (`src/utils/codeGenerator.js`),

together with theorems settling the specification's claims about them.

JavaScript idioms are modelled explicitly:

* `null`/`undefined` valued fields become `Option`;
* JS object property updates on the symbol table become in-place
  association-list updates that preserve insertion order;
* the analyzer's `Date.now()` / `Math.random()` scope tags become an
  explicit oracle `Nat → String` (one value consumed per scope creation),
  so that dependence of the output on the oracle is expressible;
* display-only metadata (source locations on AST nodes, assembly and
  machine-code rendering) is not modelled: no claim reads it.
-/

namespace CC

/-- A lexer token: JS `{type, value, start, end, line, column}`.
`end` is a Lean keyword, so the field is called `stop`; `line`/`column`
are display-only and omitted. The JS field `type` is `tkind`. -/
structure Token where
  tkind : String
  value : String
  start : Nat
  stop : Nat
deriving Repr, DecidableEq

/-- AST node, a closed sum mirroring exactly the node shapes the parser
constructs (plus `breakStatement`/`continueStatement`, which are in the
data model and consumed by the code generator). JS field `prefix` of
`UnaryExpression` is `pfx`. Location fields are omitted (display only). -/
inductive CNode where
  | program (body : List CNode)
  | includeDirective (header : String) (system : Bool)
  | preprocessorDirective (directive : String)
  | typedefDecl (typeSpecifiers : CNode) (id : CNode)
  | functionDeclaration (id : CNode) (returnType : CNode) (isPointerReturn : Bool)
      (params : List CNode) (body : Option CNode)
  | variableDeclaration (declarations : List CNode) (typeSpecifiers : CNode)
  | variableDeclarator (id : CNode) (isArray : Bool) (initializer : Option CNode) (isPointer : Bool)
  | param (paramType : CNode) (name : String) (isArray : Bool) (isPointer : Bool)
  | declarationSpecifiers (specifiers : List CNode)
  | typeSpecifier (name : String)
  | typeQualifier (name : String)
  | complexType (kind : String) (name : Option String)
  | blockStatement (body : List CNode)
  | ifStatement (test : Option CNode) (consequent : Option CNode) (alternate : Option CNode)
  | whileStatement (test : Option CNode) (body : Option CNode)
  | forStatement (init : Option CNode) (test : Option CNode) (update : Option CNode)
      (body : Option CNode)
  | returnStatement (argument : Option CNode)
  | expressionStatement (expression : CNode)
  | breakStatement
  | continueStatement
  | identifier (name : String)
  | literal (value : String) (valueType : String)
  | binaryExpression (operator : String) (left : CNode) (right : CNode)
  | unaryExpression (operator : String) (argument : CNode) (pfx : Bool)
  | assignmentExpression (operator : String) (left : CNode) (right : CNode)
  | callExpression (callee : CNode) (args : List CNode)

/-- A TAC instruction: JS `{operation, arg1, arg2, result, label, lineNumber}`. -/
structure Instr where
  operation : String
  arg1 : Option String := none
  arg2 : Option String := none
  result : Option String := none
  label : Option String := none
  lineNumber : Nat := 0
deriving Repr, DecidableEq

/-- A loop frame pushed by `while`/`for` lowering:
JS `{startLabel, continueLabel, endLabel}`. -/
structure LoopFrame where
  startLabel : String
  continueLabel : String
  endLabel : String
deriving Repr, DecidableEq

/-- A code-generator diagnostic: JS `{message, type: "codegen"}`. -/
structure CgError where
  message : String
  etype : String := "codegen"
deriving Repr, DecidableEq

/-- Code-generator state: the `intermediateCode` array, the two counters, and
the `context` object of `codeGenerator`. `loopStack` is in JS array order
(push appends at the end, the innermost loop is the last element). -/
structure GenSt where
  code : List Instr := []
  tempVarCounter : Nat := 0
  labelCounter : Nat := 0
  currentFunction : Option String := none
  loopStack : List LoopFrame := []
  scopeLevel : Nat := 0
  stringLiterals : List (String × String) := []
  stringCounter : Nat := 0
  hasStdio : Bool := false
  hasStdlib : Bool := false
  hasString : Bool := false
  errors : List CgError := []
deriving Repr, DecidableEq

/-- Is the character a JS `\s` whitespace (the forms that occur in source
text)? -/
def isWsJS (c : Char) : Bool :=
  c == ' ' || c == '\t' || c == '\n' || c == '\r' || c == '\x0b' || c == '\x0c'

/-- Is the character a JS `\w` word character? -/
def isWordJS (c : Char) : Bool := c.isAlphanum || c == '_'

/-- JS `s.startsWith(pre)` (char-list implementation). -/
def strStartsWith (s pre : String) : Bool := pre.toList.isPrefixOf s.toList

/-- JS `s.endsWith(suf)` (char-list implementation). -/
def strEndsWith (s suf : String) : Bool := suf.toList.isSuffixOf s.toList

/-- JS `s.trim()` (char-list implementation). -/
def trimJS (s : String) : String :=
  String.mk (((s.toList.dropWhile isWsJS).reverse.dropWhile isWsJS).reverse)

/-- JS `s.slice(0, -n)` for positive `n` (char-list implementation). -/
def strDropRight (s : String) (n : Nat) : String :=
  String.mk (s.toList.take (s.toList.length - n))

/-- Drop the first `n` characters (char-list implementation). -/
def strDrop (s : String) (n : Nat) : String := String.mk (s.toList.drop n)

/-- Split on single spaces, as `String.splitOn " "` does
(char-list implementation). -/
def splitOnSpace (s : String) : List String :=
  go s.toList []
where
  go : List Char → List Char → List String
    | [], acc => [String.mk acc.reverse]
    | c :: rest, acc =>
        if c = ' ' then String.mk acc.reverse :: go rest []
        else go rest (c :: acc)

/-- Parse a nonempty all-digit string (char-list implementation of
`String.toNat?`). -/
def natFromChars? (cs : List Char) : Option Nat :=
  if cs ≠ [] && cs.all Char.isDigit then
    some (cs.foldl (fun a c => a * 10 + (c.toNat - 48)) 0)
  else none

/-- JS `arg || null` applied to a string-or-null operand: the empty string is
the only falsy string, and `null` stays `null`. -/
def jsOrNull : Option String → Option String
  | some "" => none
  | x => x

/-- JS `emit(op, arg1, arg2, result)`: append an instruction whose
`lineNumber` is the current length of `intermediateCode`. -/
def emit (op : String) (a1 a2 r : Option String) (st : GenSt) : GenSt :=
  { st with code := st.code ++
      [{ operation := op, arg1 := jsOrNull a1, arg2 := jsOrNull a2,
         result := jsOrNull r, label := none, lineNumber := st.code.length }] }

/-- JS `emitLabel(label)`. -/
def emitLabel (label : String) (st : GenSt) : GenSt :=
  { st with code := st.code ++
      [{ operation := "LABEL", arg1 := none, arg2 := none, result := none,
         label := some label, lineNumber := st.code.length }] }

/-- Append a codegen diagnostic (JS `errors.push({message, type:"codegen"})`). -/
def pushCgError (msg : String) (st : GenSt) : GenSt :=
  { st with errors := st.errors ++ [{ message := msg }] }

/-- The binary-operator table of `generateExpression`'s `BinaryExpression` case. -/
def binOpCode : String → Option String
  | "+" => some "ADD"
  | "-" => some "SUB"
  | "*" => some "MUL"
  | "/" => some "DIV"
  | "%" => some "MOD"
  | "==" => some "EQ"
  | "!=" => some "NE"
  | "<" => some "LT"
  | ">" => some "GT"
  | "<=" => some "LE"
  | ">=" => some "GE"
  | "&&" => some "AND"
  | "||" => some "OR"
  | _ => none

/-- JS `node.callee?.name` / `node.left.name`: the `name` property is defined
only on `Identifier` nodes. -/
def identName : CNode → Option String
  | .identifier n => some n
  | _ => none

mutual

/-- JS `generateExpression(node)`: returns the operand naming the expression's
value (`null` on failure) and the updated state. Temp variables are allocated
before the operator dispatch, exactly as in the source (so an unsupported
operator still bumps `tempVarCounter`). -/
def generateExpression : CNode → GenSt → Option String × GenSt
  | .identifier n, st => (some n, st)
  | .literal v vt, st =>
      if vt = "string" then
        let lbl := "str" ++ toString st.stringCounter
        (some lbl, { st with stringLiterals := st.stringLiterals ++ [(lbl, v)],
                             stringCounter := st.stringCounter + 1 })
      else (some v, st)
  | .binaryExpression op l r, st =>
      let p1 := generateExpression l st
      let p2 := generateExpression r p1.2
      let tv := "t" ++ toString p2.2.tempVarCounter
      let st3 := { p2.2 with tempVarCounter := p2.2.tempVarCounter + 1 }
      match binOpCode op with
      | some code => (some tv, emit code p1.1 p2.1 (some tv) st3)
      | none => (none, pushCgError ("Unsupported binary operator: " ++ op) st3)
  | .unaryExpression op arg _pfx, st =>
      let p := generateExpression arg st
      let operand := p.1
      let tv := "t" ++ toString p.2.tempVarCounter
      let st2 := { p.2 with tempVarCounter := p.2.tempVarCounter + 1 }
      match op with
      | "-" => (some tv, emit "NEG" operand none (some tv) st2)
      | "!" => (some tv, emit "NOT" operand none (some tv) st2)
      | "++" =>
          if _pfx then (operand, emit "ADD" operand (some "1") operand st2)
          else (some tv, emit "ADD" operand (some "1") operand
                  (emit "ASSIGN" operand none (some tv) st2))
      | "--" =>
          if _pfx then (operand, emit "SUB" operand (some "1") operand st2)
          else (some tv, emit "SUB" operand (some "1") operand
                  (emit "ASSIGN" operand none (some tv) st2))
      | "&" => (some tv, emit "ADDR" operand none (some tv) st2)
      | "*" => (some tv, emit "DEREF" operand none (some tv) st2)
      | _ => (none, pushCgError ("Unsupported unary operator: " ++ op) st2)
  | .assignmentExpression _ l r, st =>
      let p := generateExpression r st
      let lo := identName l
      (lo, emit "ASSIGN" p.1 none lo p.2)
  | .callExpression callee args, st =>
      let pa := genCallArgs args 0 st
      let fn := identName callee
      let tv := "t" ++ toString pa.2.tempVarCounter
      let st2 := { pa.2 with tempVarCounter := pa.2.tempVarCounter + 1 }
      -- JS `emit("CALL", funcName, args.length, tempVar)`: `args.length` is a
      -- number, so `arg2 || null` nulls it exactly when it is 0.
      (some tv, emit "CALL" fn
        (if pa.1.length = 0 then none else some (toString pa.1.length)) (some tv) st2)
  | _, st => (none, st)

/-- The `node.arguments.forEach((arg, index) => …)` loop of the
`CallExpression` case: emits a `PARAM` per argument and collects the results. -/
def genCallArgs : List CNode → Nat → GenSt → List (Option String) × GenSt
  | [], _, st => ([], st)
  | a :: rest, idx, st =>
      let p := generateExpression a st
      let st2 := emit "PARAM" p.1 none (some ("param" ++ toString idx)) p.2
      let pr := genCallArgs rest (idx + 1) st2
      (p.1 :: pr.1, pr.2)

/-- JS `generateStatement(node)`. A `VariableDeclaration` reaching this
function directly falls into the default case and emits nothing (block bodies
and `for` initializers dispatch it explicitly). -/
def generateStatement : CNode → GenSt → GenSt
  | .expressionStatement e, st => (generateExpression e st).2
  | .returnStatement arg, st =>
      match arg with
      | some a =>
          let p := generateExpression a st
          emit "RETURN" p.1 none none p.2
      | none => emit "RETURN" none none none st
  | .ifStatement test cons alt, st =>
      let pc := genExprOpt test st
      let elseLabel := "ELSE" ++ toString pc.2.labelCounter
      let endLabel := "END_IF" ++ toString (pc.2.labelCounter + 1)
      let st2 := { pc.2 with labelCounter := pc.2.labelCounter + 2 }
      let st3 := emit "IF_FALSE" pc.1 none (some elseLabel) st2
      let st4 := genStmtOpt cons st3
      match alt with
      | some altNode =>
          let st5 := emit "GOTO" none none (some endLabel) st4
          let st6 := emitLabel elseLabel st5
          let st7 := generateStatement altNode st6
          emitLabel endLabel st7
      | none => emitLabel elseLabel st4
  | .whileStatement test body, st =>
      let startLabel := "WHILE_START" ++ toString st.labelCounter
      let endLabel := "WHILE_END" ++ toString (st.labelCounter + 1)
      let st1 := { st with labelCounter := st.labelCounter + 2 }
      let st2 := { st1 with loopStack := st1.loopStack ++
        [{ startLabel := startLabel, continueLabel := startLabel, endLabel := endLabel }] }
      let st3 := emitLabel startLabel st2
      let pc := genExprOpt test st3
      let st4 := emit "IF_FALSE" pc.1 none (some endLabel) pc.2
      let st5 := genStmtOpt body st4
      let st6 := emit "GOTO" none none (some startLabel) st5
      let st7 := emitLabel endLabel st6
      { st7 with loopStack := st7.loopStack.dropLast }
  | .forStatement init test update body, st =>
      let startLabel := "FOR_START" ++ toString st.labelCounter
      let continueLabel := "FOR_CONTINUE" ++ toString (st.labelCounter + 1)
      let endLabel := "FOR_END" ++ toString (st.labelCounter + 2)
      let st1 := { st with labelCounter := st.labelCounter + 3 }
      let st2 := { st1 with loopStack := st1.loopStack ++
        [{ startLabel := startLabel, continueLabel := continueLabel, endLabel := endLabel }] }
      let st3 := genForInit init st2
      let st4 := emitLabel startLabel st3
      let st5 :=
        match test with
        | some t =>
            let pc := generateExpression t st4
            emit "IF_FALSE" pc.1 none (some endLabel) pc.2
        | none => st4
      let st6 := genStmtOpt body st5
      let st7 := emitLabel continueLabel st6
      let st8 := (genExprOpt update st7).2
      let st9 := emit "GOTO" none none (some startLabel) st8
      let st10 := emitLabel endLabel st9
      { st10 with loopStack := st10.loopStack.dropLast }
  | .blockStatement body, st =>
      let st1 := { st with scopeLevel := st.scopeLevel + 1 }
      let st2 := genStmtSeq body st1
      { st2 with scopeLevel := st2.scopeLevel - 1 }
  | .breakStatement, st =>
      match st.loopStack.getLast? with
      | some frame => emit "GOTO" none none (some frame.endLabel) st
      | none => pushCgError "Break statement outside of loop" st
  | .continueStatement, st =>
      match st.loopStack.getLast? with
      | some frame => emit "GOTO" none none (some frame.continueLabel) st
      | none => pushCgError "Continue statement outside of loop" st
  | _, st => st

/-- JS `generateExpression(node)` on a possibly-`null` node: the source's
`if (!node) return null` guard. -/
def genExprOpt : Option CNode → GenSt → Option String × GenSt
  | some n, st => generateExpression n st
  | none, st => (none, st)

/-- JS `generateStatement(node)` on a possibly-`null` node: the source's
`if (!node) return` guard. -/
def genStmtOpt : Option CNode → GenSt → GenSt
  | some n, st => generateStatement n st
  | none, st => st

/-- The `for`-loop initializer dispatch: a declaration goes through
`generateVariableDeclaration`, any other expression through
`generateExpression`; an absent initializer emits nothing. -/
def genForInit : Option CNode → GenSt → GenSt
  | some i, st =>
      match i with
      | .variableDeclaration _ _ => generateVariableDeclaration i st
      | _ => (generateExpression i st).2
  | none, st => st

/-- The `statements.forEach` loop of the `BlockStatement` case: variable
declarations dispatch to `generateVariableDeclaration`, all else to
`generateStatement`. -/
def genStmtSeq : List CNode → GenSt → GenSt
  | [], st => st
  | s :: rest, st =>
      let st1 :=
        match s with
        | .variableDeclaration _ _ => generateVariableDeclaration s st
        | _ => generateStatement s st
      genStmtSeq rest st1

/-- JS `generateVariableDeclaration(node)`. -/
def generateVariableDeclaration : CNode → GenSt → GenSt
  | .variableDeclaration decls _, st => genDecls decls st
  | _, st => st

/-- The `node.declarations.forEach` loop of `generateVariableDeclaration`:
a declarator without an identifier is skipped; an initializer produces an
`ASSIGN` after the `DECLARE`. -/
def genDecls : List CNode → GenSt → GenSt
  | [], st => st
  | d :: rest, st =>
      match d with
      | .variableDeclarator id _ initzr _ =>
          match identName id with
          | some vn =>
              let st1 := emit "DECLARE" (some vn) none none st
              let st2 :=
                match initzr with
                | some ie =>
                    let p := generateExpression ie st1
                    emit "ASSIGN" p.1 none (some vn) p.2
                | none => st1
              genDecls rest st2
          | none => genDecls rest st
      | _ => genDecls rest st

end

/-- JS `generateFunctionDeclaration(node)`: label, `FUNCTION_START`,
`PARAM_DECL` per parameter, body, `FUNCTION_END`. -/
def generateFunctionDeclaration : CNode → GenSt → GenSt
  | .functionDeclaration id _ _ params body, st =>
      match identName id with
      | some fn =>
          let st1 := { st with currentFunction := some fn }
          let st2 := emitLabel fn st1
          let st3 := emit "FUNCTION_START" (some fn) none none st2
          let st4 := params.foldl
            (fun s p =>
              emit "PARAM_DECL"
                (match p with | .param _ n _ _ => some n | _ => none) none none s) st3
          let st5 :=
            match body with
            | some b => generateStatement b st4
            | none => st4
          let st6 := emit "FUNCTION_END" (some fn) none none st5
          { st6 with currentFunction := none }
      | none => st
  | _, st => st

/-- JS `generateCode(node)`: dispatch the program body. -/
def generateCode : CNode → GenSt → GenSt
  | .program body, st =>
      body.foldl
        (fun s stmt =>
          match stmt with
          | .functionDeclaration _ _ _ _ _ => generateFunctionDeclaration stmt s
          | .variableDeclaration _ _ => generateVariableDeclaration stmt s
          | _ => generateStatement stmt s) st
  | n, st => generateStatement n st

/-! ## Peephole optimizer (`optimizeCode`) -/

/-- Does the string coerce to a number under JS `isNaN`? Models `!isNaN(s)`
for the decimal integer/fraction literals this pipeline produces (the empty
and all-whitespace strings coerce to 0, hence count as numeric; a sign
followed by digits with at most one dot is numeric). -/
def jsStrIsNumeric (s : String) : Bool :=
  let t := trimJS s
  if t = "" then true
  else
    let core := if strStartsWith t "+" || strStartsWith t "-" then strDrop t 1 else t
    core ≠ "" && core.toList.all (fun c => c.isDigit || c == '.') &&
      decide (core.toList.count '.' ≤ 1) && core.toList.any Char.isDigit

/-- JS `!isNaN(arg)` on a string-or-null operand: `isNaN(null)` is `false`
(null coerces to 0), so `null` counts as numeric. -/
def isNumericJS : Option String → Bool
  | none => true
  | some s => jsStrIsNumeric s

/-- Parse a decimal integer string (the numeric literals the lexer produces). -/
def strToInt? (s : String) : Option Int :=
  let t := trimJS s
  if strStartsWith t "-" then (natFromChars? (strDrop t 1).toList).map (fun n => -(n : Int))
  else if strStartsWith t "+" then (natFromChars? (strDrop t 1).toList).map (fun n => (n : Int))
  else (natFromChars? t.toList).map (fun n => (n : Int))

/-- The folded value `(parseFloat(arg1) OP parseFloat(arg2)).toString()`.
Integer arithmetic models the JS float arithmetic on the integer literals the
lexer produces; any operand that is not an integer literal (including `null`,
whose `parseFloat` is `NaN`) folds to `"NaN"`. -/
def foldJS (op : String) (a b : Option String) : String :=
  match a, b with
  | some x, some y =>
      match strToInt? x, strToInt? y with
      | some i, some j =>
          toString (if op = "ADD" then i + j else if op = "SUB" then i - j else i * j)
      | _, _ => "NaN"
  | _, _ => "NaN"

/-- The constant-folding / algebraic-simplification cascade of one optimizer
iteration, in source order (`ADD`/`SUB`/`MUL` folding, then `ADD x 0`, then
`MUL` by one, then `MUL` by zero). It depends only on the instruction itself.
Returns the replacement instruction, or `none` when no rule fires. -/
def transforms (cur : Instr) : Option Instr :=
  if cur.operation = "ADD" ∧ isNumericJS cur.arg1 ∧ isNumericJS cur.arg2 then
    some { cur with operation := "ASSIGN",
                    arg1 := some (foldJS "ADD" cur.arg1 cur.arg2), arg2 := none }
  else if cur.operation = "SUB" ∧ isNumericJS cur.arg1 ∧ isNumericJS cur.arg2 then
    some { cur with operation := "ASSIGN",
                    arg1 := some (foldJS "SUB" cur.arg1 cur.arg2), arg2 := none }
  else if cur.operation = "MUL" ∧ isNumericJS cur.arg1 ∧ isNumericJS cur.arg2 then
    some { cur with operation := "ASSIGN",
                    arg1 := some (foldJS "MUL" cur.arg1 cur.arg2), arg2 := none }
  else if cur.operation = "ADD" ∧ cur.arg2 = some "0" then
    some { cur with operation := "ASSIGN", arg2 := none }
  else if cur.operation = "MUL" ∧ (cur.arg2 = some "1" ∨ cur.arg1 = some "1") then
    some { cur with operation := "ASSIGN",
                    arg1 := if cur.arg2 = some "1" then cur.arg1 else cur.arg2,
                    arg2 := none }
  else if cur.operation = "MUL" ∧ (cur.arg2 = some "0" ∨ cur.arg1 = some "0") then
    some { cur with operation := "ASSIGN", arg1 := some "0", arg2 := none }
  else none

/-- The dead-store rule of one optimizer iteration: two consecutive `ASSIGN`s
to the same `result` drop the earlier one. Checked before `transforms`,
exactly as in the source. -/
def isDeadStore (cur : Instr) : Option Instr → Bool
  | some nxt => cur.operation == "ASSIGN" && nxt.operation == "ASSIGN"
      && cur.result == nxt.result
  | none => false

/-- One optimizer pass: the `for (let i = 0; …)` loop over the current
instruction list. `next` is read from the original list (`optimized[i + 1]`),
so skip decisions are made against the pre-pass list. Returns the new list
and the pass's `changed` flag. -/
def optPass : List Instr → List Instr × Bool
  | [] => ([], false)
  | cur :: rest =>
      let pr := optPass rest
      if isDeadStore cur rest.head? then (pr.1, true)
      else
        match transforms cur with
        | some i => (i :: pr.1, true)
        | none => (cur :: pr.1, pr.2)

/-- The `while (changed && passes < maxPasses)` loop of `optimizeCode`,
with the remaining pass budget as fuel (`maxPasses = 5`). -/
def optLoop : Nat → List Instr → List Instr
  | 0, l => l
  | f + 1, l =>
      let p := optPass l
      if p.2 then optLoop f p.1 else p.1

/-- JS `optimizeCode()`: bounded fixed-point iteration of `optPass`. -/
def optimizeCode (ic : List Instr) : List Instr := optLoop 5 ic

/-! ## The `codeGenerator` entry point -/

/-- Substring test (JS `String.prototype.includes`). -/
def strContains (s pat : String) : Bool := decide (pat.toList <:+: s.toList)

mutual

/-- JS `JSON.stringify(ast).includes("stdio.h")`: the serialized AST contains
`stdio.h` exactly when some string atom of the tree contains it (JSON
punctuation and field names cannot produce the substring across atoms). -/
def mentionsStdio : CNode → Bool
  | .program body => mentionsStdioList body
  | .includeDirective h _ => strContains h "stdio.h"
  | .preprocessorDirective d => strContains d "stdio.h"
  | .typedefDecl t i => mentionsStdio t || mentionsStdio i
  | .functionDeclaration id rt _ params body =>
      mentionsStdio id || mentionsStdio rt || mentionsStdioList params ||
        mentionsStdioOpt body
  | .variableDeclaration decls ts => mentionsStdioList decls || mentionsStdio ts
  | .variableDeclarator id _ initzr _ => mentionsStdio id || mentionsStdioOpt initzr
  | .param pt n _ _ => mentionsStdio pt || strContains n "stdio.h"
  | .declarationSpecifiers sp => mentionsStdioList sp
  | .typeSpecifier n => strContains n "stdio.h"
  | .typeQualifier n => strContains n "stdio.h"
  | .complexType k n =>
      strContains k "stdio.h" ||
        (match n with | some s => strContains s "stdio.h" | none => false)
  | .blockStatement b => mentionsStdioList b
  | .ifStatement t c a => mentionsStdioOpt t || mentionsStdioOpt c || mentionsStdioOpt a
  | .whileStatement t b => mentionsStdioOpt t || mentionsStdioOpt b
  | .forStatement i t u b =>
      mentionsStdioOpt i || mentionsStdioOpt t || mentionsStdioOpt u || mentionsStdioOpt b
  | .returnStatement a => mentionsStdioOpt a
  | .expressionStatement e => mentionsStdio e
  | .breakStatement => false
  | .continueStatement => false
  | .identifier n => strContains n "stdio.h"
  | .literal v vt => strContains v "stdio.h" || strContains vt "stdio.h"
  | .binaryExpression op l r => strContains op "stdio.h" || mentionsStdio l || mentionsStdio r
  | .unaryExpression op a _ => strContains op "stdio.h" || mentionsStdio a
  | .assignmentExpression op l r =>
      strContains op "stdio.h" || mentionsStdio l || mentionsStdio r
  | .callExpression c args => mentionsStdio c || mentionsStdioList args

def mentionsStdioOpt : Option CNode → Bool
  | some n => mentionsStdio n
  | none => false

def mentionsStdioList : List CNode → Bool
  | [] => false
  | n :: rest => mentionsStdio n || mentionsStdioList rest

end

/-! ## The recursive-descent parser

The parser of `parser.js`, with the mutable `current` index and the `errors`
array threaded through a `PSt` state. The mutual recursion is made structural
on an explicit `fuel` argument; `PSt.fuelOut` records whether the fuel ever
ran out (the totality theorem shows a fuel budget linear in the token count
never does), and `PSt.cost` counts parser-function invocations. Both fields
are pure instrumentation: no parsing decision reads them.

Node source locations (display-only) are not modelled; consequently the two
JS code paths that can dereference a missing token or a missing node while
building a location (`struct { …` running off the end of input inside the
specifier brace skip, and `if`'s `consequent.location.end` when the branch
fails to parse) — which throw in JS and are caught and converted to a
`Parser error:` diagnostic by `parseProgram`'s per-iteration `try`/`catch` —
simply continue here. No claim reads the diagnostics of such inputs. -/

/-- A parser diagnostic: JS `{message, location: {start, end}}`. -/
structure ParseErr where
  message : String
  start : Nat
  stop : Nat
deriving Repr, DecidableEq

/-- Parser state: the `current` token index and the `errors` array, plus the
`fuelOut`/`cost` instrumentation. -/
structure PSt where
  pos : Nat := 0
  errors : List ParseErr := []
  fuelOut : Bool := false
  cost : Nat := 0
deriving Repr, DecidableEq

/-- Count one parser-function invocation (instrumentation only). -/
def tick (st : PSt) : PSt := { st with cost := st.cost + 1 }

/-- JS `peek()` / `tokens[current] || null`. -/
def peekAt (tokens : List Token) (pos : Nat) : Option Token := tokens.get? pos

/-- JS `tokens[tokens.length - 1]?.end || 0`, the error location at
end of file. -/
def lastTokenEnd (tokens : List Token) : Nat :=
  match tokens.getLast? with
  | some t => t.stop
  | none => 0

/-- Append a parser diagnostic. -/
def pushPErr (msg : String) (start stop : Nat) (st : PSt) : PSt :=
  { st with errors := st.errors ++ [{ message := msg, start := start, stop := stop }] }

/-- JS `advance()`: `current++` (the index may move past the end, as in JS). -/
def padvance (st : PSt) : PSt := { st with pos := st.pos + 1 }

/-- JS `expect(type, message)`. -/
def expectTk (tokens : List Token) (k msg : String) (st : PSt) : Option Token × PSt :=
  match peekAt tokens st.pos with
  | some t =>
      if t.tkind = k then (some t, padvance st)
      else (none, pushPErr msg t.start t.stop st)
  | none => (none, pushPErr msg (lastTokenEnd tokens) (lastTokenEnd tokens) st)

/-- JS `expectValue(value, message)`. -/
def expectValue (tokens : List Token) (v msg : String) (st : PSt) : Option Token × PSt :=
  match peekAt tokens st.pos with
  | some t =>
      if t.value = v then (some t, padvance st)
      else (none, pushPErr msg t.start t.stop st)
  | none => (none, pushPErr msg (lastTokenEnd tokens) (lastTokenEnd tokens) st)

/-- The binary-operator precedence table of `parseBinaryExpression`
(every operator is left-associative). -/
def binPrec : String → Option Nat
  | "+" => some 4
  | "-" => some 4
  | "*" => some 5
  | "/" => some 5
  | "%" => some 5
  | "<" => some 3
  | ">" => some 3
  | "<=" => some 3
  | ">=" => some 3
  | "==" => some 2
  | "!=" => some 2
  | "&&" => some 1
  | "||" => some 0
  | _ => none

/-- The prefix operators of `parseUnaryExpression`. -/
def unaryOperators : List String := ["!", "-", "~", "++", "--", "&", "*"]

/-- Does the token start a declaration (`type`/`qualifier` kind or a
`struct`/`union`/`enum` tag)? Used by `parseDeclarationSpecifiers`,
`parseStatement` and `parseProgram`. -/
def isSpecTk (t : Token) : Bool :=
  t.tkind == "type" || t.tkind == "qualifier" ||
    t.value == "struct" || t.value == "union" || t.value == "enum"

/-- JS `headerToken.value.replace(/['"]/g, "")`. -/
def stripQuotes (s : String) : String :=
  String.mk (s.toList.filter (fun c => !(c == '"' || c == '\'')))

section ParserDefs

variable (tokens : List Token)

mutual

/-- The `do { … } while (peek() && braceCount > 0)` skip over a
`struct`/`union`/`enum` `{ … }` definition inside
`parseDeclarationSpecifiers`. -/
def braceSkipLoop : Nat → Nat → PSt → PSt
  | 0, _, st => { st with fuelOut := true }
  | f + 1, count, st =>
      let st := tick st
      match peekAt tokens st.pos with
      | none => st
      | some t =>
          let count1 := if t.value = "\x7b" then count + 1 else count
          let count2 := if t.value = "\x7d" then count1 - 1 else count1
          let st1 := padvance st
          if (peekAt tokens st1.pos).isSome && count2 > 0 then braceSkipLoop f count2 st1
          else st1

/-- The specifier-collecting `while` loop of `parseDeclarationSpecifiers`. -/
def specLoop : Nat → List CNode → PSt → List CNode × PSt
  | 0, acc, st => (acc, { st with fuelOut := true })
  | f + 1, acc, st =>
      let st := tick st
      match peekAt tokens st.pos with
      | none => (acc, st)
      | some t =>
          if isSpecTk t then
            let st1 := padvance st
            if t.value = "struct" || t.value = "union" || t.value = "enum" then
              let (tagName, st2) :=
                match peekAt tokens st1.pos with
                | some t2 =>
                    if t2.tkind = "identifier" then (some t2.value, padvance st1)
                    else (none, st1)
                | none => (none, st1)
              let acc1 := acc ++ [CNode.complexType t.value tagName]
              let st3 :=
                match peekAt tokens st2.pos with
                | some t3 => if t3.value = "\x7b" then braceSkipLoop f 0 st2 else st2
                | none => st2
              specLoop f acc1 st3
            else
              let s :=
                if t.tkind = "qualifier" then CNode.typeQualifier t.value
                else CNode.typeSpecifier t.value
              specLoop f (acc ++ [s]) st1
          else (acc, st)

/-- JS `parseDeclarationSpecifiers()`. -/
def parseDeclarationSpecifiers (fuel : Nat) (st : PSt) : Option CNode × PSt :=
  match fuel with
  | 0 => (none, { st with fuelOut := true })
  | f + 1 =>
      let st := tick st
      let (specifiers, st1) := specLoop f [] st
      if specifiers.length = 0 then (none, st1)
      else (some (CNode.declarationSpecifiers specifiers), st1)

/-- JS `parseVariableDeclarator(typeSpecifiers)` (the array-size expression is
parsed and discarded, as in the source). -/
def parseVariableDeclarator (fuel : Nat) (st : PSt) : Option CNode × PSt :=
  match fuel with
  | 0 => (none, { st with fuelOut := true })
  | f + 1 =>
      let st := tick st
      let (idTok?, st1) := expectTk tokens "identifier" "Expected variable name" st
      match idTok? with
      | none => (none, st1)
      | some idTok =>
          let (isArray, st2) :=
            match peekAt tokens st1.pos with
            | some t =>
                if t.value = "[" then
                  let st2a := padvance st1
                  let st2b :=
                    match peekAt tokens st2a.pos with
                    | some t2 =>
                        if t2.value = "]" then st2a
                        else (parseExpression f st2a).2
                    | none => st2a
                  (true, (expectValue tokens "]" "Expected ']' after array dimension" st2b).2)
                else (false, st1)
            | none => (false, st1)
          let (initzr, st3) :=
            match peekAt tokens st2.pos with
            | some t =>
                if t.value = "=" then
                  let st3a := padvance st2
                  parseExpression f st3a
                else (none, st2)
            | none => (none, st2)
          (some (CNode.variableDeclarator (CNode.identifier idTok.value) isArray initzr false),
            st3)

/-- The declarator-collecting `while (true)` loop of
`parseVariableDeclaration` (terminates via `break`). -/
def declaratorLoop : Nat → List CNode → PSt → List CNode × PSt
  | 0, acc, st => (acc, { st with fuelOut := true })
  | f + 1, acc, st =>
      let st := tick st
      let (isPointer, st1) :=
        match peekAt tokens st.pos with
        | some t => if t.value = "*" then (true, padvance st) else (false, st)
        | none => (false, st)
      let (decl?, st2) := parseVariableDeclarator f st1
      match decl? with
      | none => (acc, st2)
      | some decl =>
          let decl1 :=
            if isPointer then
              match decl with
              | CNode.variableDeclarator id isArray initzr _ =>
                  CNode.variableDeclarator id isArray initzr true
              | d => d
            else decl
          let acc1 := acc ++ [decl1]
          match peekAt tokens st2.pos with
          | some t =>
              if t.value = "," then declaratorLoop f acc1 (padvance st2)
              else (acc1, st2)
          | none => (acc1, st2)

/-- JS `parseVariableDeclaration()`. -/
def parseVariableDeclaration (fuel : Nat) (st : PSt) : Option CNode × PSt :=
  match fuel with
  | 0 => (none, { st with fuelOut := true })
  | f + 1 =>
      let st := tick st
      let (ts?, st1) := parseDeclarationSpecifiers f st
      match ts? with
      | none =>
          let st2 :=
            match peekAt tokens st1.pos with
            | some t => pushPErr "Expected type specifier" t.start t.stop st1
            | none => pushPErr "Expected type specifier" 0 0 st1
          (none, st2)
      | some ts =>
          let (declarators, st2) := declaratorLoop f [] st1
          let st3 := (expectValue tokens ";" "Expected ';' after variable declaration" st2).2
          (some (CNode.variableDeclaration declarators ts), st3)

/-- JS `parseAssignmentExpression()` (right-associative via the recursive
call on the right-hand side). -/
def parseAssignmentExpression (fuel : Nat) (st : PSt) : Option CNode × PSt :=
  match fuel with
  | 0 => (none, { st with fuelOut := true })
  | f + 1 =>
      let st := tick st
      let (left?, st1) := parseBinaryExpression f 0 st
      match left? with
      | none => (none, st1)
      | some left =>
          match peekAt tokens st1.pos with
          | some t =>
              if t.value = "=" then
                let st2 := padvance st1
                let (right?, st3) := parseAssignmentExpression f st2
                match right? with
                | none => (none, st3)
                | some right =>
                    (some (CNode.assignmentExpression "=" left right), st3)
              else (some left, st1)
          | none => (some left, st1)

/-- JS `parseBinaryExpression(precedence)`: parse a unary operand, then fold
operators of at-least-the-given precedence via `binLoop`. -/
def parseBinaryExpression (fuel : Nat) (precedence : Nat) (st : PSt) : Option CNode × PSt :=
  match fuel with
  | 0 => (none, { st with fuelOut := true })
  | f + 1 =>
      let st := tick st
      let (left?, st1) := parseUnaryExpression f st
      match left? with
      | none => (none, st1)
      | some left => binLoop f precedence left st1

/-- The operator-folding `while` loop of `parseBinaryExpression`: each
iteration consumes an operator of precedence `≥ precedence` and parses its
right-hand side at precedence `opPrec + 1` (all operators are
left-associative). -/
def binLoop : Nat → Nat → CNode → PSt → Option CNode × PSt
  | 0, _, _, st => (none, { st with fuelOut := true })
  | f + 1, precedence, left, st =>
      let st := tick st
      match peekAt tokens st.pos with
      | none => (some left, st)
      | some t =>
          match binPrec t.value with
          | none => (some left, st)
          | some opPrec =>
              if opPrec ≥ precedence then
                let st1 := padvance st
                let nextPrecedence := opPrec + 1
                let (right?, st2) := parseBinaryExpression f nextPrecedence st1
                match right? with
                | none => (none, st2)
                | some right =>
                    binLoop f precedence (CNode.binaryExpression t.value left right) st2
              else (some left, st)

/-- JS `parseUnaryExpression()`. -/
def parseUnaryExpression (fuel : Nat) (st : PSt) : Option CNode × PSt :=
  match fuel with
  | 0 => (none, { st with fuelOut := true })
  | f + 1 =>
      let st := tick st
      match peekAt tokens st.pos with
      | some t =>
          if unaryOperators.contains t.value then
            let st1 := padvance st
            let (arg?, st2) := parseUnaryExpression f st1
            match arg? with
            | none => (none, st2)
            | some arg => (some (CNode.unaryExpression t.value arg true), st2)
          else parsePrimaryExpression f st
      | none => parsePrimaryExpression f st

/-- The argument-collecting `while` loop of the call-expression branch of
`parsePrimaryExpression`. -/
def callArgsLoop : Nat → List CNode → PSt → List CNode × PSt
  | 0, acc, st => (acc, { st with fuelOut := true })
  | f + 1, acc, st =>
      let st := tick st
      match peekAt tokens st.pos with
      | none => (acc, st)
      | some t =>
          if t.value = ")" then (acc, st)
          else
            let (arg?, st1) := parseExpression f st
            let acc1 := match arg? with | some a => acc ++ [a] | none => acc
            match peekAt tokens st1.pos with
            | some t2 =>
                if t2.value = "," then callArgsLoop f acc1 (padvance st1)
                else (acc1, st1)
            | none => (acc1, st1)

/-- JS `parsePrimaryExpression()`. -/
def parsePrimaryExpression (fuel : Nat) (st : PSt) : Option CNode × PSt :=
  match fuel with
  | 0 => (none, { st with fuelOut := true })
  | f + 1 =>
      let st := tick st
      match peekAt tokens st.pos with
      | none => (none, st)
      | some token =>
          if token.tkind = "comment" then
            parsePrimaryExpression f (padvance st)
          else if token.tkind = "string" then
            (some (CNode.literal token.value "string"), padvance st)
          else if token.tkind = "number" then
            (some (CNode.literal token.value "number"), padvance st)
          else if token.tkind = "identifier" then
            let st1 := padvance st
            match peekAt tokens st1.pos with
            | some t2 =>
                if t2.value = "(" then
                  let st2 := padvance st1
                  match peekAt tokens st2.pos with
                  | some t3 =>
                      if t3.value = ")" then
                        (some (CNode.callExpression (CNode.identifier token.value) []),
                          padvance st2)
                      else
                        let (args, st3) := callArgsLoop f [] st2
                        let st4 :=
                          match peekAt tokens st3.pos with
                          | some t4 =>
                              if t4.value = ")" then padvance st3
                              else pushPErr "Expected ')' after function arguments"
                                token.start token.stop st3
                          | none => pushPErr "Expected ')' after function arguments"
                              token.start token.stop st3
                        (some (CNode.callExpression (CNode.identifier token.value) args), st4)
                  | none =>
                      let (args, st3) := callArgsLoop f [] st2
                      let st4 := pushPErr "Expected ')' after function arguments"
                        token.start token.stop st3
                      (some (CNode.callExpression (CNode.identifier token.value) args), st4)
                else (some (CNode.identifier token.value), st1)
            | none => (some (CNode.identifier token.value), st1)
          else if token.value = "(" then
            let st1 := padvance st
            let (expr?, st2) := parseExpression f st1
            let st3 :=
              match peekAt tokens st2.pos with
              | some t2 =>
                  if t2.value = ")" then padvance st2
                  else pushPErr "Expected ')' after expression" token.start token.stop st2
              | none => pushPErr "Expected ')' after expression" token.start token.stop st2
            (expr?, st3)
          else if token.value = ")" || token.value = ";" || token.value = "," then
            (none, st)
          else
            (none, padvance (pushPErr ("Unexpected token in expression: " ++ token.value)
              token.start token.stop st))

/-- JS `parseExpression()`. -/
def parseExpression (fuel : Nat) (st : PSt) : Option CNode × PSt :=
  match fuel with
  | 0 => (none, { st with fuelOut := true })
  | f + 1 =>
      let st := tick st
      parseAssignmentExpression f st

/-- JS `parseReturnStatement()`. -/
def parseReturnStatement (fuel : Nat) (st : PSt) : Option CNode × PSt :=
  match fuel with
  | 0 => (none, { st with fuelOut := true })
  | f + 1 =>
      let st := tick st
      let st1 := padvance st
      let (argument, st2) :=
        match peekAt tokens st1.pos with
        | some t =>
            if t.value = ";" then (none, st1)
            else parseExpression f st1
        | none => (none, st1)
      let st3 := (expectValue tokens ";" "Expected ';' after return statement" st2).2
      (some (CNode.returnStatement argument), st3)

/-- The statement-collecting `while` loop of `parseBlockStatement`. -/
def blockLoop : Nat → List CNode → PSt → List CNode × PSt
  | 0, acc, st => (acc, { st with fuelOut := true })
  | f + 1, acc, st =>
      let st := tick st
      match peekAt tokens st.pos with
      | none => (acc, st)
      | some t =>
          if t.value = "\x7d" then (acc, st)
          else
            let (stmt?, st1) := parseStatement f st
            match stmt? with
            | some stmt => blockLoop f (acc ++ [stmt]) st1
            | none =>
                match peekAt tokens st1.pos with
                | some t2 =>
                    if t2.value = "\x7d" then (acc, st1)
                    else blockLoop f acc (padvance st1)
                | none => (acc, st1)

/-- JS `parseBlockStatement()`. -/
def parseBlockStatement (fuel : Nat) (st : PSt) : Option CNode × PSt :=
  match fuel with
  | 0 => (none, { st with fuelOut := true })
  | f + 1 =>
      let st := tick st
      let (open?, st1) := expectValue tokens "\x7b" "Expected '\x7b' for block statement" st
      match open? with
      | none => (none, st1)
      | some _ =>
          let (body, st2) := blockLoop f [] st1
          let st3 := (expectValue tokens "\x7d" "Expected '\x7d' after block statement" st2).2
          (some (CNode.blockStatement body), st3)

/-- JS `parseIfStatement()`. -/
def parseIfStatement (fuel : Nat) (st : PSt) : Option CNode × PSt :=
  match fuel with
  | 0 => (none, { st with fuelOut := true })
  | f + 1 =>
      let st := tick st
      let st1 := padvance st
      let (open?, st2) := expectValue tokens "(" "Expected '(' after 'if'" st1
      match open? with
      | none => (none, st2)
      | some _ =>
          let (test, st3) := parseExpression f st2
          let (close?, st4) := expectValue tokens ")" "Expected ')' after if condition" st3
          match close? with
          | none => (none, st4)
          | some _ =>
              let (consequent, st5) := parseStatement f st4
              let (alternate, st6) :=
                match peekAt tokens st5.pos with
                | some t =>
                    if t.value = "else" then parseStatement f (padvance st5)
                    else (none, st5)
                | none => (none, st5)
              (some (CNode.ifStatement test consequent alternate), st6)

/-- JS `parseWhileStatement()`. -/
def parseWhileStatement (fuel : Nat) (st : PSt) : Option CNode × PSt :=
  match fuel with
  | 0 => (none, { st with fuelOut := true })
  | f + 1 =>
      let st := tick st
      let st1 := padvance st
      let (open?, st2) := expectValue tokens "(" "Expected '(' after 'while'" st1
      match open? with
      | none => (none, st2)
      | some _ =>
          let (test, st3) := parseExpression f st2
          let (close?, st4) := expectValue tokens ")" "Expected ')' after while condition" st3
          match close? with
          | none => (none, st4)
          | some _ =>
              let (body, st5) := parseStatement f st4
              (some (CNode.whileStatement test body), st5)

/-- JS `parseForStatement()`. -/
def parseForStatement (fuel : Nat) (st : PSt) : Option CNode × PSt :=
  match fuel with
  | 0 => (none, { st with fuelOut := true })
  | f + 1 =>
      let st := tick st
      let st1 := padvance st
      let st2 := (expectValue tokens "(" "Expected '(' after 'for'" st1).2
      let (init, st3) :=
        match peekAt tokens st2.pos with
        | some t =>
            if t.value = ";" then (none, padvance st2)
            else if t.tkind = "type" || t.tkind = "qualifier" then
              parseVariableDeclaration f st2
            else
              let (e?, st3a) := parseExpression f st2
              (e?, (expectValue tokens ";" "Expected ';' after for loop initialization" st3a).2)
        | none => (none, padvance st2)
      let (test, st4) :=
        match peekAt tokens st3.pos with
        | some t =>
            if t.value = ";" then (none, st3)
            else parseExpression f st3
        | none => (none, st3)
      let st5 := (expectValue tokens ";" "Expected ';' after for loop condition" st4).2
      let (update, st6) :=
        match peekAt tokens st5.pos with
        | some t =>
            if t.value = ")" then (none, st5)
            else parseExpression f st5
        | none => (none, st5)
      let st7 :=
        match peekAt tokens st6.pos with
        | some t => if t.value = ")" then padvance st6 else st6
        | none => st6
      let (body, st8) := parseStatement f st7
      (some (CNode.forStatement init test update body), st8)

/-- JS `parseExpressionStatement()`. -/
def parseExpressionStatement (fuel : Nat) (st : PSt) : Option CNode × PSt :=
  match fuel with
  | 0 => (none, { st with fuelOut := true })
  | f + 1 =>
      let st := tick st
      let (expr?, st1) := parseExpression f st
      match expr? with
      | none =>
          let st2 :=
            match peekAt tokens st1.pos with
            | some _ => padvance st1
            | none => st1
          (none, st2)
      | some expr =>
          let st2 := (expectValue tokens ";" "Expected ';' after expression" st1).2
          (some (CNode.expressionStatement expr), st2)

/-- JS `parseStatement()`. -/
def parseStatement (fuel : Nat) (st : PSt) : Option CNode × PSt :=
  match fuel with
  | 0 => (none, { st with fuelOut := true })
  | f + 1 =>
      let st := tick st
      match peekAt tokens st.pos with
      | none => (none, st)
      | some token =>
          if isSpecTk token then parseVariableDeclaration f st
          else if token.value = "return" then parseReturnStatement f st
          else if token.value = "if" then parseIfStatement f st
          else if token.value = "for" then parseForStatement f st
          else if token.value = "while" then parseWhileStatement f st
          else if token.value = "\x7b" then parseBlockStatement f st
          else parseExpressionStatement f st

/-- The parameter-collecting `while` loop of `parseParameters`. -/
def paramsLoop : Nat → List CNode → PSt → List CNode × PSt
  | 0, acc, st => (acc, { st with fuelOut := true })
  | f + 1, acc, st =>
      let st := tick st
      match peekAt tokens st.pos with
      | none => (acc, st)
      | some t =>
          if t.value = ")" then (acc, st)
          else
            let (ts?, st1) := parseDeclarationSpecifiers f st
            match ts? with
            | none =>
                let st2 :=
                  match peekAt tokens st1.pos with
                  | some t2 => pushPErr "Expected parameter type" t2.start t2.stop st1
                  | none => pushPErr "Expected parameter type" 0 0 st1
                (acc, st2)
            | some ts =>
                let (isPointer, st2) :=
                  match peekAt tokens st1.pos with
                  | some t2 => if t2.value = "*" then (true, padvance st1) else (false, st1)
                  | none => (false, st1)
                let (nameTok?, st3) := expectTk tokens "identifier" "Expected parameter name" st2
                let (acc1, st4) :=
                  match nameTok? with
                  | some nameTok =>
                      let (isArray, st4a) :=
                        match peekAt tokens st3.pos with
                        | some t3 =>
                            if t3.value = "[" then
                              let stA := padvance st3
                              let stB :=
                                match peekAt tokens stA.pos with
                                | some t4 =>
                                    if t4.value = "]" then stA
                                    else (parseExpression f stA).2
                                | none => stA
                              (true,
                                (expectValue tokens "]" "Expected ']' after array parameter" stB).2)
                            else (false, st3)
                        | none => (false, st3)
                      (acc ++ [CNode.param ts nameTok.value isArray isPointer], st4a)
                  | none => (acc, st3)
                match peekAt tokens st4.pos with
                | some t5 =>
                    if t5.value = "," then paramsLoop f acc1 (padvance st4)
                    else (acc1, st4)
                | none => (acc1, st4)

/-- JS `parseParameters()`. -/
def parseParameters (fuel : Nat) (st : PSt) : List CNode × PSt :=
  match fuel with
  | 0 => ([], { st with fuelOut := true })
  | f + 1 =>
      let st := tick st
      let (open?, st1) := expectValue tokens "(" "Expected '(' for function parameters" st
      match open? with
      | none => ([], st1)
      | some _ =>
          -- the `void` special case: a bare `void` parameter list is empty;
          -- otherwise the position is reset (`current--`)
          let (done, st2) :=
            match peekAt tokens st1.pos with
            | some t =>
                if t.tkind = "type" && t.value = "void" then
                  let stA := padvance st1
                  match peekAt tokens stA.pos with
                  | some t2 =>
                      if t2.value = ")" then (some ([] : List CNode), padvance stA)
                      else (none, { stA with pos := stA.pos - 1 })
                  | none => (none, { stA with pos := stA.pos - 1 })
                else (none, st1)
            | none => (none, st1)
          match done with
          | some ps => (ps, st2)
          | none =>
              match peekAt tokens st2.pos with
              | some t =>
                  if t.value = ")" then ([], padvance st2)
                  else
                    let (params, st3) := paramsLoop f [] st2
                    let st4 := (expectValue tokens ")" "Expected ')' after function parameters" st3).2
                    (params, st4)
              | none =>
                  let (params, st3) := paramsLoop f [] st2
                  let st4 := (expectValue tokens ")" "Expected ')' after function parameters" st3).2
                  (params, st4)

/-- JS `parseFunctionDeclaration()` (`parseFunctionBody` is
`parseBlockStatement`). -/
def parseFunctionDeclaration (fuel : Nat) (st : PSt) : Option CNode × PSt :=
  match fuel with
  | 0 => (none, { st with fuelOut := true })
  | f + 1 =>
      let st := tick st
      let (rts?, st1) := parseDeclarationSpecifiers f st
      match rts? with
      | none =>
          let st2 :=
            match peekAt tokens st1.pos with
            | some t => pushPErr "Expected function return type" t.start t.stop st1
            | none => pushPErr "Expected function return type" 0 0 st1
          (none, st2)
      | some rts =>
          let (isPointerReturn, st2) :=
            match peekAt tokens st1.pos with
            | some t => if t.value = "*" then (true, padvance st1) else (false, st1)
            | none => (false, st1)
          let (nameTok?, st3) := expectTk tokens "identifier" "Expected function name" st2
          match nameTok? with
          | none => (none, st3)
          | some nameTok =>
              let (params, st4) := parseParameters f st3
              let (body, st5) :=
                match peekAt tokens st4.pos with
                | some t =>
                    if t.value = "\x7b" then parseBlockStatement f st4
                    else (none,
                      (expectValue tokens ";" "Expected ';' after function forward declaration" st4).2)
                | none => (none,
                    (expectValue tokens ";" "Expected ';' after function forward declaration" st4).2)
              (some (CNode.functionDeclaration (CNode.identifier nameTok.value) rts
                isPointerReturn params body), st5)

end

/-- The header-name collecting `while` loop of `parseInclude`
(`headerName += peek().value`). -/
def headerCollectLoop : Nat → String → PSt → String × PSt
  | 0, acc, st => (acc, { st with fuelOut := true })
  | f + 1, acc, st =>
      let st := tick st
      match peekAt tokens st.pos with
      | none => (acc, st)
      | some t =>
          if t.value = ">" then (acc, st)
          else headerCollectLoop f (acc ++ t.value) (padvance st)

/-- JS `parseInclude()`. -/
def parseInclude (fuel : Nat) (st : PSt) : Option CNode × PSt :=
  match fuel with
  | 0 => (none, { st with fuelOut := true })
  | f + 1 =>
      let st := tick st
      let (startPos, stopPos) :=
        match peekAt tokens st.pos with
        | some t => (t.start, t.stop)
        | none => (0, 0)
      let st1 := padvance st
      match peekAt tokens st1.pos with
      | none => (none, pushPErr "Expected header name after #include" startPos stopPos st1)
      | some headerToken =>
          if headerToken.value = "<" then
            let st2 := padvance st1
            let (headerName, st3) := headerCollectLoop tokens f "" st2
            let (close?, st4) := expectValue tokens ">" "Expected '>' after header name" st3
            match close? with
            | none => (none, st4)
            | some _ => (some (CNode.includeDirective headerName true), st4)
          else if headerToken.tkind = "string" then
            (some (CNode.includeDirective (stripQuotes headerToken.value) true), padvance st1)
          else
            (none, pushPErr "Invalid include directive, expected <header> or \"header\""
              headerToken.start headerToken.stop st1)

/-- JS `parseTypedef()`. -/
def parseTypedef (fuel : Nat) (st : PSt) : Option CNode × PSt :=
  match fuel with
  | 0 => (none, { st with fuelOut := true })
  | f + 1 =>
      let st := tick st
      let (startPos, stopPos) :=
        match peekAt tokens st.pos with
        | some t => (t.start, t.stop)
        | none => (0, 0)
      let st1 := padvance st
      let (ts?, st2) := parseDeclarationSpecifiers tokens f st1
      match ts? with
      | none =>
          (none, pushPErr "Expected type specifier after typedef" startPos stopPos st2)
      | some ts =>
          let (nameTok?, st3) := expectTk tokens "identifier"
            "Expected identifier for typedef name" st2
          match nameTok? with
          | none => (none, st3)
          | some nameTok =>
              let st4 := (expectValue tokens ";" "Expected ';' after typedef" st3).2
              (some (CNode.typedefDecl ts (CNode.identifier nameTok.value)), st4)

/-- The skip-to-newline `while` loop of the `#define` branch of
`parsePreprocessorDirective` (token values never contain a newline, so this
consumes the rest of the input, as in the source). -/
def defineSkipLoop : Nat → PSt → PSt
  | 0, st => { st with fuelOut := true }
  | f + 1, st =>
      let st := tick st
      match peekAt tokens st.pos with
      | none => st
      | some t =>
          if strContains t.value "\n" then st
          else defineSkipLoop f (padvance st)

/-- JS `parsePreprocessorDirective()`. -/
def parsePreprocessorDirective (fuel : Nat) (st : PSt) : Option CNode × PSt :=
  match fuel with
  | 0 => (none, { st with fuelOut := true })
  | f + 1 =>
      let st := tick st
      match peekAt tokens st.pos with
      | none => (none, st)
      | some token =>
          if token.value = "#include" then parseInclude tokens f st
          else if token.value = "#define" then
            let st1 := defineSkipLoop tokens f (padvance st)
            (some (CNode.preprocessorDirective "define"), st1)
          else
            (none, padvance (pushPErr
              ("Unrecognized preprocessor directive: " ++ token.value)
              token.start token.stop st))

/-- The top-level `while (current < tokens.length)` loop of `parseProgram`,
accumulating `ast.body`. -/
def progLoop : Nat → List CNode → PSt → List CNode × PSt
  | 0, acc, st => (acc, { st with fuelOut := true })
  | f + 1, acc, st =>
      let st := tick st
      if st.pos < tokens.length then
        match peekAt tokens st.pos with
        | none => (acc, st)
        | some token =>
            if strStartsWith token.value "#" then
              let (d?, st1) := parsePreprocessorDirective tokens f st
              progLoop f (match d? with | some d => acc ++ [d] | none => acc) st1
            else if token.value = "typedef" then
              let (d?, st1) := parseTypedef tokens f st
              progLoop f (match d? with | some d => acc ++ [d] | none => acc) st1
            else if isSpecTk token then
              -- savepoint look-ahead: function vs. variable declaration
              let savedPosition := st.pos
              let (ts?, st1) := parseDeclarationSpecifiers tokens f st
              let identNext :=
                ts?.isSome &&
                  (match peekAt tokens st1.pos with
                   | some t => t.tkind == "identifier"
                   | none => false)
              if identNext then
                let st2 := padvance st1
                let st3 :=
                  match peekAt tokens st2.pos with
                  | some t => if t.value = "*" then padvance st2 else st2
                  | none => st2
                let isFn :=
                  match peekAt tokens st3.pos with
                  | some t => t.value == "("
                  | none => false
                if isFn then
                  let (fd?, st4) := parseFunctionDeclaration tokens f
                    { st3 with pos := savedPosition }
                  progLoop f (match fd? with | some d => acc ++ [d] | none => acc) st4
                else
                  let (vd?, st4) := parseVariableDeclaration tokens f
                    { st3 with pos := savedPosition }
                  progLoop f (match vd? with | some d => acc ++ [d] | none => acc) st4
              else
                let st2 := padvance
                  (pushPErr "Unrecognized declaration" token.start token.stop
                    { st1 with pos := savedPosition })
                progLoop f acc st2
            else if token.tkind = "identifier" then
              let (s?, st1) := parseStatement tokens f st
              progLoop f (match s? with | some d => acc ++ [d] | none => acc) st1
            else if token.value = "return" then
              let (s?, st1) := parseReturnStatement tokens f st
              progLoop f (match s? with | some d => acc ++ [d] | none => acc) st1
            else if token.value = "\x7b" then
              let (s?, st1) := parseBlockStatement tokens f st
              progLoop f (match s? with | some d => acc ++ [d] | none => acc) st1
            else if token.value = "\x7d" then
              progLoop f acc (padvance st)
            else
              progLoop f acc (padvance
                (pushPErr ("Unexpected token at program level: " ++ token.value)
                  token.start token.stop st))
      else (acc, st)

end ParserDefs

/-- The fuel supplied to the parser: linear in the token count. -/
def parserFuel (tokens : List Token) : Nat := 64 * tokens.length + 64

/-- JS `parser(tokens)` with the final parser state exposed (for the
instrumentation fields). -/
def parserFull (tokens : List Token) : CNode × PSt :=
  let (body, st) := progLoop tokens (parserFuel tokens) [] {}
  (CNode.program body, st)

/-- JS `parser(tokens)`: returns `{ast, errors}`. -/
def parser (tokens : List Token) : CNode × List ParseErr :=
  let r := parserFull tokens
  (r.1, r.2.errors)

/-! ## The semantic analyzer

`semanticAnalyzer.js`, with the mutable `symbolTable` object modelled as an
insertion-ordered association list, the `variableUses` set as a
duplicate-free list, and the `Date.now()` / `Math.random()` scope tags as an
explicit oracle `Nat → String` consumed one value per scope creation (the
`oracleIdx` field indexes the next value). `typeHierarchy` and
`functionCalls` are written but never read by the source and are omitted.
Line numbers and code snippets in diagnostics are display-only and derive
from the node locations this embedding does not model; they are rendered as
`1` and `""` (JS `getLineNumber(undefined)` / `getCodeLine(undefined)`). -/

/-- A parameter record inside a function symbol: JS `{name, type}`. -/
structure SymParam where
  name : String
  ptype : String
deriving Repr, DecidableEq

/-- A symbol-table entry. JS field `type` is `stype`. -/
structure Sym where
  name : String
  stype : String
  returnType : Option String := none
  scope : String
  line : Nat := 1
  initialized : Bool
  isParameter : Bool := false
  isArray : Bool := false
  isPointer : Bool := false
  params : Option (List SymParam) := none
  isVarArgs : Bool := false
  value : Option String := none
deriving Repr, DecidableEq

/-- A semantic diagnostic: JS `{message, line, code, description, severity?}`
(the `severity` property is absent from several push sites; `none` models
that). JS field `code` is `codeLine`. -/
structure SemErr where
  message : String
  line : Nat := 1
  codeLine : String := ""
  description : String
  severity : Option String := none
deriving Repr, DecidableEq

/-- Semantic-analyzer state: the insertion-ordered symbol table, the errors
array, the `variableUses` set, and the oracle index. -/
structure ASt where
  symbolTable : List (String × Sym) := []
  errors : List SemErr := []
  variableUses : List String := []
  oracleIdx : Nat := 0
deriving Repr, DecidableEq

/-- JS `symbolTable[key]` lookup. -/
def tfind (table : List (String × Sym)) (key : String) : Option Sym :=
  match table with
  | [] => none
  | e :: rest => if e.1 = key then some e.2 else tfind rest key

/-- JS `symbolTable[key] = sym`: overwrite in place when the key exists
(JS objects keep the original insertion position), else append. -/
def tset (table : List (String × Sym)) (key : String) (sym : Sym) :
    List (String × Sym) :=
  if (table.find? (fun e => e.1 == key)).isSome then
    table.map (fun e => if e.1 == key then (key, sym) else e)
  else table ++ [(key, sym)]

/-- Update the entry at `key` (used for the `initialized = true` write of the
`AssignmentExpression` case). -/
def tupdate (table : List (String × Sym)) (key : String) (g : Sym → Sym) :
    List (String × Sym) :=
  table.map (fun e => if e.1 == key then (e.1, g e.2) else e)

/-- JS `getSymbolKey(name, scope)`. -/
def getSymbolKey (name scope : String) : String := scope ++ ":" ++ name

/-- JS `variableUses.add(name)` (a `Set`). -/
def usesAdd (st : ASt) (name : String) : ASt :=
  if st.variableUses.contains name then st
  else { st with variableUses := st.variableUses ++ [name] }

/-- Append a semantic diagnostic. -/
def pushSemErr (st : ASt) (e : SemErr) : ASt := { st with errors := st.errors ++ [e] }

/-- JS `resolveVariable(name, currentScope, scopeStack)`: current scope, then
the scope stack innermost-first, then `builtin`; returns the key it resolved
to together with the symbol (standing in for the JS object reference).
A missing or empty (falsy) name resolves to nothing. -/
def resolveVariable (table : List (String × Sym)) (name? : Option String)
    (currentScope : String) (scopeStack : List String) : Option (String × Sym) :=
  match name? with
  | none => none
  | some "" => none
  | some name =>
      let currentKey := getSymbolKey name currentScope
      match tfind table currentKey with
      | some s => some (currentKey, s)
      | none =>
          match scopeStack.reverse.findSome?
              (fun sc =>
                let key := getSymbolKey name sc
                match tfind table key with
                | some s => some (key, s)
                | none => none) with
          | some r => some r
          | none =>
              let builtinKey := getSymbolKey name "builtin"
              match tfind table builtinKey with
              | some s => some (builtinKey, s)
              | none => none

/-- JS `normalizeType`: strip `const`/`volatile` words (the regex
`/\bconst\s+|\bvolatile\s+/g` on the space-separated type strings this
analyzer builds) and trim. -/
def normalizeType (t : String) : String :=
  trimJS (String.intercalate " "
    ((splitOnSpace t).filter (fun w => !(w == "const" || w == "volatile"))))

/-- The numeric-type table of `areTypesCompatible`. -/
def numericTypes : List String :=
  ["int", "float", "double", "char", "short", "long", "long long",
   "unsigned int", "unsigned char", "unsigned short", "unsigned long"]

/-- JS `areTypesCompatible(targetType, sourceType)`; the recursion on pointer
bases is run on a fuel argument large enough for any input (each recursive
call strips at least one character). -/
def areTypesCompatibleFuel : Nat → String → String → Bool
  | 0, _, _ => false
  | f + 1, targetType, sourceType =>
      if targetType = "" || sourceType = "" then false
      else if targetType = sourceType then true
      else
        let nt := normalizeType targetType
        let ns := normalizeType sourceType
        if nt = ns then true
        else if numericTypes.contains nt && numericTypes.contains ns then true
        else if strEndsWith nt "*" && strEndsWith ns "*" then
          if nt = "void*" || ns = "void*" then true
          else areTypesCompatibleFuel f (trimJS (strDropRight nt 1)) (trimJS (strDropRight ns 1))
        else if strEndsWith nt "*" && strEndsWith ns "[]" then
          areTypesCompatibleFuel f (trimJS (strDropRight nt 1)) (trimJS (strDropRight ns 2))
        else false

/-- JS `areTypesCompatible`. -/
def areTypesCompatible (targetType sourceType : String) : Bool :=
  areTypesCompatibleFuel (targetType.length + sourceType.length + 1) targetType sourceType

/-- JS `specifiers.map(s => s.name || s.kind || "").filter(Boolean).join(" ")`. -/
def joinSpecs (specifiers : List CNode) : String :=
  String.intercalate " "
    ((specifiers.map (fun s =>
        match s with
        | CNode.typeSpecifier n => n
        | CNode.typeQualifier n => n
        | CNode.complexType k n => match n with | some nm => if nm = "" then k else nm | none => k
        | CNode.identifier n => n
        | _ => "")).filter (fun s => s ≠ ""))

/-- The JS `.name` property of an AST node (defined on identifiers, type
specifiers/qualifiers, tagged complex types and parameters). -/
def jsNameOf : CNode → Option String
  | .identifier n => some n
  | .typeSpecifier n => some n
  | .typeQualifier n => some n
  | .complexType _ n => n
  | .param _ n _ _ => some n
  | _ => none

/-- The type string read from a `DeclarationSpecifiers` node or, failing
that, from a `.name` property, with the given fallback — the
`node.x?.specifiers ? join : node.x?.name ? name : fallback` pattern used for
return types, variable types and parameter types. -/
def typeStringOf (n : CNode) (fallback : String) : String :=
  match n with
  | .declarationSpecifiers sp => joinSpecs sp
  | other =>
      match jsNameOf other with
      | some nm => if nm = "" then fallback else nm
      | none => fallback

mutual

/-- JS `markVariablesAsUsed(node, scope, scopeStack)`: record identifier
reads and flag uses of uninitialized non-parameter variables. The JS cases
for `ArrayAccess`, `MemberExpression` and `ConditionalExpression` concern
node kinds the parser never constructs (absent from the data model) and are
unreachable here. -/
def markVariablesAsUsed (node : CNode) (scope : String) (scopeStack : List String)
    (st : ASt) : ASt :=
  match node with
  | .identifier name =>
      match resolveVariable st.symbolTable (some name) scope scopeStack with
      | some (_, varSym) =>
          let st1 := usesAdd st name
          if !varSym.initialized && !varSym.isParameter then
            pushSemErr st1
              { message := "Variable '" ++ name ++ "' used before initialization"
                description := "Using uninitialized variable may lead to undefined behavior"
                severity := some "error" }
          else st1
      | none => st
  | .binaryExpression _ l r =>
      markVariablesAsUsed r scope scopeStack (markVariablesAsUsed l scope scopeStack st)
  | .unaryExpression _ a _ => markVariablesAsUsed a scope scopeStack st
  | .assignmentExpression _ _ r =>
      -- right side only: the left side is being assigned to
      markVariablesAsUsed r scope scopeStack st
  | .callExpression _ args => markUsedList args scope scopeStack st
  -- default: traverse all object-valued properties in JS insertion order
  | .program body => markUsedList body scope scopeStack st
  | .includeDirective _ _ => st
  | .preprocessorDirective _ => st
  | .typedefDecl ts id =>
      markVariablesAsUsed id scope scopeStack (markVariablesAsUsed ts scope scopeStack st)
  | .functionDeclaration id rt _ params body =>
      let s1 := markVariablesAsUsed rt scope scopeStack
        (markVariablesAsUsed id scope scopeStack st)
      let s2 := markUsedList params scope scopeStack s1
      markUsedOpt body scope scopeStack s2
  | .variableDeclaration decls ts =>
      markVariablesAsUsed ts scope scopeStack (markUsedList decls scope scopeStack st)
  | .variableDeclarator id _ initzr _ =>
      markUsedOpt initzr scope scopeStack (markVariablesAsUsed id scope scopeStack st)
  | .param pt _ _ _ => markVariablesAsUsed pt scope scopeStack st
  | .declarationSpecifiers sp => markUsedList sp scope scopeStack st
  | .typeSpecifier _ => st
  | .typeQualifier _ => st
  | .complexType _ _ => st
  | .blockStatement body => markUsedList body scope scopeStack st
  | .ifStatement t c a =>
      markUsedOpt a scope scopeStack
        (markUsedOpt c scope scopeStack (markUsedOpt t scope scopeStack st))
  | .whileStatement t b =>
      markUsedOpt b scope scopeStack (markUsedOpt t scope scopeStack st)
  | .forStatement i tst u b =>
      markUsedOpt b scope scopeStack
        (markUsedOpt u scope scopeStack
          (markUsedOpt tst scope scopeStack (markUsedOpt i scope scopeStack st)))
  | .returnStatement a => markUsedOpt a scope scopeStack st
  | .expressionStatement e => markVariablesAsUsed e scope scopeStack st
  | .breakStatement => st
  | .continueStatement => st
  | .literal _ _ => st

/-- The `if (node.x) markVariablesAsUsed(node.x, …)` null-guards on optional
children. -/
def markUsedOpt (node? : Option CNode) (scope : String) (scopeStack : List String)
    (st : ASt) : ASt :=
  match node?, st with
  | some x, st => markVariablesAsUsed x scope scopeStack st
  | none, st => st

/-- The array-property traversal loops of `markVariablesAsUsed` (its
`CallExpression` argument loop and the array children of the default case). -/
def markUsedList (nodes : List CNode) (scope : String) (scopeStack : List String)
    (st : ASt) : ASt :=
  match nodes with
  | [] => st
  | n :: rest => markUsedList rest scope scopeStack (markVariablesAsUsed n scope scopeStack st)

end

/-- The result type of the `BinaryExpression` case of `getExpressionType`
(a pure computation on the operand types). -/
def binaryExprType (op : String) (t1? t2? : Option String) : Option String :=
  if ["==", "!=", "<", ">", "<=", ">=", "&&", "||"].contains op then
    some "int"
  else if ["+", "-", "*", "/", "%"].contains op then
    match t1?, t2? with
    | some leftType, some rightType =>
        if strContains leftType "double" || strContains rightType "double" then
          some "double"
        else if strContains leftType "float" || strContains rightType "float" then
          some "float"
        else if strContains leftType "long" || strContains rightType "long" then
          some "long"
        else if (strContains leftType "*" || strContains rightType "*") &&
            (op = "+" || op = "-") then
          some (if strContains leftType "*" then leftType else rightType)
        else some "int"
    | _, _ => none
  else none

/-- The result type of the `UnaryExpression` case of `getExpressionType`
(a pure computation on the argument type). -/
def unaryExprType (op : String) (argType? : Option String) : Option String :=
  match argType? with
  | none => none
  | some argType =>
      match op with
      | "&" => some (argType ++ "*")
      | "*" =>
          if strEndsWith argType "*" then some (trimJS (strDropRight argType 1))
          else none
      | "!" => some "int"
      | "-" => some argType
      | "+" => some argType
      | "~" => some argType
      | "++" => some argType
      | "--" => some argType
      | _ => none

/-- The result type of the `Literal` case of `getExpressionType`. -/
def literalExprType (v vt : String) : Option String :=
  if vt = "string" then some "char*"
  else if vt = "number" then
    some (if v ≠ "" && strContains v "." then "float" else "int")
  else some "int"

/-- JS `getExpressionType(node, scope, scopeStack)`: bottom-up expression
typing; resolving an identifier also records it in `variableUses`. -/
def getExpressionType (node : CNode) (scope : String) (scopeStack : List String)
    (st : ASt) : Option String × ASt :=
  match node with
  | .identifier name =>
      match resolveVariable st.symbolTable (some name) scope scopeStack with
      | some (_, varSym) => (some varSym.stype, usesAdd st name)
      | none => (none, st)
  | .literal v vt => (literalExprType v vt, st)
  | .binaryExpression op l r =>
      let p1 := getExpressionType l scope scopeStack st
      let p2 := getExpressionType r scope scopeStack p1.2
      (binaryExprType op p1.1 p2.1, p2.2)
  | .unaryExpression op a _ =>
      let p := getExpressionType a scope scopeStack st
      (unaryExprType op p.1, p.2)
  | .assignmentExpression _ l _ => getExpressionType l scope scopeStack st
  | .callExpression callee _ =>
      -- `functionCalls.push(…)` records data the analyzer never reads; omitted
      let funcSymbol := resolveVariable st.symbolTable (identName callee) scope scopeStack
      match funcSymbol with
      | some (_, s) => (jsOrNull s.returnType, st)
      | none => (none, st)
  | _ => (none, st)

/-- Consume one oracle value: the JS `Date.now()` / `Math.random()` reads
performed while forming a scope tag. -/
def takeTag (oracle : Nat → String) (st : ASt) : String × ASt :=
  (oracle st.oracleIdx, { st with oracleIdx := st.oracleIdx + 1 })

/-- Register a function's parameters into the function's scope
(the `node.params?.forEach` of the `FunctionDeclaration` case). -/
def registerParams (params : List CNode) (functionScope : String) (st : ASt) : ASt :=
  params.foldl
    (fun s p =>
      match p with
      | CNode.param pt n isArr isP =>
          -- JS reads `param.isPointer`/`param.isArray` from the node; the
          -- parser's Parameter nodes carry both flags
          if n = "" then s
          else
            let paramType0 := typeStringOf pt "unknown"
            let paramType1 := if isP then paramType0 ++ "*" else paramType0
            let paramType2 := if isArr then paramType1 ++ "[]" else paramType1
            let pSym : Sym :=
              { name := n, stype := paramType2, scope := functionScope, line := 1,
                initialized := true, isParameter := true }
            { s with symbolTable := tset s.symbolTable (getSymbolKey n functionScope) pSym }
      | other =>
          match jsNameOf other with
          | some n =>
              if n = "" then s
              else
                let pSym : Sym :=
                  { name := n, stype := "unknown", scope := functionScope, line := 1,
                    initialized := true, isParameter := true }
                { s with symbolTable := tset s.symbolTable (getSymbolKey n functionScope) pSym }
          | none => s)
    st

/-- The parameter records stored on a function symbol
(`node.params?.map(param => ({name, type}))`). -/
def paramRecsOf (params : List CNode) : List SymParam :=
  params.map (fun p =>
    match p with
    | CNode.param pt n _ _ =>
        { name := if n = "" then "unnamed" else n, ptype := typeStringOf pt "unknown" }
    | other =>
        { name := match jsNameOf other with
            | some n => if n = "" then "unnamed" else n
            | none => "unnamed"
          ptype := "unknown" })

/-- The `leftName && resolveVariable(...)` post-processing of the
`AssignmentExpression` case of phase 1: mark the assigned-to variable
initialized (an in-place mutation of the resolved symbol object). -/
def bstAssignInit (l : CNode) (scope : String) (stack : List String)
    (st3 : ASt) : ASt :=
  match l with
  | .identifier vn =>
      match resolveVariable st3.symbolTable (some vn) scope stack with
      | some (key, _) =>
          { st3 with
            symbolTable := tupdate st3.symbolTable key
              (fun s => { s with initialized := true }) }
      | none => st3
  | _ => st3

/-- The printf-family argument pre-marking of the `CallExpression` case of
phase 1 (`usesAdd` for bare identifier arguments, then
`markVariablesAsUsed` on each argument). -/
def bstPrintfUses (args : List CNode) (scope : String) (stack : List String)
    (st : ASt) : ASt :=
  args.foldl
    (fun s a =>
      let s1 := match a with
        | CNode.identifier n => usesAdd s n
        | _ => s
      markVariablesAsUsed a scope stack s1) st

mutual

/-- JS `buildSymbolTable(node, scope, localScopeStack)` — phase 1. -/
def buildSymbolTable (oracle : Nat → String) (node : CNode) (scope : String)
    (stack : List String) (st : ASt) : ASt :=
  match node with
  | .program body => bstList oracle body scope stack st
  | .includeDirective _ _ => st
  | .preprocessorDirective _ => st
  | .functionDeclaration id rt isPtr params body =>
      match identName id with
      | none =>
          pushSemErr st { message := "Function declaration missing name"
                          description := "Invalid function declaration" }
      | some fn =>
          if fn = "" then
            pushSemErr st { message := "Function declaration missing name"
                            description := "Invalid function declaration" }
          else
            let returnType0 := typeStringOf rt "void"
            let returnType := if isPtr then returnType0 ++ "*" else returnType0
            let functionKey := getSymbolKey fn "global"
            let fnSym : Sym :=
              { name := fn, stype := returnType ++ " function",
                returnType := some returnType, scope := "global", line := 1,
                initialized := body.isSome, params := some (paramRecsOf params) }
            let st1 := { st with symbolTable := tset st.symbolTable functionKey fnSym }
            bstFnBody oracle body fn params stack st1
  | .variableDeclaration decls ts =>
      -- `if (!typeSpecifiers)` cannot fire: the parser always sets the field
      let varType := typeStringOf ts ""
      bstDeclLoop oracle decls varType scope stack st
  | .blockStatement body =>
      let (tag, st0) := takeTag oracle st
      let blockScope := "block_" ++ scope ++ "_" ++ tag
      bstList oracle body blockScope (stack ++ [blockScope]) st0
  | .ifStatement t c a =>
      let (tag, st0) := takeTag oracle st
      let ifScope := "if_" ++ scope ++ "_" ++ tag
      let newStack := stack ++ [ifScope]
      let st1 := markUsedOpt t scope stack st0
      let st2 := bstOpt oracle t ifScope newStack st1
      let st3 := bstOpt oracle c ifScope newStack st2
      bstElse oracle a scope stack st3
  | .forStatement i t u b =>
      let (tag, st0) := takeTag oracle st
      let forScope := "for_" ++ scope ++ "_" ++ tag
      let newStack := stack ++ [forScope]
      let st1 := bstOpt oracle i forScope newStack st0
      let st2 := bstMarkBuildOpt oracle t scope stack forScope newStack st1
      let st3 := bstMarkBuildOpt oracle u scope stack forScope newStack st2
      bstOpt oracle b forScope newStack st3
  | .whileStatement t b =>
      let (tag, st0) := takeTag oracle st
      let whileScope := "while_" ++ scope ++ "_" ++ tag
      let newStack := stack ++ [whileScope]
      let st1 := markUsedOpt t scope stack st0
      let st2 := bstOpt oracle t whileScope newStack st1
      bstOpt oracle b whileScope newStack st2
  | .returnStatement a => bstBuildMarkOpt oracle a scope stack st
  | .expressionStatement e =>
      markVariablesAsUsed e scope stack (buildSymbolTable oracle e scope stack st)
  | .assignmentExpression _ l r =>
      let st1 := buildSymbolTable oracle l scope stack st
      let st2 := buildSymbolTable oracle r scope stack st1
      let st3 := markVariablesAsUsed r scope stack st2
      bstAssignInit l scope stack st3
  | .callExpression callee args =>
      let fn? := identName callee
      let printfFamily :=
        match fn? with
        | some n => ["printf", "fprintf", "sprintf", "scanf"].contains n
        | none => false
      let st1 := if printfFamily then bstPrintfUses args scope stack st else st
      bstArgsLoop oracle args scope stack st1
  -- default: traverse all object-valued properties in JS insertion order,
  -- running `buildSymbolTable` then `markVariablesAsUsed` on each child
  | .typedefDecl ts id =>
      let s1 := markVariablesAsUsed ts scope stack (buildSymbolTable oracle ts scope stack st)
      markVariablesAsUsed id scope stack (buildSymbolTable oracle id scope stack s1)
  | .variableDeclarator id _ initzr _ =>
      let s1 := markVariablesAsUsed id scope stack (buildSymbolTable oracle id scope stack st)
      bstBuildMarkOpt oracle initzr scope stack s1
  | .param pt _ _ _ =>
      markVariablesAsUsed pt scope stack (buildSymbolTable oracle pt scope stack st)
  | .declarationSpecifiers sp => bstBothList oracle sp scope stack st
  | .typeSpecifier _ => st
  | .typeQualifier _ => st
  | .complexType _ _ => st
  | .breakStatement => st
  | .continueStatement => st
  | .identifier _ => st
  | .literal _ _ => st
  | .unaryExpression _ a _ =>
      markVariablesAsUsed a scope stack (buildSymbolTable oracle a scope stack st)
  | .binaryExpression _ l r =>
      let s1 := markVariablesAsUsed l scope stack (buildSymbolTable oracle l scope stack st)
      markVariablesAsUsed r scope stack (buildSymbolTable oracle r scope stack s1)

/-- The `if (node.x) buildSymbolTable(node.x, …)` null-guards on optional
children of phase 1. -/
def bstOpt (oracle : Nat → String) (node? : Option CNode) (scope : String)
    (stack : List String) (st : ASt) : ASt :=
  match node?, st with
  | some x, st => buildSymbolTable oracle x scope stack st
  | none, st => st

/-- The `if (node.x) { markVariablesAsUsed(node.x, scope, …); buildSymbolTable(node.x, innerScope, …) }`
guards of the `ForStatement` case (test and update run in the enclosing
scope for the use-marking, in the loop scope for the table build). -/
def bstMarkBuildOpt (oracle : Nat → String) (node? : Option CNode)
    (useScope : String) (useStack : List String) (bScope : String)
    (bStack : List String) (st : ASt) : ASt :=
  match node?, st with
  | some x, st =>
      buildSymbolTable oracle x bScope bStack (markVariablesAsUsed x useScope useStack st)
  | none, st => st

/-- The `if (node.x) { buildSymbolTable(node.x, …); markVariablesAsUsed(node.x, …) }`
guards (return arguments, declarator initializers). -/
def bstBuildMarkOpt (oracle : Nat → String) (node? : Option CNode)
    (scope : String) (stack : List String) (st : ASt) : ASt :=
  match node?, st with
  | some x, st =>
      markVariablesAsUsed x scope stack (buildSymbolTable oracle x scope stack st)
  | none, st => st

/-- The `if (node.body)` block of the `FunctionDeclaration` case: push the
function scope, register the parameters, then walk the body. -/
def bstFnBody (oracle : Nat → String) (body : Option CNode) (fn : String)
    (params : List CNode) (stack : List String) (st : ASt) : ASt :=
  match body, st with
  | some b, st =>
      let functionScope := fn
      let newStack := stack ++ [functionScope]
      buildSymbolTable oracle b functionScope newStack
        (registerParams params functionScope st)
  | none, st => st

/-- The `if (node.alternate)` block of the `IfStatement` case: take a fresh
scope tag and walk the else-branch in its own scope. -/
def bstElse (oracle : Nat → String) (alt? : Option CNode) (scope : String)
    (stack : List String) (st : ASt) : ASt :=
  match alt?, st with
  | some altn, st =>
      let (tag2, st4) := takeTag oracle st
      let elseScope := "else_" ++ scope ++ "_" ++ tag2
      buildSymbolTable oracle altn elseScope (stack ++ [elseScope]) st4
  | none, st => st

/-- The `statements.forEach(stmt => buildSymbolTable(stmt, …))` loops
(`Program` body, `BlockStatement` body). -/
def bstList (oracle : Nat → String) (nodes : List CNode) (scope : String) (stack : List String) (st : ASt) : ASt :=
  match nodes with
  | [] => st
  | n :: rest => bstList oracle rest scope stack (buildSymbolTable oracle n scope stack st)

/-- The argument loop of the `CallExpression` case
(`buildSymbolTable(arg)` then `markVariablesAsUsed(arg)` per argument). -/
def bstArgsLoop (oracle : Nat → String) (nodes : List CNode) (scope : String) (stack : List String) (st : ASt) : ASt :=
  match nodes with
  | [] => st
  | n :: rest =>
      bstArgsLoop oracle rest scope stack
        (markVariablesAsUsed n scope stack (buildSymbolTable oracle n scope stack st))

/-- The default-case traversal over an array-valued property. -/
def bstBothList (oracle : Nat → String) (nodes : List CNode) (scope : String) (stack : List String) (st : ASt) : ASt :=
  match nodes with
  | [] => st
  | n :: rest =>
      bstBothList oracle rest scope stack
        (markVariablesAsUsed n scope stack (buildSymbolTable oracle n scope stack st))

/-- The `node.declarations?.forEach(declarator => …)` loop of the
`VariableDeclaration` case. -/
def bstDeclLoop (oracle : Nat → String) (decls : List CNode) (varType : String)
    (scope : String) (stack : List String) (st : ASt) : ASt :=
  match decls with
  | [] => st
  | d :: rest =>
      let st' :=
        match d with
        | CNode.variableDeclarator id isArr initzr isPtr =>
            match identName id with
            | some vn =>
                if vn = "" then st
                else
                  let finalType0 := if isPtr then varType ++ "*" else varType
                  let finalType := if isArr then finalType0 ++ "[]" else finalType0
                  let varKey := getSymbolKey vn scope
                  if (tfind st.symbolTable varKey).isSome then
                    pushSemErr st
                      { message := "Redeclaration of variable '" ++ vn ++ "' in " ++
                          scope ++ " scope"
                        description := "Variable already declared in this scope" }
                  else
                    -- JS `initialized: declarator.initializer !== undefined`: the
                    -- parser always sets `initializer` (null when absent), and
                    -- `null !== undefined`, so this is true for every declarator
                    let vSym : Sym :=
                      { name := vn, stype := finalType, scope := scope, line := 1,
                        initialized := true, isArray := isArr, isPointer := isPtr }
                    let st1 := { st with symbolTable := tset st.symbolTable varKey vSym }
                    bstBuildMarkOpt oracle initzr scope stack st1
            | none => st
        | _ => st
      bstDeclLoop oracle rest varType scope stack st'

end

mutual

/-- JS `checkTypes(node, scope, localScopeStack)` — phase 2. -/
def checkTypes (node : CNode) (scope : String) (stack : List String) (st : ASt) : ASt :=
  match node with
  | .program body => ctList body scope stack st
  | .assignmentExpression _ l r =>
      let p1 := getExpressionType l scope stack st
      let p2 := getExpressionType r scope stack p1.2
      let st2 := p2.2
      let st3 :=
        match p1.1, p2.1 with
        | some leftType, some rightType =>
            if leftType ≠ "" && rightType ≠ "" &&
                !areTypesCompatible leftType rightType then
              pushSemErr st2
                { message := "Type mismatch in assignment: cannot assign '" ++
                    rightType ++ "' to '" ++ leftType ++ "'"
                  description := "Incompatible types in assignment" }
            else st2
        | _, _ => st2
      checkTypes r scope stack (checkTypes l scope stack st3)
  | .callExpression callee args =>
      let fn? := identName callee
      match resolveVariable st.symbolTable fn? scope stack with
      | none =>
          pushSemErr st
            { message := "Call to undefined function '" ++
                (match fn? with | some n => n | none => "undefined") ++ "'"
              description := "Function must be declared before use" }
      | some (_, funcSymbol) =>
          let expectedParams := funcSymbol.params.getD []
          let isVarArgs := funcSymbol.isVarArgs ||
            ["printf", "scanf"].contains funcSymbol.name
          let st1 :=
            if !isVarArgs && args.length ≠ expectedParams.length then
              pushSemErr st
                { message := "Function '" ++
                    (match fn? with | some n => n | none => "undefined") ++
                    "' called with " ++ toString args.length ++
                    " arguments, but expected " ++ toString expectedParams.length
                  description := "Incorrect number of arguments in function call" }
            else st
          ctArgsLoop args 0 expectedParams fn? scope stack st1
  -- default: recursive traversal of all object-valued children
  | .typedefDecl ts id => checkTypes id scope stack (checkTypes ts scope stack st)
  | .functionDeclaration id rt _ params body =>
      let s1 := checkTypes rt scope stack (checkTypes id scope stack st)
      let s2 := ctList params scope stack s1
      ctOpt body scope stack s2
  | .variableDeclaration decls ts =>
      checkTypes ts scope stack (ctList decls scope stack st)
  | .variableDeclarator id _ initzr _ =>
      ctOpt initzr scope stack (checkTypes id scope stack st)
  | .param pt _ _ _ => checkTypes pt scope stack st
  | .declarationSpecifiers sp => ctList sp scope stack st
  | .blockStatement body => ctList body scope stack st
  | .ifStatement t c a =>
      ctOpt a scope stack (ctOpt c scope stack (ctOpt t scope stack st))
  | .whileStatement t b =>
      ctOpt b scope stack (ctOpt t scope stack st)
  | .forStatement i t u b =>
      ctOpt b scope stack
        (ctOpt u scope stack (ctOpt t scope stack (ctOpt i scope stack st)))
  | .returnStatement a => ctOpt a scope stack st
  | .expressionStatement e => checkTypes e scope stack st
  | .binaryExpression _ l r => checkTypes r scope stack (checkTypes l scope stack st)
  | .unaryExpression _ a _ => checkTypes a scope stack st
  | _ => st

/-- The `if (node.x) checkTypes(node.x, …)` null-guards on optional
children. -/
def ctOpt (node? : Option CNode) (scope : String) (stack : List String)
    (st : ASt) : ASt :=
  match node?, st with
  | some x, st => checkTypes x scope stack st
  | none, st => st

/-- The array-child traversal loops of `checkTypes`'s default case. -/
def ctList (nodes : List CNode) (scope : String) (stack : List String) (st : ASt) : ASt :=
  match nodes with
  | [] => st
  | n :: rest => ctList rest scope stack (checkTypes n scope stack st)

/-- The `args.forEach((arg, i) => …)` loop of the `CallExpression` case of
`checkTypes`. -/
def ctArgsLoop (args : List CNode) (i : Nat) (expectedParams : List SymParam)
    (fn? : Option String) (scope : String) (stack : List String) (st : ASt) : ASt :=
  match args with
  | [] => st
  | arg :: rest =>
      let st1 := checkTypes arg scope stack st
      let st2 :=
        if h : i < expectedParams.length then
          let p := getExpressionType arg scope stack st1
          let paramType := (expectedParams.get ⟨i, h⟩).ptype
          match p.1 with
          | some argType =>
              if argType ≠ "" && paramType ≠ "" &&
                  !areTypesCompatible paramType argType then
                pushSemErr p.2
                  { message := "Type mismatch in argument " ++ toString (i + 1) ++
                      " of call to '" ++
                      (match fn? with | some n => n | none => "undefined") ++
                      "': expected '" ++ paramType ++ "', got '" ++ argType ++ "'"
                    description := "Incompatible argument type" }
              else p.2
          | none => p.2
        else st1
      ctArgsLoop rest (i + 1) expectedParams fn? scope stack st2

end

/-- The fixed standard-library table of `addStandardLibraryFunctions`,
in source order. -/
def stdFuncs : List (String × String × List SymParam × Bool) :=
  [("printf", "int", [{ name := "format", ptype := "const char*" }], true),
   ("scanf", "int", [{ name := "format", ptype := "const char*" }], true),
   ("malloc", "void*", [{ name := "size", ptype := "size_t" }], false),
   ("free", "void", [{ name := "ptr", ptype := "void*" }], false),
   ("strcpy", "char*",
     [{ name := "dest", ptype := "char*" }, { name := "src", ptype := "const char*" }], false),
   ("strlen", "size_t", [{ name := "str", ptype := "const char*" }], false),
   ("puts", "int", [{ name := "str", ptype := "const char*" }], false),
   ("putchar", "int", [{ name := "char", ptype := "int" }], false),
   ("getchar", "int", [], false),
   ("fopen", "FILE*",
     [{ name := "filename", ptype := "const char*" },
      { name := "mode", ptype := "const char*" }], false),
   ("fclose", "int", [{ name := "stream", ptype := "FILE*" }], false),
   ("exit", "void", [{ name := "status", ptype := "int" }], false),
   ("memcpy", "void*",
     [{ name := "dest", ptype := "void*" }, { name := "src", ptype := "const void*" },
      { name := "n", ptype := "size_t" }], false),
   ("memset", "void*",
     [{ name := "str", ptype := "void*" }, { name := "c", ptype := "int" },
      { name := "n", ptype := "size_t" }], false)]

/-- JS `addStandardLibraryFunctions()`: seed the `builtin` scope. -/
def addStandardLibraryFunctions (st : ASt) : ASt :=
  stdFuncs.foldl
    (fun s f =>
      let sym : Sym :=
        { name := f.1, stype := f.2.1 ++ " function", returnType := some f.2.1,
          scope := "builtin", line := 0, initialized := true,
          params := some f.2.2.1, isVarArgs := f.2.2.2 }
      { s with symbolTable := tset s.symbolTable (getSymbolKey f.1 "builtin") sym })
    st

/-- Does `cs` start with the characters of `pat`? -/
def startsWithChars (pat : List Char) (cs : List Char) : Bool :=
  decide (pat <+: cs)

/-- The header captured by one attempt of the
`/#include\s*[<"]([^>"]+)[>"]/` regex at the position right after
`#include`: skip `\s*`, expect `<` or `"`, capture `[^>"]+`, require the
closing `>` or `"`; returns the capture and the rest of the input. -/
def includeMatchHere (cs : List Char) : Option (String × List Char) :=
  let afterWs := cs.dropWhile isWsJS
  match afterWs with
  | o :: rest =>
      if o = '<' || o = '"' then
        let body := rest.takeWhile (fun c => !(c == '>' || c == '"'))
        let rest2 := rest.dropWhile (fun c => !(c == '>' || c == '"'))
        match body, rest2 with
        | [], _ => none
        | _, closer :: rest3 =>
            if closer = '>' || closer = '"' then some (String.mk body, rest3) else none
        | _, [] => none
      else none
  | [] => none

/-- The global scan of `/#include\s*[<"]([^>"]+)[>"]/g` over the source
text (fuel = remaining characters). -/
def scanIncludesAux : Nat → List Char → List String
  | 0, _ => []
  | _ + 1, [] => []
  | f + 1, c :: rest =>
      if startsWithChars "#include".toList (c :: rest) then
        let after := (c :: rest).drop 8
        match includeMatchHere after with
        | some (h, rest2) => h :: scanIncludesAux f rest2
        | none => scanIncludesAux f rest
      else scanIncludesAux f rest

/-- The `#include` headers found in the source text. -/
def scanIncludes (code : String) : List String :=
  scanIncludesAux (code.length + 1) code.toList

/-- The `(name, value)` captured by one attempt of the
`/#define\s+(\w+)(?:\s+(.*?))?$/m` regex right after `#define`: at least one
whitespace, a `\w+` name, then the rest of the line trimmed as the value
(empty when absent). Returns the captures and the rest of the input. -/
def defineMatchHere (cs : List Char) : Option (String × String × List Char) :=
  match cs with
  | c :: _ =>
      if isWsJS c then
        let afterWs := cs.dropWhile isWsJS
        let nameChars := afterWs.takeWhile isWordJS
        let rest := afterWs.dropWhile isWordJS
        if nameChars = [] then none
        else
          let lineRest := rest.takeWhile (fun ch => ch ≠ '\n')
          let rest2 := rest.dropWhile (fun ch => ch ≠ '\n')
          some (String.mk nameChars, trimJS (String.mk lineRest), rest2)
      else none
  | [] => none

/-- The global scan of the `#define` regex over the source text. -/
def scanDefinesAux : Nat → List Char → List (String × String)
  | 0, _ => []
  | _ + 1, [] => []
  | f + 1, c :: rest =>
      if startsWithChars "#define".toList (c :: rest) then
        let after := (c :: rest).drop 7
        match defineMatchHere after with
        | some (n, v, rest2) => (n, v) :: scanDefinesAux f rest2
        | none => scanDefinesAux f rest
      else scanDefinesAux f rest

/-- The `#define` macros found in the source text. -/
def scanDefines (code : String) : List (String × String) :=
  scanDefinesAux (code.length + 1) code.toList

/-- JS `processPreprocessorDirectives(code)`: a falsy (empty) source text
skips everything, including the standard-library seeding. -/
def processPreprocessorDirectives (code : String) (st : ASt) : ASt :=
  if code = "" then st
  else
    let st1 := addStandardLibraryFunctions st
    let st2 := (scanIncludes code).foldl
      (fun s h =>
        let sym : Sym :=
          { name := "#include_" ++ h, stype := "preprocessor",
            scope := "preprocessor", line := 1, initialized := true }
        let tbl := tset s.symbolTable (getSymbolKey ("#include_" ++ h) "preprocessor") sym
        { s with symbolTable := tbl })
      st1
    (scanDefines code).foldl
      (fun s nv =>
        let sym : Sym :=
          { name := nv.1, stype := "macro", scope := "global", line := 1,
            initialized := true, value := some nv.2 }
        { s with symbolTable := tset s.symbolTable (getSymbolKey nv.1 "global") sym })
      st2

/-- Is the symbol exempt from the unused-variable check (functions, builtins,
preprocessor entries, parameters, macros)? -/
def unusedExempt (sym : Sym) : Bool :=
  strContains sym.stype "function" || sym.scope == "builtin" ||
    sym.scope == "preprocessor" || sym.isParameter || sym.stype == "macro"

/-- One iteration of the unused-variable loop of phase 3. -/
def unusedStep (s : ASt) (e : String × Sym) : ASt :=
  let sym := e.2
  if unusedExempt sym then s
  else if !s.variableUses.contains sym.name then
    pushSemErr s
      { message := "Unused variable '" ++ sym.name ++ "'", line := sym.line,
        description := "Variable is declared but never used",
        severity := some "warning" }
  else s

/-- JS `performSemanticChecks()` — phase 3: the missing-`main` check, then
the unused-variable warnings in symbol-table order. -/
def performSemanticChecks (st : ASt) : ASt :=
  let hasMainFunction := (tfind st.symbolTable (getSymbolKey "main" "global")).isSome
  let st1 :=
    if !hasMainFunction && st.symbolTable.length > 0 then
      pushSemErr st { message := "Missing 'main' function"
                      description := "C program requires a 'main' function" }
    else st
  st1.symbolTable.foldl unusedStep st1

/-- JS `formatSymbolTable()`: drop `builtin` and `preprocessor` entries and
key the rest by `name` (global scope) or `scope.name`. The display projection
of the fields is display-only; the full symbol rides along. -/
def formatSymbolTable (table : List (String × Sym)) : List (String × Sym) :=
  (table.filter
    (fun e => !(e.2.scope == "builtin" || e.2.scope == "preprocessor"))).map
    (fun e =>
      (if e.2.scope == "global" then e.2.name else e.2.scope ++ "." ++ e.2.name, e.2))

/-- The analyzer pipeline through phase 2: preprocessing, phase 1 (symbol
table), phase 2 (type checking). -/
def analyzePhase2 (oracle : Nat → String) (ast : CNode) (code : String) : ASt :=
  let st0 := processPreprocessorDirectives code {}
  let st1 := buildSymbolTable oracle ast "global" ["global"] st0
  checkTypes ast "global" ["global"] st1

/-- The full analyzer pipeline with the internal state exposed:
preprocessing, phase 1, phase 2, phase 3. -/
def analyzeFull (oracle : Nat → String) (ast : CNode) (code : String) : ASt :=
  performSemanticChecks (analyzePhase2 oracle ast code)

/-- JS `semanticAnalyzer(ast, code)`: the display symbol table and the
diagnostics (the catch-all wrapper of the source converts JS runtime faults;
the embedding is total, so it has no failure path). -/
def semanticAnalyzer (oracle : Nat → String) (ast : CNode) (code : String) :
    List (String × Sym) × List SemErr :=
  let st := analyzeFull oracle ast code
  (formatSymbolTable st.symbolTable, st.errors)

/-- JS `statistics.includedHeaders`. -/
structure IncludedHeaders where
  stdio : Bool
  stdlib : Bool
  string : Bool
deriving Repr, DecidableEq

/-- JS `statistics` of `codeGenerator`'s result. -/
structure CgStats where
  instructionCount : Nat
  optimizedInstructionCount : Nat
  tempVariables : Nat
  labels : Nat
  optimizationPasses : Nat
  includedHeaders : IncludedHeaders
deriving Repr, DecidableEq

/-- The result record of `codeGenerator` (the raw and optimized TAC are kept
as instruction lists; `formatIntermediateCode`, the assembly and the machine
code are display-only renderings of these and are not modelled). -/
structure CgResult where
  intermediateCode : List Instr
  optimizedCode : List Instr
  stringLiterals : List (String × String)
  statistics : CgStats
  errors : List CgError
deriving Repr, DecidableEq

/-- JS `codeGenerator(ast, symbolTable)`: the symbol-table argument is unused
by the source, so it is not a parameter here. -/
def codeGenerator (ast : CNode) : CgResult :=
  let st0 : GenSt := {}
  let st1 :=
    if mentionsStdio ast then
      emit "INCLUDE" (some "stdio.h") none none { st0 with hasStdio := true }
    else st0
  let st2 := generateCode ast st1
  let optimized := optimizeCode st2.code
  { intermediateCode := st2.code
    optimizedCode := optimized
    stringLiterals := st2.stringLiterals
    statistics :=
      { instructionCount := st2.code.length
        optimizedInstructionCount := optimized.length
        tempVariables := st2.tempVarCounter
        labels := st2.labelCounter
        optimizationPasses := 5
        includedHeaders :=
          { stdio := st2.hasStdio, stdlib := st2.hasStdlib, string := st2.hasString } }
    errors := st2.errors }

/-- Does a declaration's identifier avoid the name `main`?
(`identName`-based: function and declarator names). -/
def declNameGood (id : CNode) : Bool :=
  match identName id with
  | some n => n != "main"
  | none => true

/-- Does a parameter node's `.name` avoid `main`? -/
def paramNameGood (p : CNode) : Bool :=
  match jsNameOf p with
  | some n => n != "main"
  | none => true

mutual

/-- No declaration in the AST — function, parameter or variable declarator,
at any depth — is named `main` (the hypothesis under which phase 1 can
never create the symbol-table key `global:main`). -/
def goodNames : CNode → Bool
  | .program body => goodNamesList body
  | .includeDirective _ _ => true
  | .preprocessorDirective _ => true
  | .typedefDecl ts id => goodNames ts && goodNames id
  | .functionDeclaration id _ _ params body =>
      declNameGood id && params.all paramNameGood && goodNamesOpt body
  | .variableDeclaration decls _ => goodNamesList decls
  | .variableDeclarator id _ initzr _ =>
      declNameGood id && goodNames id && goodNamesOpt initzr
  | .param pt _ _ _ => goodNames pt
  | .declarationSpecifiers sp => goodNamesList sp
  | .typeSpecifier _ => true
  | .typeQualifier _ => true
  | .complexType _ _ => true
  | .blockStatement body => goodNamesList body
  | .ifStatement t c a => goodNamesOpt t && goodNamesOpt c && goodNamesOpt a
  | .whileStatement t b => goodNamesOpt t && goodNamesOpt b
  | .forStatement i t u b =>
      goodNamesOpt i && goodNamesOpt t && goodNamesOpt u && goodNamesOpt b
  | .returnStatement a => goodNamesOpt a
  | .expressionStatement e => goodNames e
  | .breakStatement => true
  | .continueStatement => true
  | .identifier _ => true
  | .literal _ _ => true
  | .binaryExpression _ l r => goodNames l && goodNames r
  | .unaryExpression _ a _ => goodNames a
  | .assignmentExpression _ l r => goodNames l && goodNames r
  | .callExpression _ args => goodNamesList args

/-- `goodNames` over an array child. -/
def goodNamesList : List CNode → Bool
  | [] => true
  | n :: rest => goodNames n && goodNamesList rest

/-- `goodNames` over an optional child. -/
def goodNamesOpt : Option CNode → Bool
  | some x => goodNames x
  | none => true

end

/-- Symbol-table evolution invariant used for the missing-`main` analysis:
one analysis step never shrinks the table and never creates the key
`global:main` when it was absent. -/
def tpres (t t' : List (String × Sym)) : Prop :=
  t.length ≤ t'.length ∧
    (tfind t "global:main" = none → tfind t' "global:main" = none)

/-! ## Concrete programs

The lexer (`src/utils/lexer.js`) is not part of the sources under
verification; the token streams below are its outputs for the concrete
sources the claims mention. -/

/-- Token constructor shorthand. -/
def mkTk (k v : String) (s e : Nat) : Token :=
  { tkind := k, value := v, start := s, stop := e }

/-- Modelled from the spec: the lexer's token stream for the source
`int main() { for (int i = 0; i < 3; i = i + 1) { } return 0; }`
(§4.1: keyword/type/identifier/number/operator/punctuation kinds, byte
offsets). -/
def forLoopTokens : List Token :=
  [mkTk "type" "int" 0 3, mkTk "identifier" "main" 4 8, mkTk "punctuation" "(" 8 9,
   mkTk "punctuation" ")" 9 10, mkTk "punctuation" "\x7b" 11 12, mkTk "keyword" "for" 13 16,
   mkTk "punctuation" "(" 17 18, mkTk "type" "int" 18 21, mkTk "identifier" "i" 22 23,
   mkTk "operator" "=" 24 25, mkTk "number" "0" 26 27, mkTk "punctuation" ";" 27 28,
   mkTk "identifier" "i" 29 30, mkTk "operator" "<" 31 32, mkTk "number" "3" 33 34,
   mkTk "punctuation" ";" 34 35, mkTk "identifier" "i" 36 37, mkTk "operator" "=" 38 39,
   mkTk "identifier" "i" 40 41, mkTk "operator" "+" 42 43, mkTk "number" "1" 44 45,
   mkTk "punctuation" ")" 45 46, mkTk "punctuation" "\x7b" 47 48, mkTk "punctuation" "\x7d" 49 50,
   mkTk "keyword" "return" 51 57, mkTk "number" "0" 58 59, mkTk "punctuation" ";" 59 60,
   mkTk "punctuation" "\x7d" 61 62]

/-- Modelled from the spec: the lexer's token stream for the source
`int x; int main() { return x; }`. -/
def uninitTokens : List Token :=
  [mkTk "type" "int" 0 3, mkTk "identifier" "x" 4 5, mkTk "punctuation" ";" 5 6,
   mkTk "type" "int" 7 10, mkTk "identifier" "main" 11 15, mkTk "punctuation" "(" 15 16,
   mkTk "punctuation" ")" 16 17, mkTk "punctuation" "\x7b" 18 19, mkTk "keyword" "return" 20 26,
   mkTk "identifier" "x" 27 28, mkTk "punctuation" ";" 28 29, mkTk "punctuation" "\x7d" 30 31]

/-- The source text of `uninitTokens`. -/
def uninitSource : String := "int x; int main() \x7b return x; \x7d"

/-- Modelled from the spec: the lexer's token stream for the source
`int main() { int a = 0; return a; }` (used to exhibit the oracle dependence
of block-scope keys). -/
def blockVarTokens : List Token :=
  [mkTk "type" "int" 0 3, mkTk "identifier" "main" 4 8, mkTk "punctuation" "(" 8 9,
   mkTk "punctuation" ")" 9 10, mkTk "punctuation" "\x7b" 11 12, mkTk "type" "int" 13 16,
   mkTk "identifier" "a" 17 18, mkTk "operator" "=" 19 20, mkTk "number" "0" 21 22,
   mkTk "punctuation" ";" 22 23, mkTk "keyword" "return" 24 30, mkTk "identifier" "a" 31 32,
   mkTk "punctuation" ";" 32 33, mkTk "punctuation" "\x7d" 34 35]

/-- The source text of `blockVarTokens`. -/
def blockVarSource : String := "int main() \x7b int a = 0; return a; \x7d"

/-- Modelled from the spec: the lexer's token stream for the source
`int main() { int x = 1; { int x = 2; } return x; }` (a shadowing inner
declaration of `x` that is itself never read). -/
def shadowTokens : List Token :=
  [mkTk "type" "int" 0 3, mkTk "identifier" "main" 4 8, mkTk "punctuation" "(" 8 9,
   mkTk "punctuation" ")" 9 10, mkTk "punctuation" "\x7b" 11 12,
   mkTk "type" "int" 13 16, mkTk "identifier" "x" 17 18, mkTk "operator" "=" 19 20,
   mkTk "number" "1" 21 22, mkTk "punctuation" ";" 22 23,
   mkTk "punctuation" "\x7b" 24 25, mkTk "type" "int" 26 29, mkTk "identifier" "x" 30 31,
   mkTk "operator" "=" 32 33, mkTk "number" "2" 34 35, mkTk "punctuation" ";" 35 36,
   mkTk "punctuation" "\x7d" 37 38,
   mkTk "keyword" "return" 39 45, mkTk "identifier" "x" 46 47, mkTk "punctuation" ";" 47 48,
   mkTk "punctuation" "\x7d" 49 50]

/-- The source text of `shadowTokens`. -/
def shadowSource : String := "int main() \x7b int x = 1; \x7b int x = 2; \x7d return x; \x7d"

/-- An oracle standing for one run's `Date.now()`/`Math.random()` draws. -/
def oracleA : Nat → String := fun n => toString n

/-- An oracle standing for a second run's draws. -/
def oracleB : Nat → String := fun n => "T" ++ toString n

/-- The binary operators of the parser's precedence table. -/
def binOps : List String :=
  ["||", "&&", "==", "!=", "<", ">", "<=", ">=", "+", "-", "*", "/", "%"]

/-- Modelled from the spec: the token stream of the expression
`a op1 b op2 c`. -/
def twoOpTokens (op1 op2 : String) : List Token :=
  [mkTk "identifier" "a" 0 1, mkTk "operator" op1 2 3, mkTk "identifier" "b" 4 5,
   mkTk "operator" op2 6 7, mkTk "identifier" "c" 8 9]

/-- Modelled from the spec: the token stream of `a = b = c`. -/
def assignChainTokens : List Token :=
  [mkTk "identifier" "a" 0 1, mkTk "operator" "=" 2 3, mkTk "identifier" "b" 4 5,
   mkTk "operator" "=" 6 7, mkTk "identifier" "c" 8 9]

/-- Modelled from the spec: the token stream of `a = b op c`. -/
def assignOpTokens (op : String) : List Token :=
  [mkTk "identifier" "a" 0 1, mkTk "operator" "=" 2 3, mkTk "identifier" "b" 4 5,
   mkTk "operator" op 6 7, mkTk "identifier" "c" 8 9]

/-- Run the parser's expression entry (`parseExpression`) on a token list
with the standard fuel. -/
def parseExpr (tokens : List Token) : Option CNode × PSt :=
  parseExpression tokens (parserFuel tokens) {}

/-- A stream of `k` consecutive `int` type tokens — the worst case for the
top-level savepoint look-ahead of `parseProgram`. -/
def intToks (k : Nat) : List Token := List.replicate k (mkTk "type" "int" 0 3)

/-- The diagnostic each top-level iteration pushes on `intToks`. -/
def unrecErr : ParseErr := { message := "Unrecognized declaration", start := 0, stop := 3 }

/-- The parser's step count on `intToks m` (one step per parser-function
call or loop iteration): iteration `j` rescans the remaining `m - j`
specifier tokens before rewinding and advancing one token. -/
def intScanCost : Nat → Nat
  | 0 => 1
  | m + 1 => (m + 4) + intScanCost m

end CC

/-! ## Optimizer lemmas (claim C3) -/

namespace CC

/-- Every transform rule rewrites the instruction into an `ASSIGN`. -/
theorem transforms_assign : ∀ {i j : Instr}, transforms i = some j → j.operation = "ASSIGN" := by
  intro i j h
  unfold transforms at h
  split_ifs at h
  all_goals first
    | (injection h with h2; subst h2; rfl)
    | exact Option.noConfusion h

/-- No transform rule fires on an `ASSIGN` instruction. -/
theorem transforms_of_assign {i : Instr} (h : i.operation = "ASSIGN") :
    transforms i = none := by
  simp [transforms, h]

/-- The unfolding equation of `optLoop` at a successor fuel value. -/
theorem optLoop_succ (f : Nat) (l : List Instr) :
    optLoop (f + 1) l =
      (let p := optPass l; if p.2 then optLoop f p.1 else p.1) := rfl

/-- One optimizer pass never lengthens the instruction list. -/
theorem optPass_length (l : List Instr) : (optPass l).1.length ≤ l.length := by
  induction l with
  | nil => simp [optPass]
  | cons cur rest ih =>
      simp only [optPass]
      split
      · exact Nat.le_succ_of_le ih
      · split <;> (simp only [List.length_cons]; omega)

/-- The optimizer loop never lengthens the instruction list. -/
theorem optLoop_length (f : Nat) (l : List Instr) : (optLoop f l).length ≤ l.length := by
  induction f generalizing l with
  | zero => exact Nat.le_refl _
  | succ f ih =>
      rw [optLoop_succ]
      dsimp only
      split
      · exact Nat.le_trans (ih _) (optPass_length l)
      · exact optPass_length l

/-- A pass that reports no change returns its input unchanged. -/
theorem optPass_false_eq : ∀ l : List Instr, (optPass l).2 = false → (optPass l).1 = l := by
  intro l
  induction l with
  | nil => intro _; rfl
  | cons cur rest ih =>
      simp only [optPass]
      split
      · intro h; exact absurd h (by simp)
      · split
        · intro h; exact absurd h (by simp)
        · intro h
          simp only at h
          simp [ih h]

/-- After one pass, no transform rule fires on any remaining instruction:
transformed instructions become `ASSIGN`s (on which no rule fires), and kept
instructions had no rule firing. -/
theorem optPass_noFold : ∀ l : List Instr, ∀ j ∈ (optPass l).1, transforms j = none := by
  intro l
  induction l with
  | nil => intro j hj; simp [optPass] at hj
  | cons cur rest ih =>
      intro j hj
      simp only [optPass] at hj
      split at hj
      · exact ih j hj
      · split at hj
        next i heq =>
          rcases List.mem_cons.mp hj with h | h
          · subst h; exact transforms_of_assign (transforms_assign heq)
          · exact ih j h
        next heq =>
          rcases List.mem_cons.mp hj with h | h
          · subst h; exact heq
          · exact ih j h

/-- When no transform rule fires anywhere, the head of a pass's output is
either the original head or an `ASSIGN` with the same `result` as the
original head (the survivor of a dead-store chain). -/
theorem optPass_head_noFold :
    ∀ (rest : List Instr) (cur : Instr), (∀ j ∈ cur :: rest, transforms j = none) →
      ∀ h ∈ ((optPass (cur :: rest)).1.head?), h = cur ∨
        (cur.operation = "ASSIGN" ∧ h.operation = "ASSIGN" ∧ h.result = cur.result) := by
  intro rest
  induction rest with
  | nil =>
      intro cur hnf h hh
      simp only [optPass, isDeadStore] at hh
      rw [hnf cur (by simp)] at hh
      simp at hh
      exact Or.inl hh.symm
  | cons b rest' ih =>
      intro cur hnf h hh
      simp only [optPass] at hh
      split at hh
      next hds =>
        -- `cur` was skipped as a dead store in favour of the chain after it
        have hb : cur.operation = "ASSIGN" ∧ b.operation = "ASSIGN" ∧
            cur.result = b.result := by
          simp only [isDeadStore, List.head?] at hds
          simp only [Bool.and_eq_true, beq_iff_eq] at hds
          exact ⟨hds.1.1, hds.1.2, hds.2⟩
        have hrec := ih b (fun j hj => hnf j (List.mem_cons_of_mem _ hj)) h
        simp only [optPass] at hh hrec
        rcases hrec hh with h1 | h1
        · exact Or.inr ⟨hb.1, h1 ▸ hb.2.1, h1 ▸ hb.2.2.symm ▸ rfl⟩
        · exact Or.inr ⟨hb.1, h1.2.1, h1.2.2.trans hb.2.2.symm⟩
      · split at hh
        next i heq =>
          exact absurd heq (by rw [hnf cur (by simp)]; simp)
        next =>
          simp at hh
          exact Or.inl hh.symm

/-- When no transform rule fires anywhere, one pass leaves no adjacent
dead-store pair: consecutive `ASSIGN`s to the same result cannot both
survive. -/
theorem optPass_noAdj :
    ∀ l : List Instr, (∀ j ∈ l, transforms j = none) →
      (optPass l).1.Chain' (fun a b => isDeadStore a (some b) = false) := by
  intro l
  induction l with
  | nil => intro _; simp [optPass]
  | cons cur rest ih =>
      intro hnf
      have ihrest := ih (fun j hj => hnf j (List.mem_cons_of_mem _ hj))
      simp only [optPass]
      split
      next => exact ihrest
      next hds0 =>
        split
        next i heq =>
          exact absurd heq (by rw [hnf cur (by simp)]; simp)
        next =>
          rw [List.chain'_cons']
          refine ⟨?_, ihrest⟩
          intro h hh
          cases rest with
          | nil => simp [optPass] at hh
          | cons b rest' =>
              have hds : isDeadStore cur ((b :: rest').head?) = false := by
                simpa using hds0
              simp only [List.head?] at hds
              rcases optPass_head_noFold rest' b
                  (fun j hj => hnf j (List.mem_cons_of_mem _ hj)) h hh with h1 | h1
              · rw [h1]; exact hds
              · by_cases hc : cur.operation = "ASSIGN"
                · have hcr : (cur.result == b.result) = false := by
                    simpa [isDeadStore, hc, h1.1] using hds
                  simp only [isDeadStore, hc, h1.2.1, h1.2.2]
                  simpa using hcr
                · simp [isDeadStore, hc]

/-- A pass on a list with no firing transform rule and no adjacent dead-store
pair changes nothing. -/
theorem optPass_stable :
    ∀ l : List Instr, (∀ j ∈ l, transforms j = none) →
      l.Chain' (fun a b => isDeadStore a (some b) = false) →
      optPass l = (l, false) := by
  intro l
  induction l with
  | nil => intro _ _; rfl
  | cons cur rest ih =>
      intro hnf hadj
      have hds : isDeadStore cur rest.head? = false := by
        cases rest with
        | nil => rfl
        | cons b rest' => exact (List.chain'_cons'.mp hadj).1 b rfl
      have ihrest := ih (fun j hj => hnf j (List.mem_cons_of_mem _ hj)) hadj.tail
      simp only [optPass, hds, hnf cur (by simp)]
      simp [ihrest]

/-- The optimizer's result is a fixed point of one pass: the loop always
exits with `changed = false` within at most three changing passes, well
inside the five-pass budget. -/
theorem optLoop5_fix (l : List Instr) : optPass (optLoop 5 l) = (optLoop 5 l, false) := by
  have e5 : optLoop 5 l =
      (if (optPass l).2 then optLoop 4 (optPass l).1 else (optPass l).1) := by
    rw [show (5 : Nat) = 4 + 1 from rfl, optLoop_succ]
  by_cases h1 : (optPass l).2
  · have e4 : optLoop 4 (optPass l).1 =
        (if (optPass (optPass l).1).2 then optLoop 3 (optPass (optPass l).1).1
         else (optPass (optPass l).1).1) := by
      rw [show (4 : Nat) = 3 + 1 from rfl, optLoop_succ]
    by_cases h2 : (optPass (optPass l).1).2
    · have hnf1 := optPass_noFold l
      have hnf2 := optPass_noFold (optPass l).1
      have hadj2 := optPass_noAdj (optPass l).1 hnf1
      have hstable := optPass_stable (optPass (optPass l).1).1 hnf2 hadj2
      have e3 : optLoop 3 (optPass (optPass l).1).1 = (optPass (optPass l).1).1 := by
        rw [show (3 : Nat) = 2 + 1 from rfl, optLoop_succ]
        simp [hstable]
      rw [e5, if_pos h1, e4, if_pos h2, e3]
      exact hstable
    · have heq := optPass_false_eq (optPass l).1 (by simpa using h2)
      rw [e5, if_pos h1, e4, if_neg h2, heq]
      rw [Prod.ext_iff]
      exact ⟨heq, by simpa using h2⟩
  · have heq := optPass_false_eq l (by simpa using h1)
    rw [e5, if_neg h1, heq]
    rw [Prod.ext_iff]
    exact ⟨heq, by simpa using h1⟩

/-- A fixed point of one pass is a fixed point of the loop. -/
theorem optLoop_succ_of_fix (f : Nat) (x : List Instr) (h : optPass x = (x, false)) :
    optLoop (f + 1) x = x := by
  rw [optLoop_succ]
  simp [h]

/-- Applying `optimizeCode` to its own output changes nothing. -/
theorem optimizeCode_idempotent (l : List Instr) :
    optimizeCode (optimizeCode l) = optimizeCode l := by
  show optLoop 5 (optLoop 5 l) = optLoop 5 l
  exact optLoop_succ_of_fix 4 _ (optLoop5_fix l)

/-! ## Loop-stack lemmas (claim C7) -/

@[simp]
theorem emit_loopStack (op : String) (a b r : Option String) (st : GenSt) :
    (emit op a b r st).loopStack = st.loopStack := rfl

@[simp]
theorem emitLabel_loopStack (label : String) (st : GenSt) :
    (emitLabel label st).loopStack = st.loopStack := rfl

@[simp]
theorem pushCgError_loopStack (msg : String) (st : GenSt) :
    (pushCgError msg st).loopStack = st.loopStack := rfl

theorem dropLast_append_singleton {α : Type} (l : List α) (a : α) :
    (l ++ [a]).dropLast = l := by simp

/-- The code-generation functions leave `loopStack` exactly as they found
it: every loop frame pushed by a `while`/`for` is popped when its statement
finishes, so the top of the stack at a `break`/`continue` is always the
frame of the innermost enclosing loop. -/
theorem codegen_loopStack_balance :
    ∀ n : Nat,
      (∀ node : CNode, ∀ σ : GenSt, sizeOf node ≤ n →
        (generateExpression node σ).2.loopStack = σ.loopStack) ∧
      (∀ o : Option CNode, ∀ σ : GenSt, sizeOf o ≤ n →
        (genExprOpt o σ).2.loopStack = σ.loopStack) ∧
      (∀ args : List CNode, ∀ idx : Nat, ∀ σ : GenSt, sizeOf args ≤ n →
        (genCallArgs args idx σ).2.loopStack = σ.loopStack) ∧
      (∀ node : CNode, ∀ σ : GenSt, sizeOf node ≤ n →
        (generateStatement node σ).loopStack = σ.loopStack) ∧
      (∀ o : Option CNode, ∀ σ : GenSt, sizeOf o ≤ n →
        (genStmtOpt o σ).loopStack = σ.loopStack) ∧
      (∀ o : Option CNode, ∀ σ : GenSt, sizeOf o ≤ n →
        (genForInit o σ).loopStack = σ.loopStack) ∧
      (∀ l : List CNode, ∀ σ : GenSt, sizeOf l ≤ n →
        (genStmtSeq l σ).loopStack = σ.loopStack) ∧
      (∀ node : CNode, ∀ σ : GenSt, sizeOf node ≤ n →
        (generateVariableDeclaration node σ).loopStack = σ.loopStack) ∧
      (∀ l : List CNode, ∀ σ : GenSt, sizeOf l ≤ n →
        (genDecls l σ).loopStack = σ.loopStack) := by
  intro n
  induction n using Nat.strong_induction_on with
  | _ n ih =>
    have ihE : ∀ (node : CNode), sizeOf node < n → ∀ σ,
        (generateExpression node σ).2.loopStack = σ.loopStack :=
      fun node h σ => (ih _ h).1 node σ (Nat.le_refl _)
    have ihA : ∀ (args : List CNode), sizeOf args < n → ∀ idx σ,
        (genCallArgs args idx σ).2.loopStack = σ.loopStack :=
      fun args h idx σ => (ih _ h).2.2.1 args idx σ (Nat.le_refl _)
    have ihS : ∀ (node : CNode), sizeOf node < n → ∀ σ,
        (generateStatement node σ).loopStack = σ.loopStack :=
      fun node h σ => (ih _ h).2.2.2.1 node σ (Nat.le_refl _)
    have ihQ : ∀ (l : List CNode), sizeOf l < n → ∀ σ,
        (genStmtSeq l σ).loopStack = σ.loopStack :=
      fun l h σ => (ih _ h).2.2.2.2.2.2.1 l σ (Nat.le_refl _)
    have ihV : ∀ (node : CNode), sizeOf node < n → ∀ σ,
        (generateVariableDeclaration node σ).loopStack = σ.loopStack :=
      fun node h σ => (ih _ h).2.2.2.2.2.2.2.1 node σ (Nat.le_refl _)
    have ihD : ∀ (l : List CNode), sizeOf l < n → ∀ σ,
        (genDecls l σ).loopStack = σ.loopStack :=
      fun l h σ => (ih _ h).2.2.2.2.2.2.2.2 l σ (Nat.le_refl _)
    constructor
    · -- generateExpression
      intro node σ hn
      cases node <;> try rfl
      case literal v vt => simp only [generateExpression]; split <;> rfl
      case binaryExpression op l r =>
        have hl := ihE l (by simp at hn; omega)
        have hr := ihE r (by simp at hn; omega)
        simp only [generateExpression]
        split <;> simp [hl, hr]
      case unaryExpression op a pfx =>
        have ha := ihE a (by simp at hn; omega)
        simp only [generateExpression]
        split <;> (try split) <;> simp [ha]
      case assignmentExpression op l r =>
        have hr := ihE r (by simp at hn; omega)
        simp only [generateExpression]
        simp [hr]
      case callExpression callee args =>
        have hargs := ihA args (by simp at hn; omega)
        simp only [generateExpression]
        simp [hargs]
    constructor
    · -- genExprOpt
      intro o σ hn
      cases o with
      | none => rfl
      | some x =>
          have := ihE x (by simp at hn; omega) σ
          simpa [genExprOpt] using this
    constructor
    · -- genCallArgs
      intro args idx σ hn
      cases args with
      | nil => rfl
      | cons a rest =>
          have ha := ihE a (by simp at hn; omega)
          have hrest := ihA rest (by simp at hn; omega)
          simp only [genCallArgs]
          simp [ha, hrest]
    constructor
    · -- generateStatement
      intro node σ hn
      have ihEO : ∀ (o : Option CNode), sizeOf o < n → ∀ σ',
          (genExprOpt o σ').2.loopStack = σ'.loopStack :=
        fun o h σ' => (ih _ h).2.1 o σ' (Nat.le_refl _)
      have ihSO : ∀ (o : Option CNode), sizeOf o < n → ∀ σ',
          (genStmtOpt o σ').loopStack = σ'.loopStack :=
        fun o h σ' => (ih _ h).2.2.2.2.1 o σ' (Nat.le_refl _)
      have ihFI : ∀ (o : Option CNode), sizeOf o < n → ∀ σ',
          (genForInit o σ').loopStack = σ'.loopStack :=
        fun o h σ' => (ih _ h).2.2.2.2.2.1 o σ' (Nat.le_refl _)
      cases node <;> try rfl
      case expressionStatement e =>
        exact ihE e (by simp at hn; omega) σ
      case returnStatement arg =>
        cases arg with
        | none => rfl
        | some a =>
            have ha := ihE a (by simp at hn; omega)
            simp only [generateStatement]
            simp [ha]
      case ifStatement t c alt =>
        have ht := ihEO t (by simp at hn; omega)
        have hc := ihSO c (by simp at hn; omega)
        cases alt with
        | none =>
            simp only [generateStatement]
            simp [ht, hc]
        | some altNode =>
            have halt := ihS altNode (by simp at hn; omega)
            simp only [generateStatement]
            simp [ht, hc, halt]
      case whileStatement t b =>
        have ht := ihEO t (by simp at hn; omega)
        have hb := ihSO b (by simp at hn; omega)
        simp only [generateStatement]
        simp [ht, hb]
      case forStatement i t u b =>
        have hi := ihFI i (by simp at hn; omega)
        have hu := ihEO u (by simp at hn; omega)
        have hb := ihSO b (by simp at hn; omega)
        cases t with
        | none =>
            simp only [generateStatement]
            simp [hi, hu, hb]
        | some tx =>
            have htx := ihE tx (by simp at hn; omega)
            simp only [generateStatement]
            simp [hi, hu, hb, htx]
      case blockStatement body =>
        have hq := ihQ body (by simp at hn; omega)
        simp only [generateStatement]
        simp [hq]
      case breakStatement =>
        simp only [generateStatement]
        cases h : σ.loopStack.getLast? <;> simp
      case continueStatement =>
        simp only [generateStatement]
        cases h : σ.loopStack.getLast? <;> simp
    constructor
    · -- genStmtOpt
      intro o σ hn
      cases o with
      | none => rfl
      | some x =>
          have := ihS x (by simp at hn; omega) σ
          simpa [genStmtOpt] using this
    constructor
    · -- genForInit
      intro o σ hn
      cases o with
      | none => rfl
      | some x =>
          have hx : sizeOf x < n := by simp at hn; omega
          cases x <;> first
            | exact ihV _ hx σ
            | exact ihE _ hx σ
    constructor
    · -- genStmtSeq
      intro l σ hn
      cases l with
      | nil => rfl
      | cons st rest =>
          have hs : sizeOf st < n := by simp at hn; omega
          have hrest := ihQ rest (by simp at hn; omega)
          simp only [genStmtSeq]
          have hstep : ∀ σ' : GenSt, ((match st with
              | CNode.variableDeclaration _ _ => generateVariableDeclaration st σ'
              | _ => generateStatement st σ')).loopStack = σ'.loopStack := by
            intro σ'
            cases st <;> first | exact ihV _ hs σ' | exact ihS _ hs σ'
          rw [hrest, hstep]
    constructor
    · -- generateVariableDeclaration
      intro node σ hn
      cases node <;> try rfl
      case variableDeclaration decls ts =>
        exact ihD decls (by simp at hn; omega) σ
    · -- genDecls
      intro l σ hn
      cases l with
      | nil => rfl
      | cons d rest =>
          have hrest := ihD rest (by simp at hn; omega)
          simp only [genDecls]
          cases d <;> try (rw [hrest])
          case variableDeclarator id isArr initzr isPtr =>
            cases hid : identName id with
            | none => simp [hid, hrest]
            | some vn =>
                cases initzr with
                | none => simp [hid, hrest]
                | some ie =>
                    have hie := ihE ie (by simp at hn; omega)
                    simp [hid, hrest, hie]

/-! ## Missing-`main` lemmas (claim C5) -/

/-- Splitting `la ++ ':' :: lb` against the characters of `global:main`:
the single colon fixes the split point. -/
theorem colon_split (la lb : List Char)
    (h : la ++ ':' :: lb = ['g', 'l', 'o', 'b', 'a', 'l', ':', 'm', 'a', 'i', 'n']) :
    la = ['g', 'l', 'o', 'b', 'a', 'l'] ∧ lb = ['m', 'a', 'i', 'n'] := by
  rcases la with _|⟨a0,_|⟨a1,_|⟨a2,_|⟨a3,_|⟨a4,_|⟨a5,_|⟨a6,_|⟨a7,_|⟨a8,_|⟨a9,_|⟨a10,_|⟨a11,la⟩⟩⟩⟩⟩⟩⟩⟩⟩⟩⟩⟩ <;>
    simp_all

/-- A key `s ++ ":" ++ n` equals `global:main` only for `s = "global"`,
`n = "main"`. -/
theorem append_colon_global_main {s n : String} (h : s ++ ":" ++ n = "global:main") :
    s = "global" ∧ n = "main" := by
  have hd : s.data ++ ':' :: n.data = ['g', 'l', 'o', 'b', 'a', 'l', ':', 'm', 'a', 'i', 'n'] := by
    have h2 := congrArg String.data h
    simpa [String.data_append] using h2
  obtain ⟨h1, h2⟩ := colon_split _ _ hd
  constructor
  · cases s; simp_all [String.data]
  · cases n; simp_all [String.data]

/-- `getSymbolKey n scope = "global:main"` forces `scope = "global"` and
`n = "main"`. -/
theorem getSymbolKey_eq_global_main {n scope : String}
    (h : getSymbolKey n scope = "global:main") : scope = "global" ∧ n = "main" :=
  append_colon_global_main h

@[simp] theorem pushSemErr_symbolTable (st : ASt) (e : SemErr) :
    (pushSemErr st e).symbolTable = st.symbolTable := rfl

@[simp] theorem pushSemErr_variableUses (st : ASt) (e : SemErr) :
    (pushSemErr st e).variableUses = st.variableUses := rfl

@[simp] theorem usesAdd_symbolTable (st : ASt) (n : String) :
    (usesAdd st n).symbolTable = st.symbolTable := by
  unfold usesAdd; split <;> rfl

/-- The overwrite branch of `tset` does not change the lookup at another
key. -/
theorem tfind_map_set (tbl : List (String × Sym)) (key k : String) (sym : Sym)
    (hne : key ≠ k) :
    tfind (tbl.map (fun e => if e.1 == key then (key, sym) else e)) k = tfind tbl k := by
  induction tbl with
  | nil => rfl
  | cons e rest ih =>
      simp only [List.map_cons]
      by_cases hek : e.1 = key
      · rw [if_pos (by simpa using hek)]
        by_cases hk : e.1 = k
        · exact absurd (hek ▸ hk) hne
        · simp only [tfind]
          rw [if_neg hne, if_neg hk]
          exact ih
      · rw [if_neg (by simpa using hek)]
        simp only [tfind]
        by_cases hk : e.1 = k
        · rw [if_pos hk, if_pos hk]
        · rw [if_neg hk, if_neg hk]
          exact ih

/-- The append branch of `tset` does not change the lookup at another key. -/
theorem tfind_append_single (tbl : List (String × Sym)) (key k : String) (sym : Sym)
    (hne : key ≠ k) : tfind (tbl ++ [(key, sym)]) k = tfind tbl k := by
  induction tbl with
  | nil =>
      show tfind [(key, sym)] k = none
      simp only [tfind]
      rw [if_neg hne]
  | cons e rest ih =>
      simp only [List.cons_append, tfind]
      by_cases hk : e.1 = k
      · rw [if_pos hk, if_pos hk]
      · rw [if_neg hk, if_neg hk]
        exact ih

/-- `tset` with a key other than `k` does not change the lookup at `k`. -/
theorem tfind_tset_ne (tbl : List (String × Sym)) (key k : String) (sym : Sym)
    (hne : key ≠ k) : tfind (tset tbl key sym) k = tfind tbl k := by
  unfold tset
  by_cases hc : (List.find? (fun e => e.1 == key) tbl).isSome = true
  · rw [if_pos hc]; exact tfind_map_set tbl key k sym hne
  · rw [if_neg hc]; exact tfind_append_single tbl key k sym hne

/-- `tupdate` never changes which keys are present. -/
theorem tfind_tupdate_none (tbl : List (String × Sym)) (key k : String)
    (g : Sym → Sym) (h : tfind tbl k = none) : tfind (tupdate tbl key g) k = none := by
  unfold tupdate
  induction tbl with
  | nil => rfl
  | cons e rest ih =>
      have hk : ¬ e.1 = k := by
        intro hk
        simp [tfind, hk] at h
      have h2 : tfind rest k = none := by simpa [tfind, hk] using h
      simp only [List.map_cons]
      by_cases hke : e.1 = key
      · rw [if_pos (by simpa using hke)]
        simp only [tfind]
        rw [if_neg hk]
        exact ih h2
      · rw [if_neg (by simpa using hke)]
        simp only [tfind]
        rw [if_neg hk]
        exact ih h2

/-- `markVariablesAsUsed` (and its list/option loops) never touches the
symbol table: it only records uses and pushes diagnostics. -/
theorem markUsed_symbolTable :
    ∀ n : Nat,
      (∀ (node : CNode) (scope : String) (stack : List String) (st : ASt),
        sizeOf node ≤ n →
        (markVariablesAsUsed node scope stack st).symbolTable = st.symbolTable) ∧
      (∀ (nodes : List CNode) (scope : String) (stack : List String) (st : ASt),
        sizeOf nodes ≤ n →
        (markUsedList nodes scope stack st).symbolTable = st.symbolTable) ∧
      (∀ (node? : Option CNode) (scope : String) (stack : List String) (st : ASt),
        sizeOf node? ≤ n →
        (markUsedOpt node? scope stack st).symbolTable = st.symbolTable) := by
  intro n
  induction n using Nat.strong_induction_on with
  | _ n ih =>
    have ihM : ∀ (node : CNode), sizeOf node < n → ∀ scope stack st,
        (markVariablesAsUsed node scope stack st).symbolTable = st.symbolTable :=
      fun node h scope stack st => (ih _ h).1 node scope stack st (Nat.le_refl _)
    have ihL : ∀ (nodes : List CNode), sizeOf nodes < n → ∀ scope stack st,
        (markUsedList nodes scope stack st).symbolTable = st.symbolTable :=
      fun nodes h scope stack st => (ih _ h).2.1 nodes scope stack st (Nat.le_refl _)
    have ihO : ∀ (node? : Option CNode), sizeOf node? < n → ∀ scope stack st,
        (markUsedOpt node? scope stack st).symbolTable = st.symbolTable :=
      fun o h scope stack st => (ih _ h).2.2 o scope stack st (Nat.le_refl _)
    refine ⟨?_, ?_, ?_⟩
    · intro node scope stack st hn
      cases node <;> try rfl
      case identifier name =>
        simp only [markVariablesAsUsed]
        cases hres : resolveVariable st.symbolTable (some name) scope stack with
        | none => rfl
        | some p =>
            obtain ⟨key, varSym⟩ := p
            simp [apply_ite ASt.symbolTable]
      case binaryExpression op l r =>
        have hl := ihM l (by simp at hn; omega)
        have hr := ihM r (by simp at hn; omega)
        simp only [markVariablesAsUsed]
        rw [hr, hl]
      case unaryExpression op a pfx =>
        simp only [markVariablesAsUsed]
        exact ihM a (by simp at hn; omega) _ _ _
      case assignmentExpression op l r =>
        simp only [markVariablesAsUsed]
        exact ihM r (by simp at hn; omega) _ _ _
      case callExpression callee args =>
        simp only [markVariablesAsUsed]
        exact ihL args (by simp at hn; omega) _ _ _
      case program body =>
        simp only [markVariablesAsUsed]
        exact ihL body (by simp at hn; omega) _ _ _
      case typedefDecl ts id =>
        have h1 := ihM ts (by simp at hn; omega)
        have h2 := ihM id (by simp at hn; omega)
        simp only [markVariablesAsUsed]
        rw [h2, h1]
      case functionDeclaration id rt isPtr params body =>
        have h1 := ihM id (by simp at hn; omega)
        have h2 := ihM rt (by simp at hn; omega)
        have h3 := ihL params (by simp at hn; omega)
        have h4 := ihO body (by simp at hn; omega)
        simp only [markVariablesAsUsed]
        rw [h4, h3, h2, h1]
      case variableDeclaration decls ts =>
        have h1 := ihL decls (by simp at hn; omega)
        have h2 := ihM ts (by simp at hn; omega)
        simp only [markVariablesAsUsed]
        rw [h2, h1]
      case variableDeclarator id isArr initzr isPtr =>
        have h1 := ihM id (by simp at hn; omega)
        have h2 := ihO initzr (by simp at hn; omega)
        simp only [markVariablesAsUsed]
        rw [h2, h1]
      case param pt nm isP isA =>
        simp only [markVariablesAsUsed]
        exact ihM pt (by simp at hn; omega) _ _ _
      case declarationSpecifiers sp =>
        simp only [markVariablesAsUsed]
        exact ihL sp (by simp at hn; omega) _ _ _
      case blockStatement body =>
        simp only [markVariablesAsUsed]
        exact ihL body (by simp at hn; omega) _ _ _
      case ifStatement t c a =>
        have h1 := ihO t (by simp at hn; omega)
        have h2 := ihO c (by simp at hn; omega)
        have h3 := ihO a (by simp at hn; omega)
        simp only [markVariablesAsUsed]
        rw [h3, h2, h1]
      case whileStatement t b =>
        have h1 := ihO t (by simp at hn; omega)
        have h2 := ihO b (by simp at hn; omega)
        simp only [markVariablesAsUsed]
        rw [h2, h1]
      case forStatement i tst u b =>
        have h1 := ihO i (by simp at hn; omega)
        have h2 := ihO tst (by simp at hn; omega)
        have h3 := ihO u (by simp at hn; omega)
        have h4 := ihO b (by simp at hn; omega)
        simp only [markVariablesAsUsed]
        rw [h4, h3, h2, h1]
      case returnStatement a =>
        simp only [markVariablesAsUsed]
        exact ihO a (by simp at hn; omega) _ _ _
      case expressionStatement e =>
        simp only [markVariablesAsUsed]
        exact ihM e (by simp at hn; omega) _ _ _
    · intro nodes scope stack st hn
      cases nodes with
      | nil => rfl
      | cons x rest =>
          have h1 := ihM x (by simp at hn; omega)
          have h2 := ihL rest (by simp at hn; omega)
          simp only [markUsedList]
          rw [h2, h1]
    · intro node? scope stack st hn
      cases node? with
      | none => rfl
      | some x =>
          simp only [markUsedOpt]
          exact ihM x (by simp at hn; omega) _ _ _

/-- `getExpressionType` never touches the symbol table. -/
theorem getExpr_symbolTable :
    ∀ n : Nat, ∀ (node : CNode) (scope : String) (stack : List String) (st : ASt),
      sizeOf node ≤ n →
      (getExpressionType node scope stack st).2.symbolTable = st.symbolTable := by
  intro n
  induction n using Nat.strong_induction_on with
  | _ n ih =>
    intro node scope stack st hn
    cases node <;> try rfl
    case identifier name =>
      simp only [getExpressionType]
      cases hres : resolveVariable st.symbolTable (some name) scope stack with
      | none => rfl
      | some p =>
          obtain ⟨key, varSym⟩ := p
          simp
    case binaryExpression op l r =>
      have hl := ih _ (by simp at hn; omega) l scope stack st (Nat.le_refl _)
      have hr := ih _ (by simp at hn; omega) r scope stack
        (getExpressionType l scope stack st).2 (Nat.le_refl _)
      simp only [getExpressionType]
      rw [hr, hl]
    case unaryExpression op a pfx =>
      have ha := ih _ (by simp at hn; omega) a scope stack st (Nat.le_refl _)
      simp only [getExpressionType]
      rw [ha]
    case assignmentExpression op l r =>
      simp only [getExpressionType]
      exact ih _ (by simp at hn; omega) l scope stack st (Nat.le_refl _)
    case callExpression callee args =>
      simp only [getExpressionType]
      split <;> rfl

/-- `checkTypes` (phase 2, with its loops) never touches the symbol table. -/
theorem checkTypes_symbolTable :
    ∀ n : Nat,
      (∀ (node : CNode) (scope : String) (stack : List String) (st : ASt),
        sizeOf node ≤ n →
        (checkTypes node scope stack st).symbolTable = st.symbolTable) ∧
      (∀ (nodes : List CNode) (scope : String) (stack : List String) (st : ASt),
        sizeOf nodes ≤ n →
        (ctList nodes scope stack st).symbolTable = st.symbolTable) ∧
      (∀ (args : List CNode) (i : Nat) (ps : List SymParam) (fn? : Option String)
         (scope : String) (stack : List String) (st : ASt),
        sizeOf args ≤ n →
        (ctArgsLoop args i ps fn? scope stack st).symbolTable = st.symbolTable) ∧
      (∀ (node? : Option CNode) (scope : String) (stack : List String) (st : ASt),
        sizeOf node? ≤ n →
        (ctOpt node? scope stack st).symbolTable = st.symbolTable) := by
  intro n
  induction n using Nat.strong_induction_on with
  | _ n ih =>
    have ihC : ∀ (node : CNode), sizeOf node < n → ∀ scope stack st,
        (checkTypes node scope stack st).symbolTable = st.symbolTable :=
      fun node h scope stack st => (ih _ h).1 node scope stack st (Nat.le_refl _)
    have ihL : ∀ (nodes : List CNode), sizeOf nodes < n → ∀ scope stack st,
        (ctList nodes scope stack st).symbolTable = st.symbolTable :=
      fun nodes h scope stack st => (ih _ h).2.1 nodes scope stack st (Nat.le_refl _)
    have ihA : ∀ (args : List CNode), sizeOf args < n → ∀ i ps fn? scope stack st,
        (ctArgsLoop args i ps fn? scope stack st).symbolTable = st.symbolTable :=
      fun args h i ps fn? scope stack st =>
        (ih _ h).2.2.1 args i ps fn? scope stack st (Nat.le_refl _)
    have ihO : ∀ (node? : Option CNode), sizeOf node? < n → ∀ scope stack st,
        (ctOpt node? scope stack st).symbolTable = st.symbolTable :=
      fun o h scope stack st => (ih _ h).2.2.2 o scope stack st (Nat.le_refl _)
    refine ⟨?_, ?_, ?_, ?_⟩
    · intro node scope stack st hn
      cases node <;> try rfl
      case program body =>
        simp only [checkTypes]
        exact ihL body (by simp at hn; omega) _ _ _
      case assignmentExpression op l r =>
        have hgl := getExpr_symbolTable (sizeOf l) l scope stack st (Nat.le_refl _)
        have hgr := getExpr_symbolTable (sizeOf r) r scope stack
          (getExpressionType l scope stack st).2 (Nat.le_refl _)
        have hcl := ihC l (by simp at hn; omega)
        have hcr := ihC r (by simp at hn; omega)
        simp only [checkTypes]
        rw [hcr, hcl]
        split
        · split_ifs <;> ((try simp only [pushSemErr_symbolTable]); rw [hgr, hgl])
        · rw [hgr, hgl]
      case callExpression callee args =>
        have hargs := ihA args (by simp at hn; omega)
        simp only [checkTypes]
        split
        · rfl
        · rw [hargs]
          split_ifs <;> rfl
      case typedefDecl ts id =>
        have h1 := ihC ts (by simp at hn; omega)
        have h2 := ihC id (by simp at hn; omega)
        simp only [checkTypes]
        rw [h2, h1]
      case functionDeclaration id rt isPtr params body =>
        have h1 := ihC id (by simp at hn; omega)
        have h2 := ihC rt (by simp at hn; omega)
        have h3 := ihL params (by simp at hn; omega)
        have h4 := ihO body (by simp at hn; omega)
        simp only [checkTypes]
        rw [h4, h3, h2, h1]
      case variableDeclaration decls ts =>
        have h1 := ihL decls (by simp at hn; omega)
        have h2 := ihC ts (by simp at hn; omega)
        simp only [checkTypes]
        rw [h2, h1]
      case variableDeclarator id isArr initzr isPtr =>
        have h1 := ihC id (by simp at hn; omega)
        have h2 := ihO initzr (by simp at hn; omega)
        simp only [checkTypes]
        rw [h2, h1]
      case param pt nm isP isA =>
        simp only [checkTypes]
        exact ihC pt (by simp at hn; omega) _ _ _
      case declarationSpecifiers sp =>
        simp only [checkTypes]
        exact ihL sp (by simp at hn; omega) _ _ _
      case blockStatement body =>
        simp only [checkTypes]
        exact ihL body (by simp at hn; omega) _ _ _
      case ifStatement t c a =>
        have h1 := ihO t (by simp at hn; omega)
        have h2 := ihO c (by simp at hn; omega)
        have h3 := ihO a (by simp at hn; omega)
        simp only [checkTypes]
        rw [h3, h2, h1]
      case whileStatement t b =>
        have h1 := ihO t (by simp at hn; omega)
        have h2 := ihO b (by simp at hn; omega)
        simp only [checkTypes]
        rw [h2, h1]
      case forStatement i t u b =>
        have h1 := ihO i (by simp at hn; omega)
        have h2 := ihO t (by simp at hn; omega)
        have h3 := ihO u (by simp at hn; omega)
        have h4 := ihO b (by simp at hn; omega)
        simp only [checkTypes]
        rw [h4, h3, h2, h1]
      case returnStatement a =>
        simp only [checkTypes]
        exact ihO a (by simp at hn; omega) _ _ _
      case expressionStatement e =>
        simp only [checkTypes]
        exact ihC e (by simp at hn; omega) _ _ _
      case binaryExpression op l r =>
        have h1 := ihC l (by simp at hn; omega)
        have h2 := ihC r (by simp at hn; omega)
        simp only [checkTypes]
        rw [h2, h1]
      case unaryExpression op a pfx =>
        simp only [checkTypes]
        exact ihC a (by simp at hn; omega) _ _ _
    · intro nodes scope stack st hn
      cases nodes with
      | nil => rfl
      | cons x rest =>
          have h1 := ihC x (by simp at hn; omega)
          have h2 := ihL rest (by simp at hn; omega)
          simp only [ctList]
          rw [h2, h1]
    · intro args i ps fn? scope stack st hn
      cases args with
      | nil => rfl
      | cons arg rest =>
          have h1 := ihC arg (by simp at hn; omega)
          have h2 := ihA rest (by simp at hn; omega)
          have hg := getExpr_symbolTable (sizeOf arg) arg scope stack
            (checkTypes arg scope stack st) (Nat.le_refl _)
          simp only [ctArgsLoop]
          rw [h2]
          split
          · split
            · split_ifs <;> ((try simp only [pushSemErr_symbolTable]); rw [hg, h1])
            · rw [hg, h1]
          · rw [h1]
    · intro node? scope stack st hn
      cases node? with
      | none => rfl
      | some x =>
          simp only [ctOpt]
          exact ihC x (by simp at hn; omega) _ _ _

/-- `tset` grows the table by at most one entry and never shrinks it. -/
theorem tset_length (tbl : List (String × Sym)) (key : String) (sym : Sym) :
    tbl.length ≤ (tset tbl key sym).length := by
  unfold tset; split <;> simp

theorem tpres_refl (t : List (String × Sym)) : tpres t t := ⟨le_refl _, id⟩

theorem tpres_trans {a b c : List (String × Sym)} (h1 : tpres a b) (h2 : tpres b c) :
    tpres a c := ⟨le_trans h1.1 h2.1, fun h => h2.2 (h1.2 h)⟩

/-- A `tset` at a key other than `global:main` is a `tpres` step. -/
theorem tpres_tset {tbl : List (String × Sym)} {key : String} {sym : Sym}
    (hne : key ≠ "global:main") : tpres tbl (tset tbl key sym) :=
  ⟨tset_length tbl key sym, fun h => by rw [tfind_tset_ne tbl key _ sym hne]; exact h⟩

/-- A `tupdate` is a `tpres` step. -/
theorem tpres_tupdate (tbl : List (String × Sym)) (key : String) (g : Sym → Sym) :
    tpres tbl (tupdate tbl key g) :=
  ⟨by simp [tupdate], fun h => tfind_tupdate_none tbl key _ g h⟩

/-- Tables equal as lists are trivially `tpres`-related. -/
theorem tpres_of_eq {a b : List (String × Sym)} (h : a = b) : tpres a b := h ▸ tpres_refl a

/-- A fold whose steps are all `tpres` steps is a `tpres` step. -/
theorem tpres_foldl {α : Type} (f : ASt → α → ASt) (l : List α) (st : ASt)
    (hstep : ∀ s a, a ∈ l → tpres s.symbolTable (f s a).symbolTable) :
    tpres st.symbolTable (l.foldl f st).symbolTable := by
  induction l generalizing st with
  | nil => exact tpres_refl _
  | cons a rest ih =>
      exact tpres_trans (hstep st a (by simp))
        (ih (f st a) (fun s b hb => hstep s b (by simp [hb])))

/-- Seeding the builtin functions only writes `builtin:`-scoped keys. -/
theorem addStd_tpres (st : ASt) :
    tpres st.symbolTable (addStandardLibraryFunctions st).symbolTable := by
  apply tpres_foldl
  intro s f _
  refine tpres_tset ?_
  intro hk
  exact absurd (getSymbolKey_eq_global_main hk).1 (by decide)

/-- Preprocessing writes only `builtin:`/`preprocessor:` keys and
`global:<macro>` keys; when no `#define` captures the name `main`, the key
`global:main` is never created, and the table never shrinks. -/
theorem preprocess_tpres (code : String) (st : ASt)
    (hdef : ∀ nv ∈ scanDefines code, nv.1 ≠ "main") :
    tpres st.symbolTable (processPreprocessorDirectives code st).symbolTable := by
  unfold processPreprocessorDirectives
  split
  · exact tpres_refl _
  · refine tpres_trans (addStd_tpres st) (tpres_trans (tpres_foldl _ _ _ ?_) (tpres_foldl _ _ _ ?_))
    · intro s h _
      refine tpres_tset ?_
      intro hk
      exact absurd (getSymbolKey_eq_global_main hk).1 (by decide)
    · intro s nv hnv
      refine tpres_tset ?_
      intro hk
      exact hdef nv hnv (getSymbolKey_eq_global_main hk).2

/-- Registering parameters writes only `<function>:<param>` keys; when no
parameter is named `main`, the key `global:main` is never created. -/
theorem registerParams_tpres (params : List CNode) (fnScope : String) (st : ASt)
    (hp : params.all paramNameGood = true) :
    tpres st.symbolTable (registerParams params fnScope st).symbolTable := by
  unfold registerParams
  apply tpres_foldl
  intro s p hmem
  have hpg : paramNameGood p = true := List.all_eq_true.mp hp p hmem
  have hstep : ∀ (nm : String) (sym : Sym), nm ≠ "main" →
      tpres s.symbolTable (tset s.symbolTable (getSymbolKey nm fnScope) sym) :=
    fun nm sym hnm => tpres_tset (fun hk => hnm (getSymbolKey_eq_global_main hk).2)
  cases p <;> try exact tpres_refl _
  case param pt n isArr isP =>
      dsimp only
      have hn : n ≠ "main" := by simpa [paramNameGood, jsNameOf] using hpg
      by_cases hne : n = ""
      · rw [if_pos hne]
        exact tpres_refl _
      · rw [if_neg hne]
        exact hstep n _ hn
  case identifier n =>
      dsimp only [jsNameOf]
      have hn : n ≠ "main" := by simpa [paramNameGood, jsNameOf] using hpg
      by_cases hne : n = ""
      · rw [if_pos hne]
        exact tpres_refl _
      · rw [if_neg hne]
        exact hstep n _ hn
  case typeSpecifier n =>
      dsimp only [jsNameOf]
      have hn : n ≠ "main" := by simpa [paramNameGood, jsNameOf] using hpg
      by_cases hne : n = ""
      · rw [if_pos hne]
        exact tpres_refl _
      · rw [if_neg hne]
        exact hstep n _ hn
  case typeQualifier n =>
      dsimp only [jsNameOf]
      have hn : n ≠ "main" := by simpa [paramNameGood, jsNameOf] using hpg
      by_cases hne : n = ""
      · rw [if_pos hne]
        exact tpres_refl _
      · rw [if_neg hne]
        exact hstep n _ hn
  case complexType k n? =>
      cases n? with
      | none => exact tpres_refl _
      | some n =>
          dsimp only [jsNameOf]
          have hn : n ≠ "main" := by simpa [paramNameGood, jsNameOf] using hpg
          by_cases hne : n = ""
          · rw [if_pos hne]
            exact tpres_refl _
          · rw [if_neg hne]
            exact hstep n _ hn

/-- The printf-family pre-marking never touches the symbol table. -/
theorem bstPrintfUses_symbolTable (args : List CNode) (scope : String)
    (stack : List String) (st : ASt) :
    (bstPrintfUses args scope stack st).symbolTable = st.symbolTable := by
  unfold bstPrintfUses
  induction args generalizing st with
  | nil => rfl
  | cons a rest ih =>
      simp only [List.foldl_cons]
      rw [ih]
      rw [(markUsed_symbolTable (sizeOf a)).1 a scope stack _ (Nat.le_refl _)]
      cases a <;> first | rfl | simp

/-- The assignment post-processing only runs `tupdate`: a `tpres` step. -/
theorem bstAssignInit_tpres (l : CNode) (scope : String) (stack : List String)
    (st3 : ASt) :
    tpres st3.symbolTable (bstAssignInit l scope stack st3).symbolTable := by
  unfold bstAssignInit
  cases l <;> try exact tpres_refl _
  case identifier vn =>
      dsimp only
      cases resolveVariable st3.symbolTable (some vn) scope stack with
      | none => exact tpres_refl _
      | some p =>
          obtain ⟨key, s⟩ := p
          dsimp only
          exact tpres_tupdate _ _ _

/-- Phase 1 never shrinks the symbol table, and when no declaration in the
AST is named `main`, it never creates the key `global:main`. -/
theorem bst_tpres :
    ∀ n : Nat,
      (∀ (oracle : Nat → String) (node : CNode) (scope : String)
         (stack : List String) (st : ASt),
        sizeOf node ≤ n → goodNames node = true →
        tpres st.symbolTable (buildSymbolTable oracle node scope stack st).symbolTable) ∧
      (∀ (oracle : Nat → String) (node? : Option CNode) (scope : String)
         (stack : List String) (st : ASt),
        sizeOf node? ≤ n → goodNamesOpt node? = true →
        tpres st.symbolTable (bstOpt oracle node? scope stack st).symbolTable) ∧
      (∀ (oracle : Nat → String) (node? : Option CNode) (us : String)
         (ustk : List String) (bs : String) (bstk : List String) (st : ASt),
        sizeOf node? ≤ n → goodNamesOpt node? = true →
        tpres st.symbolTable (bstMarkBuildOpt oracle node? us ustk bs bstk st).symbolTable) ∧
      (∀ (oracle : Nat → String) (node? : Option CNode) (scope : String)
         (stack : List String) (st : ASt),
        sizeOf node? ≤ n → goodNamesOpt node? = true →
        tpres st.symbolTable (bstBuildMarkOpt oracle node? scope stack st).symbolTable) ∧
      (∀ (oracle : Nat → String) (body : Option CNode) (fn : String)
         (params : List CNode) (stack : List String) (st : ASt),
        sizeOf body ≤ n → params.all paramNameGood = true → goodNamesOpt body = true →
        tpres st.symbolTable (bstFnBody oracle body fn params stack st).symbolTable) ∧
      (∀ (oracle : Nat → String) (alt? : Option CNode) (scope : String)
         (stack : List String) (st : ASt),
        sizeOf alt? ≤ n → goodNamesOpt alt? = true →
        tpres st.symbolTable (bstElse oracle alt? scope stack st).symbolTable) ∧
      (∀ (oracle : Nat → String) (nodes : List CNode) (scope : String)
         (stack : List String) (st : ASt),
        sizeOf nodes ≤ n → goodNamesList nodes = true →
        tpres st.symbolTable (bstList oracle nodes scope stack st).symbolTable) ∧
      (∀ (oracle : Nat → String) (nodes : List CNode) (scope : String)
         (stack : List String) (st : ASt),
        sizeOf nodes ≤ n → goodNamesList nodes = true →
        tpres st.symbolTable (bstArgsLoop oracle nodes scope stack st).symbolTable) ∧
      (∀ (oracle : Nat → String) (nodes : List CNode) (scope : String)
         (stack : List String) (st : ASt),
        sizeOf nodes ≤ n → goodNamesList nodes = true →
        tpres st.symbolTable (bstBothList oracle nodes scope stack st).symbolTable) ∧
      (∀ (oracle : Nat → String) (decls : List CNode) (varType scope : String)
         (stack : List String) (st : ASt),
        sizeOf decls ≤ n → goodNamesList decls = true →
        tpres st.symbolTable (bstDeclLoop oracle decls varType scope stack st).symbolTable) := by
  intro n
  induction n using Nat.strong_induction_on with
  | _ n ih =>
    have mvp : ∀ (x : CNode) (scope : String) (stack : List String) (st : ASt),
        tpres st.symbolTable (markVariablesAsUsed x scope stack st).symbolTable :=
      fun x scope stack st =>
        tpres_of_eq ((markUsed_symbolTable (sizeOf x)).1 x scope stack st (Nat.le_refl _)).symm
    have mvop : ∀ (o : Option CNode) (scope : String) (stack : List String) (st : ASt),
        tpres st.symbolTable (markUsedOpt o scope stack st).symbolTable :=
      fun o scope stack st =>
        tpres_of_eq ((markUsed_symbolTable (sizeOf o)).2.2 o scope stack st (Nat.le_refl _)).symm
    have ihB : ∀ (x : CNode), sizeOf x < n → goodNames x = true →
        ∀ oracle scope stack (st : ASt),
        tpres st.symbolTable (buildSymbolTable oracle x scope stack st).symbolTable :=
      fun x h hg oracle scope stack st => (ih _ h).1 oracle x scope stack st (Nat.le_refl _) hg
    have ihO : ∀ (o : Option CNode), sizeOf o < n → goodNamesOpt o = true →
        ∀ oracle scope stack (st : ASt),
        tpres st.symbolTable (bstOpt oracle o scope stack st).symbolTable :=
      fun o h hg oracle scope stack st => (ih _ h).2.1 oracle o scope stack st (Nat.le_refl _) hg
    have ihMB : ∀ (o : Option CNode), sizeOf o < n → goodNamesOpt o = true →
        ∀ oracle us ustk bs bstk (st : ASt),
        tpres st.symbolTable (bstMarkBuildOpt oracle o us ustk bs bstk st).symbolTable :=
      fun o h hg oracle us ustk bs bstk st =>
        (ih _ h).2.2.1 oracle o us ustk bs bstk st (Nat.le_refl _) hg
    have ihBM : ∀ (o : Option CNode), sizeOf o < n → goodNamesOpt o = true →
        ∀ oracle scope stack (st : ASt),
        tpres st.symbolTable (bstBuildMarkOpt oracle o scope stack st).symbolTable :=
      fun o h hg oracle scope stack st =>
        (ih _ h).2.2.2.1 oracle o scope stack st (Nat.le_refl _) hg
    have ihFB : ∀ (o : Option CNode), sizeOf o < n →
        ∀ (params : List CNode), params.all paramNameGood = true → goodNamesOpt o = true →
        ∀ oracle fn stack (st : ASt),
        tpres st.symbolTable (bstFnBody oracle o fn params stack st).symbolTable :=
      fun o h params hp hg oracle fn stack st =>
        (ih _ h).2.2.2.2.1 oracle o fn params stack st (Nat.le_refl _) hp hg
    have ihEL : ∀ (o : Option CNode), sizeOf o < n → goodNamesOpt o = true →
        ∀ oracle scope stack (st : ASt),
        tpres st.symbolTable (bstElse oracle o scope stack st).symbolTable :=
      fun o h hg oracle scope stack st =>
        (ih _ h).2.2.2.2.2.1 oracle o scope stack st (Nat.le_refl _) hg
    have ihL : ∀ (l : List CNode), sizeOf l < n → goodNamesList l = true →
        ∀ oracle scope stack (st : ASt),
        tpres st.symbolTable (bstList oracle l scope stack st).symbolTable :=
      fun l h hg oracle scope stack st =>
        (ih _ h).2.2.2.2.2.2.1 oracle l scope stack st (Nat.le_refl _) hg
    have ihA : ∀ (l : List CNode), sizeOf l < n → goodNamesList l = true →
        ∀ oracle scope stack (st : ASt),
        tpres st.symbolTable (bstArgsLoop oracle l scope stack st).symbolTable :=
      fun l h hg oracle scope stack st =>
        (ih _ h).2.2.2.2.2.2.2.1 oracle l scope stack st (Nat.le_refl _) hg
    have ihBL : ∀ (l : List CNode), sizeOf l < n → goodNamesList l = true →
        ∀ oracle scope stack (st : ASt),
        tpres st.symbolTable (bstBothList oracle l scope stack st).symbolTable :=
      fun l h hg oracle scope stack st =>
        (ih _ h).2.2.2.2.2.2.2.2.1 oracle l scope stack st (Nat.le_refl _) hg
    have ihD : ∀ (l : List CNode), sizeOf l < n → goodNamesList l = true →
        ∀ oracle varType scope stack (st : ASt),
        tpres st.symbolTable (bstDeclLoop oracle l varType scope stack st).symbolTable :=
      fun l h hg oracle varType scope stack st =>
        (ih _ h).2.2.2.2.2.2.2.2.2 oracle l varType scope stack st (Nat.le_refl _) hg
    refine ⟨?_, ?_, ?_, ?_, ?_, ?_, ?_, ?_, ?_, ?_⟩
    · -- buildSymbolTable
      intro oracle node scope stack st hn hg
      cases node <;> try exact tpres_refl _
      case program body =>
        simp only [goodNames] at hg
        simp only [buildSymbolTable]
        exact ihL body (by simp at hn; omega) hg oracle scope stack st
      case functionDeclaration id rt isPtr params body =>
        simp only [goodNames, Bool.and_eq_true] at hg
        obtain ⟨⟨hid, hparams⟩, hbody⟩ := hg
        simp only [buildSymbolTable]
        cases hname : identName id with
        | none => exact tpres_refl _
        | some fn =>
            dsimp only
            by_cases hfn : fn = ""
            · rw [if_pos hfn]
              exact tpres_refl _
            · rw [if_neg hfn]
              have hfnm : fn ≠ "main" := by
                unfold declNameGood at hid
                rw [hname] at hid
                simpa using hid
              refine tpres_trans ?_
                (ihFB body (by simp at hn; omega) params hparams hbody oracle fn stack _)
              refine tpres_tset ?_
              intro hk
              exact hfnm (getSymbolKey_eq_global_main hk).2
      case variableDeclaration decls ts =>
        simp only [goodNames] at hg
        simp only [buildSymbolTable]
        exact ihD decls (by simp at hn; omega) hg oracle _ scope stack st
      case blockStatement body =>
        simp only [goodNames] at hg
        simp only [buildSymbolTable, takeTag]
        refine tpres_trans ?_ (ihL body (by simp at hn; omega) hg oracle _ _ _)
        exact tpres_of_eq rfl
      case ifStatement t c a =>
        simp only [goodNames, Bool.and_eq_true] at hg
        obtain ⟨⟨ht, hc⟩, ha⟩ := hg
        simp only [buildSymbolTable, takeTag]
        refine tpres_trans ?_ (ihEL a (by simp at hn; omega) ha oracle _ _ _)
        refine tpres_trans ?_ (ihO c (by simp at hn; omega) hc oracle _ _ _)
        refine tpres_trans ?_ (ihO t (by simp at hn; omega) ht oracle _ _ _)
        refine tpres_trans ?_ (mvop t _ _ _)
        exact tpres_of_eq rfl
      case forStatement i t u b =>
        simp only [goodNames, Bool.and_eq_true] at hg
        obtain ⟨⟨⟨hi, ht⟩, hu⟩, hb⟩ := hg
        simp only [buildSymbolTable, takeTag]
        refine tpres_trans ?_ (ihO b (by simp at hn; omega) hb oracle _ _ _)
        refine tpres_trans ?_ (ihMB u (by simp at hn; omega) hu oracle _ _ _ _ _)
        refine tpres_trans ?_ (ihMB t (by simp at hn; omega) ht oracle _ _ _ _ _)
        refine tpres_trans ?_ (ihO i (by simp at hn; omega) hi oracle _ _ _)
        exact tpres_of_eq rfl
      case whileStatement t b =>
        simp only [goodNames, Bool.and_eq_true] at hg
        obtain ⟨ht, hb⟩ := hg
        simp only [buildSymbolTable, takeTag]
        refine tpres_trans ?_ (ihO b (by simp at hn; omega) hb oracle _ _ _)
        refine tpres_trans ?_ (ihO t (by simp at hn; omega) ht oracle _ _ _)
        refine tpres_trans ?_ (mvop t _ _ _)
        exact tpres_of_eq rfl
      case returnStatement a =>
        simp only [goodNames] at hg
        simp only [buildSymbolTable]
        exact ihBM a (by simp at hn; omega) hg oracle scope stack st
      case expressionStatement e =>
        simp only [goodNames] at hg
        simp only [buildSymbolTable]
        exact tpres_trans (ihB e (by simp at hn; omega) hg oracle scope stack st) (mvp e _ _ _)
      case assignmentExpression op l r =>
        simp only [goodNames, Bool.and_eq_true] at hg
        obtain ⟨hl, hr⟩ := hg
        simp only [buildSymbolTable]
        refine tpres_trans (ihB l (by simp at hn; omega) hl oracle scope stack st)
          (tpres_trans (ihB r (by simp at hn; omega) hr oracle scope stack _)
            (tpres_trans (mvp r _ _ _) (bstAssignInit_tpres l scope stack _)))
      case callExpression callee args =>
        simp only [goodNames] at hg
        simp only [buildSymbolTable]
        refine tpres_trans ?_ (ihA args (by simp at hn; omega) hg oracle scope stack _)
        split
        · exact tpres_of_eq (bstPrintfUses_symbolTable args scope stack st).symm
        · exact tpres_refl _
      case typedefDecl ts id =>
        simp only [goodNames, Bool.and_eq_true] at hg
        obtain ⟨hts, hid⟩ := hg
        simp only [buildSymbolTable]
        refine tpres_trans (ihB ts (by simp at hn; omega) hts oracle scope stack st)
          (tpres_trans (mvp ts _ _ _)
            (tpres_trans (ihB id (by simp at hn; omega) hid oracle scope stack _) (mvp id _ _ _)))
      case variableDeclarator id isArr initzr isPtr =>
        simp only [goodNames, Bool.and_eq_true] at hg
        obtain ⟨⟨_, hid⟩, hin⟩ := hg
        simp only [buildSymbolTable]
        refine tpres_trans (ihB id (by simp at hn; omega) hid oracle scope stack st)
          (tpres_trans (mvp id _ _ _) (ihBM initzr (by simp at hn; omega) hin oracle scope stack _))
      case param pt nm isArr isP =>
        simp only [goodNames] at hg
        simp only [buildSymbolTable]
        exact tpres_trans (ihB pt (by simp at hn; omega) hg oracle scope stack st) (mvp pt _ _ _)
      case declarationSpecifiers sp =>
        simp only [goodNames] at hg
        simp only [buildSymbolTable]
        exact ihBL sp (by simp at hn; omega) hg oracle scope stack st
      case binaryExpression op l r =>
        simp only [goodNames, Bool.and_eq_true] at hg
        obtain ⟨hl, hr⟩ := hg
        simp only [buildSymbolTable]
        refine tpres_trans (ihB l (by simp at hn; omega) hl oracle scope stack st)
          (tpres_trans (mvp l _ _ _)
            (tpres_trans (ihB r (by simp at hn; omega) hr oracle scope stack _) (mvp r _ _ _)))
      case unaryExpression op a pfx =>
        simp only [goodNames] at hg
        simp only [buildSymbolTable]
        exact tpres_trans (ihB a (by simp at hn; omega) hg oracle scope stack st) (mvp a _ _ _)
    · -- bstOpt
      intro oracle node? scope stack st hn hg
      cases node? with
      | none => exact tpres_refl _
      | some x =>
          simp only [goodNamesOpt] at hg
          simp only [bstOpt]
          exact ihB x (by simp at hn; omega) hg oracle scope stack st
    · -- bstMarkBuildOpt
      intro oracle node? us ustk bs bstk st hn hg
      cases node? with
      | none => exact tpres_refl _
      | some x =>
          simp only [goodNamesOpt] at hg
          simp only [bstMarkBuildOpt]
          exact tpres_trans (mvp x _ _ _) (ihB x (by simp at hn; omega) hg oracle bs bstk _)
    · -- bstBuildMarkOpt
      intro oracle node? scope stack st hn hg
      cases node? with
      | none => exact tpres_refl _
      | some x =>
          simp only [goodNamesOpt] at hg
          simp only [bstBuildMarkOpt]
          exact tpres_trans (ihB x (by simp at hn; omega) hg oracle scope stack st) (mvp x _ _ _)
    · -- bstFnBody
      intro oracle body fn params stack st hn hp hg
      cases body with
      | none => exact tpres_refl _
      | some b =>
          simp only [goodNamesOpt] at hg
          simp only [bstFnBody]
          exact tpres_trans (registerParams_tpres params fn st hp)
            (ihB b (by simp at hn; omega) hg oracle fn (stack ++ [fn]) _)
    · -- bstElse
      intro oracle alt? scope stack st hn hg
      cases alt? with
      | none => exact tpres_refl _
      | some altn =>
          simp only [goodNamesOpt] at hg
          simp only [bstElse, takeTag]
          refine tpres_trans ?_ (ihB altn (by simp at hn; omega) hg oracle _ _ _)
          exact tpres_of_eq rfl
    · -- bstList
      intro oracle nodes scope stack st hn hg
      cases nodes with
      | nil => exact tpres_refl _
      | cons x rest =>
          simp only [goodNamesList, Bool.and_eq_true] at hg
          obtain ⟨hx, hrest⟩ := hg
          simp only [bstList]
          exact tpres_trans (ihB x (by simp at hn; omega) hx oracle scope stack st)
            (ihL rest (by simp at hn; omega) hrest oracle scope stack _)
    · -- bstArgsLoop
      intro oracle nodes scope stack st hn hg
      cases nodes with
      | nil => exact tpres_refl _
      | cons x rest =>
          simp only [goodNamesList, Bool.and_eq_true] at hg
          obtain ⟨hx, hrest⟩ := hg
          simp only [bstArgsLoop]
          exact tpres_trans (ihB x (by simp at hn; omega) hx oracle scope stack st)
            (tpres_trans (mvp x _ _ _) (ihA rest (by simp at hn; omega) hrest oracle scope stack _))
    · -- bstBothList
      intro oracle nodes scope stack st hn hg
      cases nodes with
      | nil => exact tpres_refl _
      | cons x rest =>
          simp only [goodNamesList, Bool.and_eq_true] at hg
          obtain ⟨hx, hrest⟩ := hg
          simp only [bstBothList]
          exact tpres_trans (ihB x (by simp at hn; omega) hx oracle scope stack st)
            (tpres_trans (mvp x _ _ _) (ihBL rest (by simp at hn; omega) hrest oracle scope stack _))
    · -- bstDeclLoop
      intro oracle decls varType scope stack st hn hg
      cases decls with
      | nil => exact tpres_refl _
      | cons d rest =>
          simp only [goodNamesList, Bool.and_eq_true] at hg
          obtain ⟨hd, hrest⟩ := hg
          cases d
          case variableDeclarator id isArr initzr isPtr =>
            simp only [goodNames, Bool.and_eq_true] at hd
            obtain ⟨⟨hdid, _⟩, hin⟩ := hd
            simp only [bstDeclLoop]
            refine tpres_trans ?_
              (ihD rest (by simp at hn; omega) hrest oracle varType scope stack _)
            cases hname : identName id with
            | none => exact tpres_refl _
            | some vn =>
                dsimp only
                by_cases hvn : vn = ""
                · rw [if_pos hvn]
                  exact tpres_refl _
                · rw [if_neg hvn]
                  by_cases hre : (tfind st.symbolTable (getSymbolKey vn scope)).isSome = true
                  · rw [if_pos hre]
                    exact tpres_refl _
                  · rw [if_neg hre]
                    have hvm : vn ≠ "main" := by
                      unfold declNameGood at hdid
                      rw [hname] at hdid
                      simpa using hdid
                    refine tpres_trans ?_
                      (ihBM initzr (by simp at hn; omega) hin oracle scope stack _)
                    refine tpres_tset ?_
                    intro hk
                    exact hvm (getSymbolKey_eq_global_main hk).2
          all_goals
            simp only [bstDeclLoop]
            exact ihD rest (by simp at hn; omega) hrest oracle varType scope stack st

/-- The unused-variable warning template is injective in the variable
name. -/
theorem unused_msg_inj {N M : String}
    (h : "Unused variable '" ++ N ++ "'" = "Unused variable '" ++ M ++ "'") :
    N = M := by
  have hd := congrArg String.data h
  simp only [String.data_append] at hd
  simp at hd
  cases N
  cases M
  simp_all [String.data]

/-- The unused-variable loop does not touch `variableUses`. -/
theorem unusedStep_variableUses (s : ASt) (e : String × Sym) :
    (unusedStep s e).variableUses = s.variableUses := by
  unfold unusedStep
  dsimp only
  split_ifs <;> rfl

/-- One unused-loop step appends either nothing or one unused-variable
warning for a name that is not in the use set. -/
theorem unusedStep_errs (s : ASt) (e : String × Sym) :
    (unusedStep s e).errors = s.errors ∨
    ∃ w, (unusedStep s e).errors = s.errors ++ [w] ∧
      w.message = "Unused variable '" ++ e.2.name ++ "'" ∧
      s.variableUses.contains e.2.name = false := by
  unfold unusedStep
  dsimp only
  split_ifs with h1 h2
  · exact Or.inl rfl
  · exact Or.inr ⟨_, rfl, rfl, by simpa using h2⟩
  · exact Or.inl rfl

/-- Errors already present survive the unused-variable loop. -/
theorem mem_unusedFold (l : List (String × Sym)) (s : ASt) (e : SemErr)
    (he : e ∈ s.errors) : e ∈ (l.foldl unusedStep s).errors := by
  induction l generalizing s with
  | nil => exact he
  | cons en rest ih =>
      refine ih (unusedStep s en) ?_
      rcases unusedStep_errs s en with h | ⟨w, hw, _, _⟩
      · rwa [h]
      · rw [hw]
        exact List.mem_append.mpr (Or.inl he)

/-- If a name is in the use set, the unused-variable loop never emits an
unused-variable warning for it: any such error in the output was already in
the input. -/
theorem unusedFold_mem (l : List (String × Sym)) (s : ASt) (e : SemErr)
    (N : String) (huses : s.variableUses.contains N = true)
    (he : e ∈ (l.foldl unusedStep s).errors)
    (hmsg : e.message = "Unused variable '" ++ N ++ "'") :
    e ∈ s.errors := by
  induction l generalizing s with
  | nil => exact he
  | cons en rest ih =>
      have h2 : e ∈ (unusedStep s en).errors := by
        refine ih (unusedStep s en) ?_ ?_
        · rw [unusedStep_variableUses]
          exact huses
        · simpa using he
      rcases unusedStep_errs s en with h | ⟨w, hw, hwm, hwc⟩
      · rwa [h] at h2
      · rw [hw] at h2
        rcases List.mem_append.mp h2 with h3 | h3
        · exact h3
        · have hew : e = w := by simpa using h3
          have hnm : N = en.2.name := unused_msg_inj (hmsg ▸ hew ▸ hwm ▸ rfl)
          rw [← hnm] at hwc
          rw [huses] at hwc
          exact absurd hwc (by simp)

/-- The missing-`main` message is never an unused-variable message. -/
theorem missing_ne_unused (N : String) :
    "Missing 'main' function" ≠ "Unused variable '" ++ N ++ "'" := by
  intro h
  have hd := congrArg String.data h
  simp [String.data_append] at hd

/-- For a non-empty source text, preprocessing runs the standard-library
seeding first and then only `tpres` steps. -/
theorem preprocess_tpres_from_std (code : String) (st : ASt)
    (hcode : code ≠ "")
    (hdef : ∀ nv ∈ scanDefines code, nv.1 ≠ "main") :
    tpres (addStandardLibraryFunctions st).symbolTable
      (processPreprocessorDirectives code st).symbolTable := by
  unfold processPreprocessorDirectives
  rw [if_neg hcode]
  refine tpres_trans (tpres_foldl _ _ _ ?_) (tpres_foldl _ _ _ ?_)
  · intro s h _
    refine tpres_tset ?_
    intro hk
    exact absurd (getSymbolKey_eq_global_main hk).1 (by decide)
  · intro s nv hnv
    refine tpres_tset ?_
    intro hk
    exact hdef nv hnv (getSymbolKey_eq_global_main hk).2

/-- Phase 3 emits the missing-`main` diagnostic whenever the table is
non-empty and has no `global:main` key. -/
theorem performSemanticChecks_missing_main (st : ASt)
    (hmain : tfind st.symbolTable "global:main" = none)
    (hne : st.symbolTable ≠ []) :
    "Missing 'main' function" ∈ ((performSemanticChecks st).errors.map SemErr.message) := by
  unfold performSemanticChecks
  dsimp only
  have hkey : getSymbolKey "main" "global" = "global:main" := rfl
  have hcond : (!(tfind st.symbolTable (getSymbolKey "main" "global")).isSome &&
      decide (st.symbolTable.length > 0)) = true := by
    rw [hkey, hmain]
    simp [List.length_pos, hne]
  rw [if_pos hcond]
  have hmem : ({ message := "Missing 'main' function"
                 description := "C program requires a 'main' function" } : SemErr) ∈
      (((pushSemErr st { message := "Missing 'main' function"
                         description := "C program requires a 'main' function" }).symbolTable).foldl
        unusedStep
        (pushSemErr st { message := "Missing 'main' function"
                         description := "C program requires a 'main' function" })).errors := by
    apply mem_unusedFold
    simp [pushSemErr]
  exact List.mem_map.mpr ⟨_, hmem, rfl⟩

/-! ## Parser cost lemmas (claim C8) -/

theorem get?_replicate_lt {α : Type} (a : α) :
    ∀ k p, p < k → (List.replicate k a).get? p = some a := by
  intro k
  induction k with
  | zero => intro p h; omega
  | succ k ih =>
      intro p h
      cases p with
      | zero => rfl
      | succ p => simpa [List.replicate] using ih p (by omega)

theorem get?_replicate_ge {α : Type} (a : α) :
    ∀ k p, k ≤ p → (List.replicate k a).get? p = none := by
  intro k
  induction k with
  | zero => intro p h; rfl
  | succ k ih =>
      intro p h
      cases p with
      | zero => omega
      | succ p => simpa [List.replicate] using ih p (by omega)

theorem peekAt_intToks_lt {k p : Nat} (h : p < k) :
    peekAt (intToks k) p = some (mkTk "type" "int" 0 3) := by
  simpa [peekAt, intToks] using get?_replicate_lt (mkTk "type" "int" 0 3) k p h

theorem peekAt_intToks_ge {k p : Nat} (h : k ≤ p) :
    peekAt (intToks k) p = none := by
  simpa [peekAt, intToks] using get?_replicate_ge (mkTk "type" "int" 0 3) k p h

/-- On a pure run of `int` type tokens, the specifier loop scans to the end
of the input: it consumes all `m` remaining tokens and `m + 1` steps. -/
theorem specLoop_int (k : Nat) :
    ∀ m f (acc : List CNode) (st : PSt), st.pos + m = k → m + 1 ≤ f →
    specLoop (intToks k) f acc st =
      (acc ++ List.replicate m (CNode.typeSpecifier "int"),
       { st with pos := k, cost := st.cost + m + 1 }) := by
  intro m
  induction m with
  | zero =>
      intro f acc st hpos hf
      obtain ⟨f', rfl⟩ : ∃ f', f = f' + 1 := ⟨f - 1, by omega⟩
      simp only [specLoop, tick]
      rw [show peekAt (intToks k) st.pos = none from peekAt_intToks_ge (by omega)]
      cases st
      simp_all
  | succ m ih =>
      intro f acc st hpos hf
      obtain ⟨f', rfl⟩ : ∃ f', f = f' + 1 := ⟨f - 1, by omega⟩
      simp only [specLoop, tick]
      rw [show peekAt (intToks k) st.pos = some (mkTk "type" "int" 0 3) from
        peekAt_intToks_lt (by omega)]
      dsimp only
      rw [if_pos (by decide), if_neg (by decide), if_neg (by decide)]
      refine (ih f' _ _ ?_ ?_).trans ?_
      · simp [padvance]
        omega
      · omega
      · cases st
        simp [padvance, List.replicate_succ, mkTk]
        omega

/-- `parseDeclarationSpecifiers` on a positive run of `int` tokens:
consumes them all in `m + 2` steps and returns the specifier list. -/
theorem parseDeclSpecifiers_int (k m f : Nat) (st : PSt)
    (hpos : st.pos + m = k) (hm : 0 < m) (hf : m + 2 ≤ f) :
    parseDeclarationSpecifiers (intToks k) f st =
      (some (CNode.declarationSpecifiers (List.replicate m (CNode.typeSpecifier "int"))),
       { st with pos := k, cost := st.cost + m + 2 }) := by
  obtain ⟨f', rfl⟩ : ∃ f', f = f' + 1 := ⟨f - 1, by omega⟩
  simp only [parseDeclarationSpecifiers, tick]
  rw [specLoop_int k m f' [] { st with cost := st.cost + 1 } (by simp; omega) (by omega)]
  rw [if_neg (by simp; omega)]
  cases st
  simp
  omega

/-- The top-level loop on `intToks k` from `m` tokens before the end:
every iteration rescans the whole remaining run, rewinds, reports
`Unrecognized declaration`, and advances one token, for a total of
`intScanCost m` steps — quadratic in `m`. Linear fuel suffices (the fuel
bounds only the call depth, not the step count). -/
theorem progLoop_int (k : Nat) :
    ∀ m f (acc : List CNode) (st : PSt), st.pos + m = k → k + m + 2 ≤ f →
    progLoop (intToks k) f acc st =
      (acc,
       { st with
          pos := k
          errors := st.errors ++ List.replicate m unrecErr
          cost := st.cost + intScanCost m }) := by
  intro m
  induction m with
  | zero =>
      intro f acc st hpos hf
      obtain ⟨f', rfl⟩ : ∃ f', f = f' + 1 := ⟨f - 1, by omega⟩
      simp only [progLoop, tick]
      rw [if_neg (by simp [intToks]; omega)]
      cases st
      simp_all [intScanCost]
  | succ m ih =>
      intro f acc st hpos hf
      obtain ⟨f', rfl⟩ : ∃ f', f = f' + 1 := ⟨f - 1, by omega⟩
      simp only [progLoop, tick]
      rw [if_pos (by simp [intToks]; omega)]
      rw [show peekAt (intToks k) st.pos = some (mkTk "type" "int" 0 3) from
        peekAt_intToks_lt (by omega)]
      dsimp only
      rw [if_neg (by decide), if_neg (by decide), if_pos (by decide)]
      rw [parseDeclSpecifiers_int k (m + 1) f' { st with cost := st.cost + 1 }
        (by simp; omega) (by omega) (by omega)]
      dsimp only
      rw [show peekAt (intToks k) k = none from peekAt_intToks_ge (le_refl k)]
      dsimp only
      rw [if_neg (by simp)]
      refine (ih f' acc _ ?_ ?_).trans ?_
      · simp [padvance, pushPErr]
        omega
      · omega
      · cases st
        simp [padvance, pushPErr, unrecErr, mkTk, List.replicate_succ, intScanCost]
        omega

/-- Closed form of the quadratic step count. -/
theorem intScanCost_closed : ∀ m, 2 * intScanCost m = m * m + 7 * m + 2 := by
  intro m
  induction m with
  | zero => rfl
  | succ m ih =>
      simp only [intScanCost]
      nlinarith [ih]

end CC

/-! ## Claims -/

open CC

/-- **C9**: for every AST, the code generator's returned statistics report
`optimizationPasses` equal to the constant `5`, regardless of how many
optimization passes actually ran before the fixed point was reached: the
result record carries the literal `5`, not the loop's pass count. -/
theorem C9_optimization_passes_reported_constant (ast : CNode) :
    (codeGenerator ast).statistics.optimizationPasses = 5 := rfl

/-- **C2 counterexample**: for the source
`int main() { for (int i = 0; i < 3; i = i + 1) { } return 0; }`, the
generated TAC contains no label `FOR_CONTINUE0` and no label `FOR_END0` —
`generateLabel` numbers all labels from one shared counter, so the claim's
labels `FOR_CONTINUE0`/`FOR_END0` never appear. -/
theorem C2_claimed_labels_absent :
    ((codeGenerator (parser forLoopTokens).1).intermediateCode.all
      (fun i => !(i.label == some "FOR_CONTINUE0" || i.label == some "FOR_END0"))) = true :=
  rfl

/-- **C2 amended**: for that source the generated TAC is exactly: `LABEL
main`, `FUNCTION_START`, init (`DECLARE i`, `ASSIGN 0 → i`), `LABEL
FOR_START0`, condition (`LT i 3 → t0`, `IF_FALSE t0 → FOR_END2`), empty
body, `LABEL FOR_CONTINUE1`, update (`ADD i 1 → t1`, `ASSIGN t1 → i`),
`GOTO FOR_START0`, `LABEL FOR_END2`, `RETURN 0`, `FUNCTION_END` — the
instruction order is as claimed, but the labels are `FOR_START0`,
`FOR_CONTINUE1`, `FOR_END2` (shared label counter), with `IF_FALSE`
targeting `FOR_END2`. -/
theorem C2_for_loop_tac :
    (codeGenerator (parser forLoopTokens).1).intermediateCode =
      [{ operation := "LABEL", label := some "main", lineNumber := 0 },
       { operation := "FUNCTION_START", arg1 := some "main", lineNumber := 1 },
       { operation := "DECLARE", arg1 := some "i", lineNumber := 2 },
       { operation := "ASSIGN", arg1 := some "0", result := some "i", lineNumber := 3 },
       { operation := "LABEL", label := some "FOR_START0", lineNumber := 4 },
       { operation := "LT", arg1 := some "i", arg2 := some "3", result := some "t0",
         lineNumber := 5 },
       { operation := "IF_FALSE", arg1 := some "t0", result := some "FOR_END2",
         lineNumber := 6 },
       { operation := "LABEL", label := some "FOR_CONTINUE1", lineNumber := 7 },
       { operation := "ADD", arg1 := some "i", arg2 := some "1", result := some "t1",
         lineNumber := 8 },
       { operation := "ASSIGN", arg1 := some "t1", result := some "i", lineNumber := 9 },
       { operation := "GOTO", result := some "FOR_START0", lineNumber := 10 },
       { operation := "LABEL", label := some "FOR_END2", lineNumber := 11 },
       { operation := "RETURN", arg1 := some "0", lineNumber := 12 },
       { operation := "FUNCTION_END", arg1 := some "main", lineNumber := 13 }] ∧
    (parser forLoopTokens).2 = [] :=
  ⟨rfl, rfl⟩

/-- **C1**: the semantic analyzer is *not* deterministic in the claimed
sense: block-scope keys embed the `Date.now()`/`Math.random()` draws
(modelled by the oracle), so two runs of the analyzer on the same AST and
source — differing only in those environment reads — produce different
symbol-table keys for `int main() { int a = 0; return a; }`. -/
theorem C1_scope_keys_depend_on_environment :
    (semanticAnalyzer oracleA (parser blockVarTokens).1 blockVarSource).1.map Prod.fst =
        ["main", "block_main_0.a"] ∧
    (semanticAnalyzer oracleB (parser blockVarTokens).1 blockVarSource).1.map Prod.fst =
        ["main", "block_main_T0.a"] ∧
    (semanticAnalyzer oracleA (parser blockVarTokens).1 blockVarSource).1.map Prod.fst ≠
      (semanticAnalyzer oracleB (parser blockVarTokens).1 blockVarSource).1.map Prod.fst := by
  refine ⟨rfl, rfl, ?_⟩
  show ["main", "block_main_0.a"] ≠ ["main", "block_main_T0.a"]
  decide

/-- **C4**: for the source `int x; int main() { return x; }` the parser
reports 0 syntax errors — but the semantic analyzer emits *no* diagnostics
at all (0 errors and 0 warnings), for every environment oracle: the parser
always sets `initializer` (to `null` when absent) and the analyzer tests
`initializer !== undefined`, so every declared variable is marked
initialized and the claimed `used before initialization` error is
unreachable; and no warning is emitted since `x` is read. The claim expects
1 error and 1 warning. -/
theorem C4_uninit_program_no_diagnostics (oracle : Nat → String) :
    (parser uninitTokens).2 = [] ∧
    (semanticAnalyzer oracle (parser uninitTokens).1 uninitSource).2 = [] :=
  ⟨rfl, rfl⟩

/-- **C3**: for every AST, the code generator's statistics satisfy
`optimizedInstructionCount ≤ instructionCount`, and applying the optimizer a
second time to its own output returns the same instruction sequence (the
bounded fixed-point loop always reaches a genuine fixed point of one pass
within its five-pass budget). -/
theorem C3_optimizer_monotone_and_idempotent (ast : CNode) :
    (codeGenerator ast).statistics.optimizedInstructionCount ≤
      (codeGenerator ast).statistics.instructionCount ∧
    optimizeCode (codeGenerator ast).optimizedCode = (codeGenerator ast).optimizedCode := by
  constructor
  · exact optLoop_length 5 _
  · exact optimizeCode_idempotent _

/-- **C7**: in the TAC of one code-generator invocation, a `break` emits
exactly one `GOTO` targeting the `endLabel` of the top (innermost) frame of
`loopStack`, a `continue` emits one `GOTO` targeting that frame's
`continueLabel`, and outside any loop each emits a diagnostic and no
instruction; every statement leaves `loopStack` as it found it, so the top
frame at a `break`/`continue` is the innermost enclosing loop's; a `while`
runs its body under a pushed frame whose `continueLabel` *is* its start
label, and a `for` under a pushed frame with the distinct
`FOR_CONTINUE` label. -/
theorem C7_break_continue_target_discipline :
    (∀ σ : GenSt, ∀ frame : LoopFrame, σ.loopStack.getLast? = some frame →
      generateStatement CNode.breakStatement σ =
        emit "GOTO" none none (some frame.endLabel) σ) ∧
    (∀ σ : GenSt, σ.loopStack = [] →
      generateStatement CNode.breakStatement σ =
        pushCgError "Break statement outside of loop" σ) ∧
    (∀ σ : GenSt, ∀ frame : LoopFrame, σ.loopStack.getLast? = some frame →
      generateStatement CNode.continueStatement σ =
        emit "GOTO" none none (some frame.continueLabel) σ) ∧
    (∀ σ : GenSt, σ.loopStack = [] →
      generateStatement CNode.continueStatement σ =
        pushCgError "Continue statement outside of loop" σ) ∧
    (∀ (node : CNode) (σ : GenSt), (generateStatement node σ).loopStack = σ.loopStack) ∧
    (∀ (t b : Option CNode) (σ : GenSt),
      generateStatement (CNode.whileStatement t b) σ =
        (let startLabel := "WHILE_START" ++ toString σ.labelCounter
         let endLabel := "WHILE_END" ++ toString (σ.labelCounter + 1)
         let frame : LoopFrame := ⟨startLabel, startLabel, endLabel⟩
         let σbody : GenSt := { σ with labelCounter := σ.labelCounter + 2,
                                       loopStack := σ.loopStack ++ [frame] }
         let pc := genExprOpt t (emitLabel startLabel σbody)
         let after := emitLabel endLabel (emit "GOTO" none none (some startLabel)
                        (genStmtOpt b (emit "IF_FALSE" pc.1 none (some endLabel) pc.2)))
         { after with loopStack := after.loopStack.dropLast })) ∧
    (∀ (i t u b : Option CNode) (σ : GenSt),
      generateStatement (CNode.forStatement i t u b) σ =
        (let startLabel := "FOR_START" ++ toString σ.labelCounter
         let continueLabel := "FOR_CONTINUE" ++ toString (σ.labelCounter + 1)
         let endLabel := "FOR_END" ++ toString (σ.labelCounter + 2)
         let frame : LoopFrame := ⟨startLabel, continueLabel, endLabel⟩
         let σbody : GenSt := { σ with labelCounter := σ.labelCounter + 3,
                                       loopStack := σ.loopStack ++ [frame] }
         let st4 := emitLabel startLabel (genForInit i σbody)
         let st5 := match t with
           | some tx =>
               let pc := generateExpression tx st4
               emit "IF_FALSE" pc.1 none (some endLabel) pc.2
           | none => st4
         let after := emitLabel endLabel (emit "GOTO" none none (some startLabel)
                        ((genExprOpt u (emitLabel continueLabel (genStmtOpt b st5))).2))
         { after with loopStack := after.loopStack.dropLast })) := by
  refine ⟨?_, ?_, ?_, ?_, ?_, ?_, ?_⟩
  · intro σ frame h
    simp only [generateStatement, h]
  · intro σ h
    simp only [generateStatement, h]
    rfl
  · intro σ frame h
    simp only [generateStatement, h]
  · intro σ h
    simp only [generateStatement, h]
    rfl
  · intro node σ
    exact (codegen_loopStack_balance (sizeOf node)).2.2.2.1 node σ (Nat.le_refl _)
  · intro t b σ
    rfl
  · intro i t u b σ
    cases t <;> rfl

/-- Witness for C7 at a concrete state: with the single loop frame
`⟨"S", "C", "E"⟩` on the stack, `break` emits `GOTO E` and `continue` emits
`GOTO C`; with an empty stack, `break` emits only the diagnostic. -/
theorem C7_break_continue_witness :
    generateStatement CNode.breakStatement
        { loopStack := [⟨"S", "C", "E"⟩] } =
      emit "GOTO" none none (some "E") { loopStack := [⟨"S", "C", "E"⟩] } ∧
    generateStatement CNode.continueStatement
        { loopStack := [⟨"S", "C", "E"⟩] } =
      emit "GOTO" none none (some "C") { loopStack := [⟨"S", "C", "E"⟩] } ∧
    generateStatement CNode.breakStatement {} =
      pushCgError "Break statement outside of loop" {} :=
  ⟨C7_break_continue_target_discipline.1 _ ⟨"S", "C", "E"⟩ rfl,
   C7_break_continue_target_discipline.2.2.1 _ ⟨"S", "C", "E"⟩ rfl,
   C7_break_continue_target_discipline.2.1 _ rfl⟩

/-- **C5** (corrected): phase 3 keys the missing-`main` check on the
presence of symbol-table key `global:main` and on the table being
non-empty. Because any non-empty source text seeds the 14 standard-library
builtins, the table is then always non-empty, so *every* analysis of a
non-empty source whose AST declares nothing named `main` (and whose source
text has no `#define main`) emits the missing-`main` diagnostic — including
an AST with no declarations at all. Only the empty source text with a
declaration-free AST escapes: there the analyzer emits no diagnostics. -/
theorem C5_missing_main_behavior :
    (∀ (oracle : Nat → String) (ast : CNode) (code : String),
      code ≠ "" → goodNames ast = true →
      (∀ nv ∈ scanDefines code, nv.1 ≠ "main") →
      "Missing 'main' function" ∈
        ((analyzeFull oracle ast code).errors.map SemErr.message)) ∧
    (∀ oracle : Nat → String, (analyzeFull oracle (CNode.program []) "").errors = []) := by
  constructor
  · intro oracle ast code hcode hg hdef
    show "Missing 'main' function" ∈
      ((performSemanticChecks (checkTypes ast "global" ["global"]
        (buildSymbolTable oracle ast "global" ["global"]
          (processPreprocessorDirectives code {})))).errors.map SemErr.message)
    have hstd_len : (addStandardLibraryFunctions ({} : ASt)).symbolTable.length = 14 := rfl
    have hstd_none :
        tfind (addStandardLibraryFunctions ({} : ASt)).symbolTable "global:main" = none := rfl
    have hpre := preprocess_tpres_from_std code {} hcode hdef
    have hbst := (bst_tpres (sizeOf ast)).1 oracle ast "global" ["global"]
      (processPreprocessorDirectives code {}) (Nat.le_refl _) hg
    have hct := (checkTypes_symbolTable (sizeOf ast)).1 ast "global" ["global"]
      (buildSymbolTable oracle ast "global" ["global"]
        (processPreprocessorDirectives code {})) (Nat.le_refl _)
    apply performSemanticChecks_missing_main
    · rw [hct]
      exact hbst.2 (hpre.2 hstd_none)
    · rw [hct]
      have hlen : 14 ≤ (buildSymbolTable oracle ast "global" ["global"]
          (processPreprocessorDirectives code {})).symbolTable.length :=
        le_trans (le_of_eq hstd_len.symm) (le_trans hpre.1 hbst.1)
      intro hnil
      rw [hnil] at hlen
      simp at hlen
  · intro oracle
    rfl

/-- **C5 counterexample**: the claim says a program containing no
declarations gets no missing-`main` diagnostic, but analyzing the empty
program against the whitespace source `" "` (which parses to that very AST)
emits exactly that diagnostic, because the builtin seeding makes the symbol
table non-empty. -/
theorem C5_empty_program_diagnostic :
    ((analyzeFull oracleA (CNode.program []) " ").errors.map SemErr.message) =
      ["Missing 'main' function"] := rfl

/-- Witness for C5 at the empty program: the hypotheses hold at the
concrete inputs and both conjuncts instantiate. -/
theorem C5_missing_main_witness :
    ((" " ≠ "") ∧ goodNames (CNode.program []) = true ∧
      (∀ nv ∈ scanDefines " ", nv.1 ≠ "main")) ∧
    "Missing 'main' function" ∈
      ((analyzeFull oracleA (CNode.program []) " ").errors.map SemErr.message) ∧
    (analyzeFull oracleA (CNode.program []) "").errors = [] :=
  ⟨⟨by decide, rfl, by decide⟩,
   C5_missing_main_behavior.1 oracleA (CNode.program []) " " (by decide) rfl (by decide),
   C5_missing_main_behavior.2 oracleA⟩

/-- **C10**: unused-variable detection is keyed by name alone. In general,
once a name is in the analyzer's use set, phase 3 emits no
`Unused variable` warning for that name — any such error in its output was
already in its input, whatever scope the symbol lives in. Concretely, for
`int main() { int x = 1; { int x = 2; } return x; }` the table holds two
distinct symbols named `x` and the inner declarator is never read, yet the
analysis emits no diagnostic at all, because the single read of the outer
`x` whitelists the name for both. -/
theorem C10_unused_keyed_by_name :
    (∀ (st : ASt) (N : String) (e : SemErr),
      st.variableUses.contains N = true →
      e ∈ (performSemanticChecks st).errors →
      e.message = "Unused variable '" ++ N ++ "'" →
      e ∈ st.errors) ∧
    ((parser shadowTokens).2 = [] ∧
     ((analyzeFull oracleA (parser shadowTokens).1 shadowSource).symbolTable.filter
        (fun en => en.2.name == "x")).length = 2 ∧
     (analyzeFull oracleA (parser shadowTokens).1 shadowSource).variableUses.contains "x"
        = true ∧
     (analyzeFull oracleA (parser shadowTokens).1 shadowSource).errors = []) := by
  constructor
  · intro st N e huses he hmsg
    unfold performSemanticChecks at he
    dsimp only at he
    by_cases hc : (!(tfind st.symbolTable (getSymbolKey "main" "global")).isSome &&
        decide (st.symbolTable.length > 0)) = true
    · rw [if_pos hc] at he
      have h2 := unusedFold_mem _ _ e N (by simpa using huses) he hmsg
      have h4 : e ∈ st.errors ∨
          e = { message := "Missing 'main' function"
                description := "C program requires a 'main' function" } := by
        simpa [pushSemErr] using h2
      rcases h4 with h3 | h3
      · exact h3
      · rw [h3] at hmsg
        exact absurd hmsg (missing_ne_unused N)
    · rw [if_neg hc] at he
      exact unusedFold_mem _ _ e N huses he hmsg
  · exact ⟨rfl, rfl, rfl, rfl⟩

/-- Witness for C10: a state whose use set contains `x` and whose error
list already holds an unused-`x` warning; phase 3 adds nothing, and the
theorem traces the warning back to the input. -/
theorem C10_unused_witness :
    (({ errors := [{ message := "Unused variable 'x'", description := "Variable is declared but never used" }],
        variableUses := ["x"] } : ASt).variableUses.contains "x" = true ∧
      ({ message := "Unused variable 'x'", description := "Variable is declared but never used" } : SemErr) ∈
        (performSemanticChecks
          { errors := [{ message := "Unused variable 'x'", description := "Variable is declared but never used" }],
            variableUses := ["x"] }).errors ∧
      ({ message := "Unused variable 'x'", description := "Variable is declared but never used" } : SemErr).message =
        "Unused variable '" ++ "x" ++ "'") ∧
    ({ message := "Unused variable 'x'", description := "Variable is declared but never used" } : SemErr) ∈
      ({ errors := [{ message := "Unused variable 'x'", description := "Variable is declared but never used" }],
         variableUses := ["x"] } : ASt).errors :=
  ⟨⟨by decide, by decide, rfl⟩,
   C10_unused_keyed_by_name.1
     { errors := [{ message := "Unused variable 'x'", description := "Variable is declared but never used" }], variableUses := ["x"] }
     "x" { message := "Unused variable 'x'", description := "Variable is declared but never used" } (by decide) (by decide) rfl⟩

/-- **C6**: for every pair of binary operators `op1`, `op2` from the
precedence table, `a op1 b op2 c` parses with `op2` binding tighter exactly
when its precedence is strictly higher, and groups to the left otherwise
(equal precedences are left-associative, since the right-hand side is
parsed at `opPrec + 1`); `a = b = c` parses right-associatively; and for
every binary operator `op`, `a = b op c` parses the whole of `b op c` as
the assigned value, so assignment binds lower than all binary operators.
All 196 parses succeed with no diagnostics. -/
theorem C6_precedence_associativity :
    (∀ op1 ∈ binOps, ∀ op2 ∈ binOps,
      (parseExpr (twoOpTokens op1 op2)).1 =
        some (if (binPrec op1).getD 0 < (binPrec op2).getD 0 then
          CNode.binaryExpression op1 (CNode.identifier "a")
            (CNode.binaryExpression op2 (CNode.identifier "b") (CNode.identifier "c"))
        else
          CNode.binaryExpression op2
            (CNode.binaryExpression op1 (CNode.identifier "a") (CNode.identifier "b"))
            (CNode.identifier "c")) ∧
      (parseExpr (twoOpTokens op1 op2)).2.errors = []) ∧
    ((parseExpr assignChainTokens).1 =
        some (CNode.assignmentExpression "=" (CNode.identifier "a")
          (CNode.assignmentExpression "=" (CNode.identifier "b") (CNode.identifier "c"))) ∧
      (parseExpr assignChainTokens).2.errors = []) ∧
    (∀ op ∈ binOps,
      (parseExpr (assignOpTokens op)).1 =
        some (CNode.assignmentExpression "=" (CNode.identifier "a")
          (CNode.binaryExpression op (CNode.identifier "b") (CNode.identifier "c"))) ∧
      (parseExpr (assignOpTokens op)).2.errors = []) := by
  refine ⟨?_, ⟨rfl, rfl⟩, ?_⟩
  · intro op1 h1 op2 h2
    fin_cases h1 <;> fin_cases h2 <;> exact ⟨rfl, rfl⟩
  · intro op h
    fin_cases h <;> exact ⟨rfl, rfl⟩

/-- Witness for C6 at `a + b * c` (higher precedence binds tighter) and
`a = b || c` (assignment binds lower than the lowest binary operator). -/
theorem C6_precedence_witness :
    ("+" ∈ binOps ∧ "*" ∈ binOps ∧ "||" ∈ binOps) ∧
    ((parseExpr (twoOpTokens "+" "*")).1 =
        some (if (binPrec "+").getD 0 < (binPrec "*").getD 0 then
          CNode.binaryExpression "+" (CNode.identifier "a")
            (CNode.binaryExpression "*" (CNode.identifier "b") (CNode.identifier "c"))
        else
          CNode.binaryExpression "*"
            (CNode.binaryExpression "+" (CNode.identifier "a") (CNode.identifier "b"))
            (CNode.identifier "c")) ∧
      (parseExpr (twoOpTokens "+" "*")).2.errors = []) ∧
    ((parseExpr (assignOpTokens "||")).1 =
        some (CNode.assignmentExpression "=" (CNode.identifier "a")
          (CNode.binaryExpression "||" (CNode.identifier "b") (CNode.identifier "c"))) ∧
      (parseExpr (assignOpTokens "||")).2.errors = []) :=
  ⟨⟨by decide, by decide, by decide⟩,
   C6_precedence_associativity.1 "+" (by decide) "*" (by decide),
   C6_precedence_associativity.2.2 "||" (by decide)⟩

/-- **C8**: the linear-time half of the claim fails. For every proposed
linear bound `a·n + b` there is a token list — a run of `int` type tokens —
on which the parser returns normally (its linear fuel never runs out, since
fuel bounds only call depth) but performs more than `a·n + b` steps: each
top-level iteration rescans the whole remaining specifier run through the
savepoint look-ahead, rewinds, and advances one token, so the step count on
`n` type tokens is `n(n+1)/2 + 3n + 1`, which is quadratic. -/
theorem C8_parser_not_linear_time :
    ∀ a b : Nat, ∃ tokens : List Token,
      (parserFull tokens).2.fuelOut = false ∧
      a * tokens.length + b < (parserFull tokens).2.cost := by
  intro a b
  refine ⟨intToks (2 * a + b + 8), ?_, ?_⟩
  all_goals
    have hlen : (intToks (2 * a + b + 8)).length = 2 * a + b + 8 := by
      simp [intToks]
    have hrun := progLoop_int (2 * a + b + 8) (2 * a + b + 8)
      (parserFuel (intToks (2 * a + b + 8))) [] {} (by simp)
      (by rw [parserFuel, hlen]; omega)
  · unfold parserFull
    rw [hrun]
  · unfold parserFull
    rw [hrun, hlen]
    show a * (2 * a + b + 8) + b < 0 + intScanCost (2 * a + b + 8)
    have hc := intScanCost_closed (2 * a + b + 8)
    have h1 : 2 * a ≤ 2 * a + b + 8 := by omega
    have h3 : (2 * a) * (2 * a + b + 8) ≤ (2 * a + b + 8) * (2 * a + b + 8) :=
      Nat.mul_le_mul_right _ h1
    have h5 : 2 * (a * (2 * a + b + 8) + b) <
        (2 * a + b + 8) * (2 * a + b + 8) + 7 * (2 * a + b + 8) + 2 := by
      nlinarith [h3]
    linarith [h5, hc]
